import Mathlib

/-!
# Rhythm evaluation-board API (`rhd2000evalboard.cpp`): embedding and properties

The class `Rhd2000EvalBoard` is embedded as a record of its data members
together with the state of the device handle `dev`.  Member functions take
the record and return the record after the call.  Every call made on `dev`
is appended to a log, so that "performs no register write" is a statement
about the log.  The `double` arithmetic of `setCableLengthMeters`, whose
result is converted to `int`, is IEEE 754 binary64 arithmetic (`Double`), every
operation rounded to nearest; `estimateCableLengthMeters` is embedded twice,
as the exact rational value of its formula and in the same binary64
arithmetic (`estimateCableLengthMetersDouble`); the `double` result of
`getSampleRate` is the exact rational value of its table entry.  `int` values are `Int`, `unsigned int` values are `Nat` reduced
modulo `2^32` where the source computes with them.
-/

/-- Endpoint names used by `rhd2000evalboard.cpp`.  The enumeration itself is
declared in `rhd2000evalboard.h`; the names are taken from their uses in the
source and are treated as pairwise distinct endpoints. -/
inductive OkEndPoint
  | WireInResetRun
  | WireInMaxTimeStepLsb
  | WireInMaxTimeStepMsb
  | WireInDataFreqPll
  | WireInMisoDelay
  | WireInCmdRamAddr
  | WireInCmdRamBank
  | WireInCmdRamData
  | WireInAuxCmdBank1
  | WireInAuxCmdBank2
  | WireInAuxCmdBank3
  | WireInAuxCmdLength1
  | WireInAuxCmdLength2
  | WireInAuxCmdLength3
  | WireInAuxCmdLoop1
  | WireInAuxCmdLoop2
  | WireInAuxCmdLoop3
  | WireInLedDisplay
  | WireInDataStreamSel1234
  | WireInDataStreamSel5678
  | WireInDataStreamEn
  | WireInTtlOut
  | WireInDacSource1
  | WireInDacSource2
  | WireInDacSource3
  | WireInDacSource4
  | WireInDacSource5
  | WireInDacSource6
  | WireInDacSource7
  | WireInDacSource8
  | WireInDacManual1
  | WireInDacManual2
  | TrigInDcmProg
  | TrigInSpiStart
  | TrigInRamWrite
  | WireOutNumWordsLsb
  | WireOutNumWordsMsb
  | WireOutSpiRunning
  | WireOutTtlIn
  | WireOutDataClkLocked
  | WireOutBoardId
  | WireOutBoardVersion
  | PipeOutData
  deriving DecidableEq, Repr

/-- A call made on the device handle `dev` that reaches the transport. -/
inductive TransportOp
  | SetWireInValue (ep : OkEndPoint) (val mask : Nat)
  | UpdateWireIns
  | ActivateTriggerIn (ep : OkEndPoint) (bit : Nat)
  | UpdateWireOuts
  | ReadFromPipeOut (ep : OkEndPoint) (length : Nat)
  deriving DecidableEq, Repr

/-- The device side of the transport: what a wire-out snapshot delivers on
each wire, and which byte a pipe read delivers at each position, as a
function of the calls made so far (the call being served included).  Any
sequence of poll results is such a function. -/
structure Hardware where
  wireOuts : List TransportOp → OkEndPoint → Nat
  pipeOut : List TransportOp → Nat → Nat

/-- Modelled from the spec: the Register Transport handle (`okCFrontPanel`,
an external library): the wire-in values held for the device, the last
wire-out snapshot, and the log of calls. -/
structure okCFrontPanel where
  wireIn : OkEndPoint → Nat
  wireOut : OkEndPoint → Nat
  log : List TransportOp

/-- Conversion of an `int` argument to the 32-bit unsigned parameter type. -/
def toUINT32 (v : Int) : Nat := (v % 4294967296).toNat

/-- Masked replacement of the bits of a 32-bit word:
`(old & ~mask) | (val & mask)`. -/
def maskedWrite (old val mask : Nat) : Nat :=
  (old &&& (0xffffffff ^^^ (mask % 4294967296))) ||| ((val % 4294967296) &&& (mask % 4294967296))

namespace okCFrontPanel

/-- `SetWireInValue(ep, val, mask)`: replaces the bits of wire `ep` selected by
`mask` with those of `val`; the mask defaults to `0xffffffff` in the library,
callers that omit it pass that value. -/
def SetWireInValue (ep : OkEndPoint) (val mask : Nat) (d : okCFrontPanel) : okCFrontPanel :=
  { d with
    wireIn := fun e => if e = ep then maskedWrite (d.wireIn ep) val mask else d.wireIn e
    log := d.log ++ [TransportOp.SetWireInValue ep val mask] }

/-- `UpdateWireIns()`: transfers the held wire-in values to the device. -/
def UpdateWireIns (d : okCFrontPanel) : okCFrontPanel :=
  { d with log := d.log ++ [TransportOp.UpdateWireIns] }

/-- `ActivateTriggerIn(ep, bit)`: pulses one trigger line. -/
def ActivateTriggerIn (ep : OkEndPoint) (bit : Nat) (d : okCFrontPanel) : okCFrontPanel :=
  { d with log := d.log ++ [TransportOp.ActivateTriggerIn ep bit] }

/-- `UpdateWireOuts()`: takes a new snapshot of all wire-outs. -/
def UpdateWireOuts (hw : Hardware) (d : okCFrontPanel) : okCFrontPanel :=
  { d with
    wireOut := hw.wireOuts (d.log ++ [TransportOp.UpdateWireOuts])
    log := d.log ++ [TransportOp.UpdateWireOuts] }

/-- `GetWireOutValue(ep)`: reads one wire of the last snapshot. -/
def GetWireOutValue (ep : OkEndPoint) (d : okCFrontPanel) : Nat :=
  d.wireOut ep

end okCFrontPanel

/-- A value of the C++ type `double` (IEEE 754 binary64) that is a finite
number, as the rational number it denotes; `none` stands for a value that is
not a finite number (an infinity or a NaN).  The sign of a zero is not kept:
no operation modelled here looks at it. -/
abbrev Double := Option ℚ

namespace Double

/-- The position of the leading binary digit of `n`, by halving at most `fuel`
times. -/
def log2Fuel : ℕ → ℕ → ℕ
  | 0, _ => 0
  | fuel + 1, n => if n < 2 then 0 else log2Fuel fuel (n / 2) + 1

/-- The position of the leading binary digit of `n`: the largest `k` with
`2 ^ k ≤ n`, for `n ≥ 1`. -/
def log2 (n : ℕ) : ℕ := log2Fuel n n

/-- The binary exponent of a positive rational `a`: the `e` with
`2 ^ e ≤ a < 2 ^ (e + 1)`. -/
def exponent (a : ℚ) : ℤ :=
  if (2 : ℚ) ^ ((log2 a.num.natAbs : ℤ) - (log2 a.den : ℤ)) ≤ a
  then (log2 a.num.natAbs : ℤ) - (log2 a.den : ℤ)
  else (log2 a.num.natAbs : ℤ) - (log2 a.den : ℤ) - 1

/-- The integer nearest to `y`, the even one of the two when `y` lies half way
between two integers. -/
def roundHalfEven (y : ℚ) : ℤ :=
  if y - ⌊y⌋ < 1 / 2 then ⌊y⌋
  else if 1 / 2 < y - ⌊y⌋ then ⌊y⌋ + 1
  else if ⌊y⌋ % 2 = 0 then ⌊y⌋ else ⌊y⌋ + 1

/-- The `double` nearest to the real number `x` (round to nearest, ties to
even; 53 binary digits, the smallest spacing `2 ^ (-1074)`): the result of
every arithmetic operation and the value of every decimal literal.  A result
of magnitude `2 ^ 1024` or more is an infinity. -/
def round (x : ℚ) : Double :=
  if x = 0 then some 0
  else
    let p : ℤ := max (exponent |x| - 52) (-1074)
    let r : ℚ := (roundHalfEven (|x| / 2 ^ p) : ℚ) * 2 ^ p
    if r < 2 ^ (1024 : ℕ) then some (if x < 0 then -r else r) else none

/-- `x * y` on `double`. -/
def mul (x y : Double) : Double :=
  x.bind (fun a => y.bind (fun b => round (a * b)))

/-- `x + y` on `double`. -/
def add (x y : Double) : Double :=
  x.bind (fun a => y.bind (fun b => round (a + b)))

/-- `x - y` on `double`. -/
def sub (x y : Double) : Double :=
  x.bind (fun a => y.bind (fun b => round (a - b)))

/-- `x / y` on `double`; a quotient by zero is not a finite number.  A
divisor that is not a finite number does not occur in this program. -/
def div (x y : Double) : Double :=
  x.bind (fun a => y.bind (fun b => if b = 0 then none else round (a / b)))

/-- `ceil(x)`: the least integer not below `x`, which is a `double`. -/
def ceil (x : Double) : Double :=
  x.map (fun a => ((⌈a⌉ : ℤ) : ℚ))

/-- The conversion `(int) x`: the fractional part is discarded; the behaviour
is undefined (`none`) when `x` is not a finite number or the truncated value
is outside the range of the 32-bit `int`. -/
def toInt (x : Double) : Option Int :=
  x.bind (fun a =>
    if -2147483648 ≤ (if 0 ≤ a then ⌊a⌋ else ⌈a⌉) ∧ (if 0 ≤ a then ⌊a⌋ else ⌈a⌉) ≤ 2147483647
    then some (if 0 ≤ a then ⌊a⌋ else ⌈a⌉) else none)

end Double

/-- `enum AmplifierSampleRate`; `invalid raw` stands for a value of the
enumeration type that is none of the seventeen enumerators (it takes the
`default:` branch of every `switch`). -/
inductive AmplifierSampleRate
  | SampleRate1000Hz
  | SampleRate1250Hz
  | SampleRate1500Hz
  | SampleRate2000Hz
  | SampleRate2500Hz
  | SampleRate3000Hz
  | SampleRate3333Hz
  | SampleRate4000Hz
  | SampleRate5000Hz
  | SampleRate6250Hz
  | SampleRate8000Hz
  | SampleRate10000Hz
  | SampleRate12500Hz
  | SampleRate15000Hz
  | SampleRate20000Hz
  | SampleRate25000Hz
  | SampleRate30000Hz
  | invalid (raw : Int)
  deriving DecidableEq, Repr

/-- `enum AuxCmdSlot`; `invalid raw` is a value that is none of `AuxCmd1`,
`AuxCmd2`, `AuxCmd3` (the source tests for it explicitly). -/
inductive AuxCmdSlot
  | AuxCmd1
  | AuxCmd2
  | AuxCmd3
  | invalid (raw : Int)
  deriving DecidableEq, Repr

/-- `enum BoardPort`. -/
inductive BoardPort
  | PortA
  | PortB
  | PortC
  | PortD
  deriving DecidableEq, Repr

/-- Modelled from the spec: `MAX_NUM_DATA_STREAMS` of `rhd2000evalboard.h`
("one of up to 8 logical lanes"; the source comments on "the eight
available USB data streams (0-7)"). -/
def MAX_NUM_DATA_STREAMS : Nat := 8

/-- The member `int dataStreamEnabled[MAX_NUM_DATA_STREAMS]`. -/
abbrev StreamArray := { l : List Int // l.length = MAX_NUM_DATA_STREAMS }

/-- `a[i]` for an index inside the array. -/
def StreamArray.get (a : StreamArray) (i : Nat) : Int := a.val.getD i 0

/-- `a[i] = v` for an index inside the array. -/
def StreamArray.set (a : StreamArray) (i : Nat) (v : Int) : StreamArray :=
  ⟨a.val.set i v, by rw [List.length_set]; exact a.property⟩

/-- The data members of class `Rhd2000EvalBoard`. -/
structure Rhd2000EvalBoard where
  sampleRate : AmplifierSampleRate
  numDataStreams : Int
  dataStreamEnabled : StreamArray
  usbBuffer : List Nat
  dev : okCFrontPanel

namespace Rhd2000EvalBoard

/-- The constructor.  It leaves `usbBuffer` uninitialised and the device
handle is created later by `open()`; both are parameters here. -/
def ctor (dev : okCFrontPanel) (usbBuffer : List Nat) : Rhd2000EvalBoard :=
  { sampleRate := AmplifierSampleRate.SampleRate30000Hz
    numDataStreams := 0
    dataStreamEnabled := ⟨List.replicate MAX_NUM_DATA_STREAMS 0, List.length_replicate _ _⟩
    usbBuffer := usbBuffer
    dev := dev }

/-- `enableDataStream(stream, enabled)`. -/
def enableDataStream (stream : Int) (enabled : Bool) (b : Rhd2000EvalBoard) : Rhd2000EvalBoard :=
  if stream < 0 ∨ stream > (MAX_NUM_DATA_STREAMS : Int) - 1 then b
  else if enabled then
    if b.dataStreamEnabled.get stream.toNat = 0 then
      { b with
        dev := (b.dev.SetWireInValue OkEndPoint.WireInDataStreamEn
                  (0x0001 <<< stream.toNat) (0x0001 <<< stream.toNat)).UpdateWireIns
        dataStreamEnabled := b.dataStreamEnabled.set stream.toNat 1
        numDataStreams := b.numDataStreams + 1 }
    else b
  else
    if b.dataStreamEnabled.get stream.toNat = 1 then
      { b with
        dev := (b.dev.SetWireInValue OkEndPoint.WireInDataStreamEn
                  (0x0000 <<< stream.toNat) (0x0001 <<< stream.toNat)).UpdateWireIns
        dataStreamEnabled := b.dataStreamEnabled.set stream.toNat 0
        numDataStreams := b.numDataStreams - 1 }
    else b

/-- `getNumEnabledDataStreams()`. -/
def getNumEnabledDataStreams (b : Rhd2000EvalBoard) : Int := b.numDataStreams

/-- A finite sequence of `enableDataStream` calls, first call first. -/
def enableDataStreamCalls (calls : List (Int × Bool)) (b : Rhd2000EvalBoard) : Rhd2000EvalBoard :=
  calls.foldl (fun s c => enableDataStream c.1 c.2 s) b

/-- The count/bitmap invariant: every entry is 0 or 1 and the maintained
count is the number of entries equal to 1. -/
def StreamInv (b : Rhd2000EvalBoard) : Prop :=
  (∀ x ∈ b.dataStreamEnabled.val, x = 0 ∨ x = 1) ∧
    b.numDataStreams = (b.dataStreamEnabled.val.count 1 : Nat)

/-- A device handle with all wires at zero and no call made yet; used for
concrete instances. -/
def idleDevice : okCFrontPanel :=
  { wireIn := fun _ => 0
    wireOut := fun _ => 0
    log := [] }

/-- The constructor state over the idle device, with stream 0 enabled by one
`enableDataStream(0, true)` call. -/
def boardStream0Enabled : Rhd2000EvalBoard :=
  enableDataStream 0 true (ctor idleDevice [])

/-- The `switch (port)` that sets `bitShift` in `selectAuxCommandBank` and in
`setCableDelay`. -/
def portBitShift : BoardPort → Nat
  | BoardPort.PortA => 0
  | BoardPort.PortB => 4
  | BoardPort.PortC => 8
  | BoardPort.PortD => 12

/-- The port number used by the specification: 0, 1, 2, 3 for ports A, B,
C, D. -/
def portIndex : BoardPort → Nat
  | BoardPort.PortA => 0
  | BoardPort.PortB => 1
  | BoardPort.PortC => 2
  | BoardPort.PortD => 3

/-- The 4-bit field number `p` of a packed register: bits `4*p .. 4*p+3`. -/
def portField (p : Nat) (reg : Nat) : Nat := (reg >>> (4 * p)) % 16

/-- The bank-select register of a slot (the wire named in the slot's branch of
`selectAuxCommandBank`); `none` for a value that is no slot. -/
def auxCmdBankWire : AuxCmdSlot → Option OkEndPoint
  | AuxCmdSlot.AuxCmd1 => some OkEndPoint.WireInAuxCmdBank1
  | AuxCmdSlot.AuxCmd2 => some OkEndPoint.WireInAuxCmdBank2
  | AuxCmdSlot.AuxCmd3 => some OkEndPoint.WireInAuxCmdBank3
  | AuxCmdSlot.invalid _ => none

/-- `selectAuxCommandBank(port, auxCommandSlot, bank)`. -/
def selectAuxCommandBank (port : BoardPort) (auxCommandSlot : AuxCmdSlot) (bank : Int)
    (b : Rhd2000EvalBoard) : Rhd2000EvalBoard :=
  if auxCommandSlot ≠ AuxCmdSlot.AuxCmd1 ∧ auxCommandSlot ≠ AuxCmdSlot.AuxCmd2
      ∧ auxCommandSlot ≠ AuxCmdSlot.AuxCmd3 then b
  else if bank < 0 ∨ bank > 15 then b
  else
    let bitShift := portBitShift port
    let dev1 :=
      match auxCommandSlot with
      | AuxCmdSlot.AuxCmd1 =>
        b.dev.SetWireInValue OkEndPoint.WireInAuxCmdBank1 (bank.toNat <<< bitShift) (0x000f <<< bitShift)
      | AuxCmdSlot.AuxCmd2 =>
        b.dev.SetWireInValue OkEndPoint.WireInAuxCmdBank2 (bank.toNat <<< bitShift) (0x000f <<< bitShift)
      | AuxCmdSlot.AuxCmd3 =>
        b.dev.SetWireInValue OkEndPoint.WireInAuxCmdBank3 (bank.toNat <<< bitShift) (0x000f <<< bitShift)
      | AuxCmdSlot.invalid _ => b.dev
    { b with dev := dev1.UpdateWireIns }

/-- `selectAuxCommandLength(auxCommandSlot, loopIndex, endIndex)`. -/
def selectAuxCommandLength (auxCommandSlot : AuxCmdSlot) (loopIndex endIndex : Int)
    (b : Rhd2000EvalBoard) : Rhd2000EvalBoard :=
  if auxCommandSlot ≠ AuxCmdSlot.AuxCmd1 ∧ auxCommandSlot ≠ AuxCmdSlot.AuxCmd2
      ∧ auxCommandSlot ≠ AuxCmdSlot.AuxCmd3 then b
  else if loopIndex < 0 ∨ loopIndex > 1023 then b
  else if endIndex < 0 ∨ endIndex > 1023 then b
  else
    let dev1 :=
      match auxCommandSlot with
      | AuxCmdSlot.AuxCmd1 =>
        (b.dev.SetWireInValue OkEndPoint.WireInAuxCmdLoop1 (toUINT32 loopIndex) 0xffffffff).SetWireInValue
          OkEndPoint.WireInAuxCmdLength1 (toUINT32 endIndex) 0xffffffff
      | AuxCmdSlot.AuxCmd2 =>
        (b.dev.SetWireInValue OkEndPoint.WireInAuxCmdLoop2 (toUINT32 loopIndex) 0xffffffff).SetWireInValue
          OkEndPoint.WireInAuxCmdLength2 (toUINT32 endIndex) 0xffffffff
      | AuxCmdSlot.AuxCmd3 =>
        (b.dev.SetWireInValue OkEndPoint.WireInAuxCmdLoop3 (toUINT32 loopIndex) 0xffffffff).SetWireInValue
          OkEndPoint.WireInAuxCmdLength3 (toUINT32 endIndex) 0xffffffff
      | AuxCmdSlot.invalid _ => b.dev
    { b with dev := dev1.UpdateWireIns }

/-- `setCableDelay(port, delay)`. -/
def setCableDelay (port : BoardPort) (delay : Int) (b : Rhd2000EvalBoard) : Rhd2000EvalBoard :=
  if delay < 0 ∨ delay > 15 then b
  else
    let bitShift := portBitShift port
    { b with
      dev := (b.dev.SetWireInValue OkEndPoint.WireInMisoDelay
                (delay.toNat <<< bitShift) (0x000f <<< bitShift)).UpdateWireIns }

/-- The constructor state over the idle device after selecting, for
`AuxCmd2`, bank 4 on port A, bank 3 on port B, bank 2 on port C and bank 1 on
port D (the register `WireInAuxCmdBank2` then holds `0x1234`). -/
def boardBanks1234 : Rhd2000EvalBoard :=
  selectAuxCommandBank BoardPort.PortD AuxCmdSlot.AuxCmd2 1
    (selectAuxCommandBank BoardPort.PortC AuxCmdSlot.AuxCmd2 2
      (selectAuxCommandBank BoardPort.PortB AuxCmdSlot.AuxCmd2 3
        (selectAuxCommandBank BoardPort.PortA AuxCmdSlot.AuxCmd2 4 (ctor idleDevice []))))

/-- The `switch (newSampleRate)` of `setSampleRate`: the values given to `M`
and `D`; `none` is the `default: return(false)` branch. -/
def setSampleRateMD : AmplifierSampleRate → Option (Nat × Nat)
  | AmplifierSampleRate.SampleRate1000Hz => some (7, 125)
  | AmplifierSampleRate.SampleRate1250Hz => some (7, 100)
  | AmplifierSampleRate.SampleRate1500Hz => some (21, 250)
  | AmplifierSampleRate.SampleRate2000Hz => some (14, 125)
  | AmplifierSampleRate.SampleRate2500Hz => some (35, 250)
  | AmplifierSampleRate.SampleRate3000Hz => some (21, 125)
  | AmplifierSampleRate.SampleRate3333Hz => some (14, 75)
  | AmplifierSampleRate.SampleRate4000Hz => some (28, 125)
  | AmplifierSampleRate.SampleRate5000Hz => some (7, 25)
  | AmplifierSampleRate.SampleRate6250Hz => some (7, 20)
  | AmplifierSampleRate.SampleRate8000Hz => some (112, 250)
  | AmplifierSampleRate.SampleRate10000Hz => some (14, 25)
  | AmplifierSampleRate.SampleRate12500Hz => some (7, 10)
  | AmplifierSampleRate.SampleRate15000Hz => some (21, 25)
  | AmplifierSampleRate.SampleRate20000Hz => some (28, 25)
  | AmplifierSampleRate.SampleRate25000Hz => some (35, 25)
  | AmplifierSampleRate.SampleRate30000Hz => some (42, 25)
  | AmplifierSampleRate.invalid _ => none

/-- `isDcmProgDone()`: a fresh snapshot, then bit 1 of `WireOutDataClkLocked`. -/
def isDcmProgDone (hw : Hardware) (b : Rhd2000EvalBoard) : Bool × Rhd2000EvalBoard :=
  let dev1 := b.dev.UpdateWireOuts hw
  let value := dev1.GetWireOutValue OkEndPoint.WireOutDataClkLocked
  (decide ((value &&& 0x0002) > 1), { b with dev := dev1 })

/-- `isDataClockLocked()`: a fresh snapshot, then bit 0 of `WireOutDataClkLocked`. -/
def isDataClockLocked (hw : Hardware) (b : Rhd2000EvalBoard) : Bool × Rhd2000EvalBoard :=
  let dev1 := b.dev.UpdateWireOuts hw
  let value := dev1.GetWireOutValue OkEndPoint.WireOutDataClkLocked
  (decide ((value &&& 0x0001) > 0), { b with dev := dev1 })

/-- The loop `while (poll() == false) {}` run for at most `fuel` polls.  The
first component is `some r` when the loop was left with `r` polls to spare and
`none` when all `fuel` polls returned false; the second is the state reached. -/
def whileNot (poll : Rhd2000EvalBoard → Bool × Rhd2000EvalBoard) :
    Nat → Rhd2000EvalBoard → Option Nat × Rhd2000EvalBoard
  | 0, b => (none, b)
  | fuel + 1, b =>
    if (poll b).1 then (some fuel, (poll b).2) else whileNot poll fuel (poll b).2

/-- Where a call stands after a bounded number of polls: it has returned
`ret`, or it is still inside one of its wait loops. -/
inductive Outcome
  | returned (ret : Bool) (b : Rhd2000EvalBoard)
  | waitingDcmProgDone (b : Rhd2000EvalBoard)
  | waitingDataClockLocked (b : Rhd2000EvalBoard)

/-- The board state of an outcome. -/
def Outcome.board : Outcome → Rhd2000EvalBoard
  | Outcome.returned _ b => b
  | Outcome.waitingDcmProgDone b => b
  | Outcome.waitingDataClockLocked b => b

/-- `setSampleRate(newSampleRate)`, run for at most `fuel` polls of the
status wire in total. -/
def setSampleRate (hw : Hardware) (fuel : Nat) (newSampleRate : AmplifierSampleRate)
    (b : Rhd2000EvalBoard) : Outcome :=
  match setSampleRateMD newSampleRate with
  | none => Outcome.returned false b
  | some (M, D) =>
    let b1 := { b with sampleRate := newSampleRate }
    match whileNot (isDcmProgDone hw) fuel b1 with
    | (none, b2) => Outcome.waitingDcmProgDone b2
    | (some fuel2, b2) =>
      let b3 := { b2 with
        dev := ((b2.dev.SetWireInValue OkEndPoint.WireInDataFreqPll (256 * M + D) 0xffffffff).UpdateWireIns).ActivateTriggerIn
                  OkEndPoint.TrigInDcmProg 0 }
      match whileNot (isDataClockLocked hw) fuel2 b3 with
      | (none, b4) => Outcome.waitingDataClockLocked b4
      | (some _, b4) => Outcome.returned true b4

/-- A device whose status wires read 3 at every snapshot (both
`DcmProgDone` and `DataClkLocked` set) and whose pipe delivers zero bytes. -/
def readyHardware : Hardware :=
  { wireOuts := fun _ _ => 3
    pipeOut := fun _ _ => 0 }

/-- A device that reports `DcmProgDone` (bit 1) at every snapshot and never
reports `DataClkLocked` (bit 0). -/
def neverLockingHardware : Hardware :=
  { wireOuts := fun _ _ => 2
    pipeOut := fun _ _ => 0 }

/-- `getSampleRate()`, the `double` result read as a rational number. -/
def getSampleRate (b : Rhd2000EvalBoard) : ℚ :=
  match b.sampleRate with
  | AmplifierSampleRate.SampleRate1000Hz => 1000
  | AmplifierSampleRate.SampleRate1250Hz => 1250
  | AmplifierSampleRate.SampleRate1500Hz => 1500
  | AmplifierSampleRate.SampleRate2000Hz => 2000
  | AmplifierSampleRate.SampleRate2500Hz => 2500
  | AmplifierSampleRate.SampleRate3000Hz => 3000
  | AmplifierSampleRate.SampleRate3333Hz => 10000 / 3
  | AmplifierSampleRate.SampleRate4000Hz => 4000
  | AmplifierSampleRate.SampleRate5000Hz => 5000
  | AmplifierSampleRate.SampleRate6250Hz => 6250
  | AmplifierSampleRate.SampleRate8000Hz => 8000
  | AmplifierSampleRate.SampleRate10000Hz => 10000
  | AmplifierSampleRate.SampleRate12500Hz => 12500
  | AmplifierSampleRate.SampleRate15000Hz => 15000
  | AmplifierSampleRate.SampleRate20000Hz => 20000
  | AmplifierSampleRate.SampleRate25000Hz => 25000
  | AmplifierSampleRate.SampleRate30000Hz => 30000
  | AmplifierSampleRate.invalid _ => -1

/-- `getSampleRateEnum()`. -/
def getSampleRateEnum (b : Rhd2000EvalBoard) : AmplifierSampleRate := b.sampleRate

/-- `numWordsInFifo()`: one snapshot, then `(Msb << 16) + Lsb` as an
`unsigned int`. -/
def numWordsInFifo (hw : Hardware) (b : Rhd2000EvalBoard) : Nat × Rhd2000EvalBoard :=
  let dev1 := b.dev.UpdateWireOuts hw
  (((dev1.GetWireOutValue OkEndPoint.WireOutNumWordsMsb <<< 16)
      + dev1.GetWireOutValue OkEndPoint.WireOutNumWordsLsb) % 4294967296,
    { b with dev := dev1 })

/-- `dev->ReadFromPipeOut(ep, length, usbBuffer)`: the first `length` bytes of
`usbBuffer` are overwritten with what the pipe delivers. -/
def ReadFromPipeOut (hw : Hardware) (ep : OkEndPoint) (length : Nat) (b : Rhd2000EvalBoard) :
    Rhd2000EvalBoard :=
  let log1 := b.dev.log ++ [TransportOp.ReadFromPipeOut ep length]
  { b with
    usbBuffer := (List.range length).map (hw.pipeOut log1) ++ b.usbBuffer.drop length
    dev := { b.dev with log := log1 } }

end Rhd2000EvalBoard

/-- Modelled from the spec: the Data Block codec (`Rhd2000DataBlock`, whose
source `rhd2000datablock.cpp` is not part of the tree): `sizeInWords`, the
constructor, `decode` of one block of a byte buffer at a block index, and
`serialize`.  `DataBlock` is the record type. -/
structure DataBlockCodec (DataBlock : Type) where
  calculateDataBlockSizeInWords : Int → Nat
  create : Int → DataBlock
  fillFromUsbBuffer : DataBlock → List Nat → Int → Int → DataBlock
  write : DataBlock → Int → List Nat

namespace Rhd2000EvalBoard

/-- The `for (i = 0; i < numBlocks; ++i)` loop of `readDataBlocks`, with
`k` iterations left, loop index `i`, the one reused `dataBlock`, and the
queue so far; each iteration decodes block `i` and pushes a copy. -/
def readDataBlocksLoop {DataBlock : Type} (codec : DataBlockCodec DataBlock) (usbBuffer : List Nat)
    (numDataStreams : Int) : Nat → Int → DataBlock → List DataBlock → List DataBlock
  | 0, _, _, dataQueue => dataQueue
  | k + 1, i, dataBlock, dataQueue =>
    let filled := codec.fillFromUsbBuffer dataBlock usbBuffer i numDataStreams
    readDataBlocksLoop codec usbBuffer numDataStreams k (i + 1) filled (dataQueue ++ [filled])

/-- `readDataBlocks(numBlocks, dataQueue)`.  `USB_BUFFER_SIZE` is a constant
of `rhd2000evalboard.h` and is a parameter.  The queue is a list, head
first.  Returns the boolean result, the queue and the board. -/
def readDataBlocks {DataBlock : Type} (USB_BUFFER_SIZE : Nat) (codec : DataBlockCodec DataBlock)
    (hw : Hardware) (numBlocks : Int) (dataQueue : List DataBlock) (b : Rhd2000EvalBoard) :
    Bool × List DataBlock × Rhd2000EvalBoard :=
  let numWordsToRead :=
    (toUINT32 numBlocks * (codec.calculateDataBlockSizeInWords b.numDataStreams % 4294967296)) % 4294967296
  let (inFifo, b1) := numWordsInFifo hw b
  if inFifo < numWordsToRead then (false, dataQueue, b1)
  else
    let numBytesToRead := (2 * numWordsToRead) % 4294967296
    if numBytesToRead > USB_BUFFER_SIZE then (false, dataQueue, b1)
    else
      let b2 := ReadFromPipeOut hw OkEndPoint.PipeOutData numBytesToRead b1
      let dataBlock := codec.create b2.numDataStreams
      (true,
        readDataBlocksLoop codec b2.usbBuffer b2.numDataStreams numBlocks.toNat 0 dataBlock dataQueue,
        b2)

/-- `readDataBlock(dataBlock)`.  `USB_BUFFER_SIZE` is a parameter.  Returns
the boolean result, the data block and the board. -/
def readDataBlock {DataBlock : Type} (USB_BUFFER_SIZE : Nat) (codec : DataBlockCodec DataBlock)
    (hw : Hardware) (dataBlock : DataBlock) (b : Rhd2000EvalBoard) :
    Bool × DataBlock × Rhd2000EvalBoard :=
  let numBytesToRead :=
    (2 * (codec.calculateDataBlockSizeInWords b.numDataStreams % 4294967296)) % 4294967296
  if numBytesToRead > USB_BUFFER_SIZE then (false, dataBlock, b)
  else
    let b1 := ReadFromPipeOut hw OkEndPoint.PipeOutData numBytesToRead b
    (true, codec.fillFromUsbBuffer dataBlock b1.usbBuffer 0 b1.numDataStreams, b1)

/-- The `while (!dataQueue.empty())` loop of `queueToFile`: the front record
is written to the stream `saveOut` (the bytes written so far), popped, and
counted.  Returns the count, the queue and the stream. -/
def queueToFileLoop {DataBlock : Type} (codec : DataBlockCodec DataBlock) (numDataStreams : Int) :
    List DataBlock → List Nat → Int → Int × List DataBlock × List Nat
  | [], saveOut, count => (count, [], saveOut)
  | front :: rest, saveOut, count =>
    queueToFileLoop codec numDataStreams rest (saveOut ++ codec.write front numDataStreams)
      (count + 1)

/-- `queueToFile(dataQueue, saveOut)`.  The counter is an `int`; it does not
overflow for a queue of fewer than `2^31` records. -/
def queueToFile {DataBlock : Type} (codec : DataBlockCodec DataBlock) (dataQueue : List DataBlock)
    (saveOut : List Nat) (b : Rhd2000EvalBoard) : Int × List DataBlock × List Nat :=
  queueToFileLoop codec (getNumEnabledDataStreams b) dataQueue saveOut 0

/-- The record pushed by iteration `j` of a decode loop that starts at block
index `i` with the reused block holding `dataBlock`: the block is decoded in
place, so each record is the decode of its block index into the record of the
iteration before. -/
def decodeFrom {DataBlock : Type} (codec : DataBlockCodec DataBlock) (usbBuffer : List Nat)
    (numDataStreams : Int) (dataBlock : DataBlock) (i : Int) : Nat → DataBlock
  | 0 => codec.fillFromUsbBuffer dataBlock usbBuffer i numDataStreams
  | j + 1 =>
    codec.fillFromUsbBuffer (decodeFrom codec usbBuffer numDataStreams dataBlock i j) usbBuffer
      (i + (j + 1 : Nat)) numDataStreams

/-- The body of `setCableLengthMeters` up to the quotient `timeDelay / tStep`,
in `double` arithmetic, every operation rounded as the source orders them.
Each decimal literal is the `double` nearest to it (`1.9e-9` is
`19 / 10 ^ 10`, and so on), and `getSampleRate()` returns the `double` nearest
to its value (each of its cases is one literal or one quotient of two
literals). -/
def setCableLengthMetersQuotient (b : Rhd2000EvalBoard) (lengthInMeters : Double) : Double :=
  let speedOfLight : Double := Double.round 299792458
  let xilinxLvdsOutputDelay : Double := Double.round (19 / 10 ^ 10)
  let xilinxLvdsInputDelay : Double := Double.round (14 / 10 ^ 10)
  let rhd2000Delay : Double := Double.round (9 / 10 ^ 9)
  let misoSettleTime : Double := Double.round (10 / 10 ^ 9)
  let tStep : Double :=
    Double.div (Double.round 1) (Double.mul (Double.round 2800) (Double.round (getSampleRate b)))
  let cableVelocity : Double := Double.mul (Double.round (67 / 100)) speedOfLight
  let distance : Double := Double.mul (Double.round 2) lengthInMeters
  let timeDelay : Double :=
    Double.add (Double.add (Double.add (Double.add (Double.div distance cableVelocity)
      xilinxLvdsOutputDelay) rhd2000Delay) xilinxLvdsInputDelay) misoSettleTime
  Double.div timeDelay tStep

/-- The body of `setCableLengthMeters` up to the call of `setCableDelay`: the
value of `delay` passed on, `(int) ceil(timeDelay / tStep)` raised to 1 when
below; `none` where the conversion `(int)` is undefined. -/
def setCableLengthMetersDelay (b : Rhd2000EvalBoard) (lengthInMeters : Double) : Option Int :=
  (Double.toInt (Double.ceil (setCableLengthMetersQuotient b lengthInMeters))).map
    (fun delay => if delay < 1 then 1 else delay)

/-- `setCableLengthMeters(port, lengthInMeters)`; `none` where the conversion
`(int)` in its body is undefined. -/
def setCableLengthMeters (port : BoardPort) (lengthInMeters : Double) (b : Rhd2000EvalBoard) :
    Option Rhd2000EvalBoard :=
  (setCableLengthMetersDelay b lengthInMeters).map (fun delay => setCableDelay port delay b)

/-- `setCableLengthFeet(port, lengthInFeet)`; the literal `0.3048` is the
`double` nearest to `3048 / 10000`. -/
def setCableLengthFeet (port : BoardPort) (lengthInFeet : Double) (b : Rhd2000EvalBoard) :
    Option Rhd2000EvalBoard :=
  setCableLengthMeters port (Double.mul (Double.round (3048 / 10000)) lengthInFeet) b

/-- The number of clock steps of the specification, over exact arithmetic:
`T * 2800 * r` with
`T = 2*L/(0.67 * 299792458) + 1.9e-9 + 9.0e-9 + 1.4e-9 + 10.0e-9` and
`r = getSampleRate()`. -/
def specCableSteps (b : Rhd2000EvalBoard) (L : ℚ) : ℚ :=
  (2 * L / (0.67 * 299792458) + 1.9e-9 + 9.0e-9 + 1.4e-9 + 10.0e-9) * 2800 * getSampleRate b

/-- The rounding tolerance of the step count: `2 ^ (-48)` of the step count of
a cable of length `|L|`. -/
def specCableTolerance (b : Rhd2000EvalBoard) (L : ℚ) : ℚ :=
  (2 * |L| / (0.67 * 299792458) + 1.9e-9 + 9.0e-9 + 1.4e-9 + 10.0e-9) * 2800 * getSampleRate b
    / 2 ^ 48

/-- `estimateCableLengthMeters(delay)`. -/
def estimateCableLengthMeters (b : Rhd2000EvalBoard) (delay : Int) : ℚ :=
  let speedOfLight : ℚ := 299792458.0
  let xilinxLvdsOutputDelay : ℚ := 1.9e-9
  let xilinxLvdsInputDelay : ℚ := 1.4e-9
  let rhd2000Delay : ℚ := 9.0e-9
  let tStep : ℚ := 1.0 / (2800.0 * getSampleRate b)
  let cableVelocity : ℚ := 0.67 * speedOfLight
  let distance : ℚ :=
    cableVelocity * ((delay : ℚ) * tStep - (xilinxLvdsOutputDelay + rhd2000Delay + xilinxLvdsInputDelay))
  let distance : ℚ := if distance < 0.0 then 0.0 else distance
  distance / 2.0

/-- `estimateCableLengthMeters(delay)` in `double` arithmetic, every operation
rounded as the source orders them; the conversion of `delay` to `double` is
the `double` nearest to it (the integer itself).  `none` stands for a result
that is not a finite number, which no `int` delay produces. -/
def estimateCableLengthMetersDouble (b : Rhd2000EvalBoard) (delay : Int) : Double :=
  let speedOfLight : Double := Double.round 299792458
  let xilinxLvdsOutputDelay : Double := Double.round (19 / 10 ^ 10)
  let xilinxLvdsInputDelay : Double := Double.round (14 / 10 ^ 10)
  let rhd2000Delay : Double := Double.round (9 / 10 ^ 9)
  let tStep : Double :=
    Double.div (Double.round 1) (Double.mul (Double.round 2800) (Double.round (getSampleRate b)))
  let cableVelocity : Double := Double.mul (Double.round (67 / 100)) speedOfLight
  let distance : Double :=
    Double.mul cableVelocity (Double.sub (Double.mul (Double.round delay) tStep)
      (Double.add (Double.add xilinxLvdsOutputDelay rhd2000Delay) xilinxLvdsInputDelay))
  let distance : Double := distance.map (fun x => if x < 0 then 0 else x)
  Double.div distance (Double.round 2)

/-- `estimateCableLengthFeet(delay)`. -/
def estimateCableLengthFeet (b : Rhd2000EvalBoard) (delay : Int) : ℚ :=
  3.2808 * estimateCableLengthMeters b delay

/-- The `for (i = 0; i < commandList.size(); ++i)` loop of
`uploadCommandList`, at index `i` with the commands from `i` on still to be
written.  The index does not wrap for a list of fewer than `2^32` commands. -/
def uploadCommandListLoop (auxCommandSlot : AuxCmdSlot) (bank : Int) :
    List Int → Nat → okCFrontPanel → okCFrontPanel
  | [], _, d => d
  | cmd :: rest, i, d =>
    let d1 := d.SetWireInValue OkEndPoint.WireInCmdRamData (toUINT32 cmd) 0xffffffff
    let d2 := d1.SetWireInValue OkEndPoint.WireInCmdRamAddr i 0xffffffff
    let d3 := d2.SetWireInValue OkEndPoint.WireInCmdRamBank (toUINT32 bank) 0xffffffff
    let d4 := d3.UpdateWireIns
    let d5 :=
      match auxCommandSlot with
      | AuxCmdSlot.AuxCmd1 => d4.ActivateTriggerIn OkEndPoint.TrigInRamWrite 0
      | AuxCmdSlot.AuxCmd2 => d4.ActivateTriggerIn OkEndPoint.TrigInRamWrite 1
      | AuxCmdSlot.AuxCmd3 => d4.ActivateTriggerIn OkEndPoint.TrigInRamWrite 2
      | AuxCmdSlot.invalid _ => d4
    uploadCommandListLoop auxCommandSlot bank rest (i + 1) d5

/-- `uploadCommandList(commandList, auxCommandSlot, bank)`. -/
def uploadCommandList (commandList : List Int) (auxCommandSlot : AuxCmdSlot) (bank : Int)
    (b : Rhd2000EvalBoard) : Rhd2000EvalBoard :=
  if auxCommandSlot ≠ AuxCmdSlot.AuxCmd1 ∧ auxCommandSlot ≠ AuxCmdSlot.AuxCmd2
      ∧ auxCommandSlot ≠ AuxCmdSlot.AuxCmd3 then b
  else if bank < 0 ∨ bank > 15 then b
  else { b with dev := uploadCommandListLoop auxCommandSlot bank commandList 0 b.dev }

/-- The RAM-write trigger bit of a slot in the words of the specification:
0, 1, 2 for `AuxCmd1`, `AuxCmd2`, `AuxCmd3`. -/
def ramWriteTriggerBit : AuxCmdSlot → Option Nat
  | AuxCmdSlot.AuxCmd1 => some 0
  | AuxCmdSlot.AuxCmd2 => some 1
  | AuxCmdSlot.AuxCmd3 => some 2
  | AuxCmdSlot.invalid _ => none

/-- One RAM write in the words of the specification: the data word, the
in-bank address and the bank are set, the wires are updated and the RAM-write
trigger bit is pulsed. -/
def ramWrite (data addr bank bit : Nat) : List TransportOp :=
  [TransportOp.SetWireInValue OkEndPoint.WireInCmdRamData data 0xffffffff,
   TransportOp.SetWireInValue OkEndPoint.WireInCmdRamAddr addr 0xffffffff,
   TransportOp.SetWireInValue OkEndPoint.WireInCmdRamBank bank 0xffffffff,
   TransportOp.UpdateWireIns,
   TransportOp.ActivateTriggerIn OkEndPoint.TrigInRamWrite bit]

/-- The `switch (stream)` of `setDataSource`: the selector register and the
shift of a stream; `none` when no `case` applies. -/
def setDataSourceSwitch (stream : Int) : Option (OkEndPoint × Nat) :=
  if stream = 0 then some (OkEndPoint.WireInDataStreamSel1234, 0)
  else if stream = 1 then some (OkEndPoint.WireInDataStreamSel1234, 4)
  else if stream = 2 then some (OkEndPoint.WireInDataStreamSel1234, 8)
  else if stream = 3 then some (OkEndPoint.WireInDataStreamSel1234, 12)
  else if stream = 4 then some (OkEndPoint.WireInDataStreamSel5678, 0)
  else if stream = 5 then some (OkEndPoint.WireInDataStreamSel5678, 4)
  else if stream = 6 then some (OkEndPoint.WireInDataStreamSel5678, 8)
  else if stream = 7 then some (OkEndPoint.WireInDataStreamSel5678, 12)
  else none

/-- `setDataSource(stream, dataSource)`; `dataSource` is the value of the
`BoardDataSource` enumerator. -/
def setDataSource (stream : Int) (dataSource : Nat) (b : Rhd2000EvalBoard) : Rhd2000EvalBoard :=
  if stream < 0 ∨ stream > 7 then b
  else
    match setDataSourceSwitch stream with
    | some (endPoint, bitShift) =>
      { b with
        dev := (b.dev.SetWireInValue endPoint (dataSource <<< bitShift)
                  (0x000f <<< bitShift)).UpdateWireIns }
    | none => b

/-- `resetBoard()`. -/
def resetBoard (b : Rhd2000EvalBoard) : Rhd2000EvalBoard :=
  { b with
    dev := (((b.dev.SetWireInValue OkEndPoint.WireInResetRun 0x01 0x01).UpdateWireIns).SetWireInValue
              OkEndPoint.WireInResetRun 0x00 0x01).UpdateWireIns }

/-- `setContinuousRunMode(continuousMode)`. -/
def setContinuousRunMode (continuousMode : Bool) (b : Rhd2000EvalBoard) : Rhd2000EvalBoard :=
  if continuousMode then
    { b with dev := (b.dev.SetWireInValue OkEndPoint.WireInResetRun 0x02 0x02).UpdateWireIns }
  else
    { b with dev := (b.dev.SetWireInValue OkEndPoint.WireInResetRun 0x00 0x02).UpdateWireIns }

/-- `setMaxTimeStep(maxTimeStep)`; the argument is an `unsigned int`. -/
def setMaxTimeStep (maxTimeStep : Nat) (b : Rhd2000EvalBoard) : Rhd2000EvalBoard :=
  let maxTimeStepLsb := (maxTimeStep % 4294967296) &&& 0x0000ffff
  let maxTimeStepMsb := (maxTimeStep % 4294967296) &&& 0xffff0000
  { b with
    dev := ((b.dev.SetWireInValue OkEndPoint.WireInMaxTimeStepLsb maxTimeStepLsb 0xffffffff).SetWireInValue
              OkEndPoint.WireInMaxTimeStepMsb (maxTimeStepMsb >>> 16) 0xffffffff).UpdateWireIns }

/-- `setDspSettle(enabled)`. -/
def setDspSettle (enabled : Bool) (b : Rhd2000EvalBoard) : Rhd2000EvalBoard :=
  { b with
    dev := (b.dev.SetWireInValue OkEndPoint.WireInResetRun (if enabled then 0x04 else 0x00)
              0x04).UpdateWireIns }

/-- `clearTtlOut()`. -/
def clearTtlOut (b : Rhd2000EvalBoard) : Rhd2000EvalBoard :=
  { b with dev := (b.dev.SetWireInValue OkEndPoint.WireInTtlOut 0x0000 0xffffffff).UpdateWireIns }

/-- `enum DacManual`. -/
inductive DacManual
  | DacManual1
  | DacManual2
  deriving DecidableEq, Repr

/-- `setDacManual(dac, value)`. -/
def setDacManual (dac : DacManual) (value : Int) (b : Rhd2000EvalBoard) : Rhd2000EvalBoard :=
  if value < 0 ∨ value > 65535 then b
  else
    let dev1 :=
      match dac with
      | DacManual.DacManual1 =>
        b.dev.SetWireInValue OkEndPoint.WireInDacManual1 (toUINT32 value) 0xffffffff
      | DacManual.DacManual2 =>
        b.dev.SetWireInValue OkEndPoint.WireInDacManual2 (toUINT32 value) 0xffffffff
    { b with dev := dev1.UpdateWireIns }

/-- The `switch (dacChannel)` of `enableDac`, `selectDacDataStream` and
`selectDacDataChannel`: the wire of a DAC channel; `none` when no `case`
applies. -/
def dacSourceWire (dacChannel : Int) : Option OkEndPoint :=
  if dacChannel = 0 then some OkEndPoint.WireInDacSource1
  else if dacChannel = 1 then some OkEndPoint.WireInDacSource2
  else if dacChannel = 2 then some OkEndPoint.WireInDacSource3
  else if dacChannel = 3 then some OkEndPoint.WireInDacSource4
  else if dacChannel = 4 then some OkEndPoint.WireInDacSource5
  else if dacChannel = 5 then some OkEndPoint.WireInDacSource6
  else if dacChannel = 6 then some OkEndPoint.WireInDacSource7
  else if dacChannel = 7 then some OkEndPoint.WireInDacSource8
  else none

/-- `enableDac(dacChannel, enabled)`. -/
def enableDac (dacChannel : Int) (enabled : Bool) (b : Rhd2000EvalBoard) : Rhd2000EvalBoard :=
  if dacChannel < 0 ∨ dacChannel > 7 then b
  else
    let dev1 :=
      match dacSourceWire dacChannel with
      | some wire => b.dev.SetWireInValue wire (if enabled then 0x0200 else 0x0000) 0x0200
      | none => b.dev
    { b with dev := dev1.UpdateWireIns }

/-- `selectDacDataStream(dacChannel, stream)`. -/
def selectDacDataStream (dacChannel stream : Int) (b : Rhd2000EvalBoard) : Rhd2000EvalBoard :=
  if dacChannel < 0 ∨ dacChannel > 7 then b
  else if stream < 0 ∨ stream > 9 then b
  else
    let dev1 :=
      match dacSourceWire dacChannel with
      | some wire => b.dev.SetWireInValue wire (stream.toNat <<< 5) 0x01e0
      | none => b.dev
    { b with dev := dev1.UpdateWireIns }

/-- `selectDacDataChannel(dacChannel, dataChannel)`. -/
def selectDacDataChannel (dacChannel dataChannel : Int) (b : Rhd2000EvalBoard) :
    Rhd2000EvalBoard :=
  if dacChannel < 0 ∨ dacChannel > 7 then b
  else if dataChannel < 0 ∨ dataChannel > 31 then b
  else
    let dev1 :=
      match dacSourceWire dacChannel with
      | some wire => b.dev.SetWireInValue wire (dataChannel.toNat <<< 0) 0x001f
      | none => b.dev
    { b with dev := dev1.UpdateWireIns }

/-- `setDacGain(gain)`. -/
def setDacGain (gain : Int) (b : Rhd2000EvalBoard) : Rhd2000EvalBoard :=
  if gain < 0 ∨ gain > 7 then b
  else
    { b with
      dev := (b.dev.SetWireInValue OkEndPoint.WireInResetRun (gain.toNat <<< 13) 0xe000).UpdateWireIns }

/-- `setAudioNoiseSuppress(noiseSuppress)`. -/
def setAudioNoiseSuppress (noiseSuppress : Int) (b : Rhd2000EvalBoard) : Rhd2000EvalBoard :=
  if noiseSuppress < 0 ∨ noiseSuppress > 127 then b
  else
    { b with
      dev := (b.dev.SetWireInValue OkEndPoint.WireInResetRun (noiseSuppress.toNat <<< 6)
                0x1fc0).UpdateWireIns }

/-- The enumerators of `enum BoardDataSource` that `initialize()` names. -/
inductive BoardDataSource
  | PortA1
  | PortA2
  | PortB1
  | PortB2
  | PortC1
  | PortC2
  | PortD1
  | PortD2
  deriving DecidableEq, Repr

/-- The loop `for (i = 1; i < MAX_NUM_DATA_STREAMS; i++) enableDataStream(i, false)`
of `initialize()`, with `k` iterations left at index `i`. -/
def initializeStreamLoop : Nat → Int → Rhd2000EvalBoard → Rhd2000EvalBoard
  | 0, _, b => b
  | k + 1, i, b => initializeStreamLoop k (i + 1) (enableDataStream i false b)

/-- The calls of `initialize()` after `setSampleRate` up to and including the
`setDataSource` calls.  `value` gives the values of the `BoardDataSource`
enumerators, which are declared in `rhd2000evalboard.h`; `none` where a
conversion `(int)` in a `setCableLengthFeet` call is undefined. -/
def initializeConfigure (value : BoardDataSource → Nat) (b : Rhd2000EvalBoard) :
    Option Rhd2000EvalBoard := do
  let b := selectAuxCommandBank BoardPort.PortA AuxCmdSlot.AuxCmd1 0 b
  let b := selectAuxCommandBank BoardPort.PortB AuxCmdSlot.AuxCmd1 0 b
  let b := selectAuxCommandBank BoardPort.PortC AuxCmdSlot.AuxCmd1 0 b
  let b := selectAuxCommandBank BoardPort.PortD AuxCmdSlot.AuxCmd1 0 b
  let b := selectAuxCommandBank BoardPort.PortA AuxCmdSlot.AuxCmd2 0 b
  let b := selectAuxCommandBank BoardPort.PortB AuxCmdSlot.AuxCmd2 0 b
  let b := selectAuxCommandBank BoardPort.PortC AuxCmdSlot.AuxCmd2 0 b
  let b := selectAuxCommandBank BoardPort.PortD AuxCmdSlot.AuxCmd2 0 b
  let b := selectAuxCommandBank BoardPort.PortA AuxCmdSlot.AuxCmd3 0 b
  let b := selectAuxCommandBank BoardPort.PortB AuxCmdSlot.AuxCmd3 0 b
  let b := selectAuxCommandBank BoardPort.PortC AuxCmdSlot.AuxCmd3 0 b
  let b := selectAuxCommandBank BoardPort.PortD AuxCmdSlot.AuxCmd3 0 b
  let b := selectAuxCommandLength AuxCmdSlot.AuxCmd1 0 0 b
  let b := selectAuxCommandLength AuxCmdSlot.AuxCmd2 0 0 b
  let b := selectAuxCommandLength AuxCmdSlot.AuxCmd3 0 0 b
  let b := setContinuousRunMode true b
  let b := setMaxTimeStep 4294967295 b
  let b ← setCableLengthFeet BoardPort.PortA (Double.round 3) b
  let b ← setCableLengthFeet BoardPort.PortB (Double.round 3) b
  let b ← setCableLengthFeet BoardPort.PortC (Double.round 3) b
  let b ← setCableLengthFeet BoardPort.PortD (Double.round 3) b
  let b := setDspSettle false b
  let b := setDataSource 0 (value BoardDataSource.PortA1) b
  let b := setDataSource 1 (value BoardDataSource.PortB1) b
  let b := setDataSource 2 (value BoardDataSource.PortC1) b
  let b := setDataSource 3 (value BoardDataSource.PortD1) b
  let b := setDataSource 4 (value BoardDataSource.PortA2) b
  let b := setDataSource 5 (value BoardDataSource.PortB2) b
  let b := setDataSource 6 (value BoardDataSource.PortC2) b
  pure (setDataSource 7 (value BoardDataSource.PortD2) b)

/-- The two stream-enable steps of `initialize()`: stream 0 is enabled, then
the loop disables streams 1 to `MAX_NUM_DATA_STREAMS - 1`. -/
def initializeStreams (b : Rhd2000EvalBoard) : Rhd2000EvalBoard :=
  initializeStreamLoop (MAX_NUM_DATA_STREAMS - 1) 1 (enableDataStream 0 true b)

/-- The calls of `initialize()` after the stream loop. -/
def initializeDacs (b : Rhd2000EvalBoard) : Rhd2000EvalBoard :=
  let b := clearTtlOut b
  let b := enableDac 0 false b
  let b := enableDac 1 false b
  let b := enableDac 2 false b
  let b := enableDac 3 false b
  let b := enableDac 4 false b
  let b := enableDac 5 false b
  let b := enableDac 6 false b
  let b := enableDac 7 false b
  let b := selectDacDataStream 0 0 b
  let b := selectDacDataStream 1 0 b
  let b := selectDacDataStream 2 0 b
  let b := selectDacDataStream 3 0 b
  let b := selectDacDataStream 4 0 b
  let b := selectDacDataStream 5 0 b
  let b := selectDacDataStream 6 0 b
  let b := selectDacDataStream 7 0 b
  let b := selectDacDataChannel 0 0 b
  let b := selectDacDataChannel 1 0 b
  let b := selectDacDataChannel 2 0 b
  let b := selectDacDataChannel 3 0 b
  let b := selectDacDataChannel 4 0 b
  let b := selectDacDataChannel 5 0 b
  let b := selectDacDataChannel 6 0 b
  let b := selectDacDataChannel 7 0 b
  let b := setDacManual DacManual.DacManual1 32768 b
  let b := setDacManual DacManual.DacManual2 32768 b
  let b := setDacGain 0 b
  setAudioNoiseSuppress 0 b

/-- The member function `initialize()`, run for at most `fuel` polls of the
status wire inside its `setSampleRate` call; `none` when that call has not
returned within `fuel` polls (the function has not completed), or where a
conversion `(int)` in a `setCableLengthFeet` call is undefined.  The result of
`setSampleRate` is not looked at. -/
def initializeBoard (hw : Hardware) (value : BoardDataSource → Nat) (fuel : Nat)
    (b : Rhd2000EvalBoard) : Option Rhd2000EvalBoard :=
  match setSampleRate hw fuel AmplifierSampleRate.SampleRate30000Hz (resetBoard b) with
  | Outcome.returned _ b1 =>
    (initializeConfigure value b1).map (fun b2 => initializeDacs (initializeStreams b2))
  | Outcome.waitingDcmProgDone _ => none
  | Outcome.waitingDataClockLocked _ => none

/-- The loop `while (cond()) { body }` run for at most `fuel` evaluations of
the condition: `none` when the condition was true `fuel` times, otherwise the
state in which the condition was found false. -/
def whileDo (cond : Rhd2000EvalBoard → Bool × Rhd2000EvalBoard)
    (body : Rhd2000EvalBoard → Rhd2000EvalBoard) :
    Nat → Rhd2000EvalBoard → Option Rhd2000EvalBoard
  | 0, _ => none
  | fuel + 1, b =>
    if (cond b).1 then whileDo cond body fuel (body (cond b).2) else some (cond b).2

/-- `flush()`, each of its two loops run for at most `fuel` evaluations of
its condition.  `USB_BUFFER_SIZE` is a parameter. -/
def flush (USB_BUFFER_SIZE : Nat) (hw : Hardware) (fuel : Nat) (b : Rhd2000EvalBoard) :
    Option Rhd2000EvalBoard :=
  match whileDo
      (fun s => (decide ((numWordsInFifo hw s).1 ≥ USB_BUFFER_SIZE / 2), (numWordsInFifo hw s).2))
      (fun s => ReadFromPipeOut hw OkEndPoint.PipeOutData USB_BUFFER_SIZE s) fuel b with
  | none => none
  | some b1 =>
    whileDo
      (fun s => (decide ((numWordsInFifo hw s).1 > 0), (numWordsInFifo hw s).2))
      (fun s => ReadFromPipeOut hw OkEndPoint.PipeOutData
        ((2 * (numWordsInFifo hw s).1) % 4294967296) (numWordsInFifo hw s).2) fuel b1

/-- The byte counts of the bulk transfers of a log, in order. -/
def transfers (log : List TransportOp) : List Nat :=
  log.filterMap (fun op =>
    match op with
    | TransportOp.ReadFromPipeOut _ length => some length
    | _ => none)

/-- The number of 16-bit words that the bulk transfers of a log have taken
out of the FIFO: a transfer of `b` bytes takes `b / 2` words. -/
def wordsRead (log : List TransportOp) : Nat :=
  ((transfers log).map (fun length => length / 2)).sum

/-- A device with acquisition stopped: the FIFO word count changes only by
reads.  `total` is the number of words that the FIFO held before the first
transfer of the log; every snapshot reports `total` less the words read so
far, split into its two 16-bit halves. -/
def stoppedFifoHardware (total : Nat) : Hardware :=
  { wireOuts := fun log ep =>
      if ep = OkEndPoint.WireOutNumWordsMsb then (total - wordsRead log) / 65536
      else if ep = OkEndPoint.WireOutNumWordsLsb then (total - wordsRead log) % 65536
      else 0
    pipeOut := fun _ _ => 0 }

/-- A device whose acquisition is stopped: the FIFO word count, reported in
two 16-bit halves, is `total` less the words read so far. -/
def StoppedFifo (total : Nat) (hw : Hardware) : Prop :=
  ∀ log : List TransportOp,
    hw.wireOuts log OkEndPoint.WireOutNumWordsMsb = (total - wordsRead log) / 65536 ∧
    hw.wireOuts log OkEndPoint.WireOutNumWordsLsb = (total - wordsRead log) % 65536

/-- A call of one of the five setters that write the `WireInResetRun`
register, with its argument. -/
inductive ResetRunCall
  | resetBoard
  | setContinuousRunMode (continuousMode : Bool)
  | setDspSettle (enabled : Bool)
  | setAudioNoiseSuppress (noiseSuppress : Int)
  | setDacGain (gain : Int)

/-- The effect of a call of one of the five setters on the board. -/
def resetRunCall : ResetRunCall → Rhd2000EvalBoard → Rhd2000EvalBoard
  | ResetRunCall.resetBoard => resetBoard
  | ResetRunCall.setContinuousRunMode continuousMode => setContinuousRunMode continuousMode
  | ResetRunCall.setDspSettle enabled => setDspSettle enabled
  | ResetRunCall.setAudioNoiseSuppress noiseSuppress => setAudioNoiseSuppress noiseSuppress
  | ResetRunCall.setDacGain gain => setDacGain gain

/-- The setter of a call, as a number from 0 to 4. -/
def resetRunSetter : ResetRunCall → Nat
  | ResetRunCall.resetBoard => 0
  | ResetRunCall.setContinuousRunMode _ => 1
  | ResetRunCall.setDspSettle _ => 2
  | ResetRunCall.setAudioNoiseSuppress _ => 3
  | ResetRunCall.setDacGain _ => 4

/-- The mask that the specification gives for each setter. -/
def specResetRunMask : ResetRunCall → Nat
  | ResetRunCall.resetBoard => 0x0001
  | ResetRunCall.setContinuousRunMode _ => 0x0002
  | ResetRunCall.setDspSettle _ => 0x0004
  | ResetRunCall.setAudioNoiseSuppress _ => 0x1FC0
  | ResetRunCall.setDacGain _ => 0xE000

/-- Whether the argument of a call is in the range that its setter accepts. -/
def specResetRunInRange : ResetRunCall → Bool
  | ResetRunCall.setAudioNoiseSuppress noiseSuppress =>
    decide (0 ≤ noiseSuppress ∧ noiseSuppress ≤ 127)
  | ResetRunCall.setDacGain gain => decide (0 ≤ gain ∧ gain ≤ 7)
  | _ => true

/-- The constructor state over the idle device after `setContinuousRunMode(true)`,
`setDspSettle(true)` and `setAudioNoiseSuppress(127)`: the register
`WireInResetRun` holds `0x1fc6`. -/
def boardResetRun1fc6 : Rhd2000EvalBoard :=
  setAudioNoiseSuppress 127 (setDspSettle true (setContinuousRunMode true (ctor idleDevice [])))

/-- The loop register of a slot (the wire named in the slot's branch of
`selectAuxCommandLength`); `none` for a value that is no slot. -/
def auxCmdLoopWire : AuxCmdSlot → Option OkEndPoint
  | AuxCmdSlot.AuxCmd1 => some OkEndPoint.WireInAuxCmdLoop1
  | AuxCmdSlot.AuxCmd2 => some OkEndPoint.WireInAuxCmdLoop2
  | AuxCmdSlot.AuxCmd3 => some OkEndPoint.WireInAuxCmdLoop3
  | AuxCmdSlot.invalid _ => none

/-- The length register of a slot (the wire named in the slot's branch of
`selectAuxCommandLength`); `none` for a value that is no slot. -/
def auxCmdLengthWire : AuxCmdSlot → Option OkEndPoint
  | AuxCmdSlot.AuxCmd1 => some OkEndPoint.WireInAuxCmdLength1
  | AuxCmdSlot.AuxCmd2 => some OkEndPoint.WireInAuxCmdLength2
  | AuxCmdSlot.AuxCmd3 => some OkEndPoint.WireInAuxCmdLength3
  | AuxCmdSlot.invalid _ => none

/-- The number of bits set among the lowest `width` bits of a register. -/
def setBits (width reg : Nat) : Nat :=
  (List.range width).countP (fun s => reg.testBit s)

/-- The register/bitmap invariant: bit `s` of `WireInDataStreamEn` is set
exactly when `dataStreamEnabled[s]` is 1 (no bit is set past the array). -/
def EnableRegInv (b : Rhd2000EvalBoard) : Prop :=
  ∀ s : Nat, (b.dev.wireIn OkEndPoint.WireInDataStreamEn).testBit s
    = decide (b.dataStreamEnabled.get s = 1)

/-- A codec instance for concrete evaluations: a block of 60 samples, each
of 16 words plus 36 words per data stream; a record is the list of the words
of its block (low byte first). -/
def sampleCodec : DataBlockCodec (List Nat) :=
  { calculateDataBlockSizeInWords := fun numDataStreams => (60 * (16 + 36 * numDataStreams)).toNat
    create := fun _ => []
    fillFromUsbBuffer := fun _ usbBuffer blockIndex numDataStreams =>
      (List.range (60 * (16 + 36 * numDataStreams)).toNat).map (fun j =>
        usbBuffer.getD (2 * ((60 * (16 + 36 * numDataStreams)).toNat * blockIndex.toNat + j)) 0
          + 256 * usbBuffer.getD (2 * ((60 * (16 + 36 * numDataStreams)).toNat * blockIndex.toNat + j) + 1) 0)
    write := fun dataBlock _ => dataBlock }

/-- A device whose FIFO reports 3000 words at every snapshot. -/
def fifo3000Hardware : Hardware :=
  { wireOuts := fun _ ep => if ep = OkEndPoint.WireOutNumWordsLsb then 3000 else 0
    pipeOut := fun _ _ => 0 }

/-- A device whose FIFO reports 20000 words at every snapshot and whose pipe
delivers the byte `j % 256` at position `j`. -/
def fifo20000Hardware : Hardware :=
  { wireOuts := fun _ ep => if ep = OkEndPoint.WireOutNumWordsLsb then 20000 else 0
    pipeOut := fun _ j => j % 256 }

/-- A device whose FIFO reports no word at any snapshot. -/
def emptyFifoHardware : Hardware :=
  { wireOuts := fun _ _ => 0
    pipeOut := fun _ _ => 0 }

/-- The constructor state over the idle device with streams 0 and 1 enabled. -/
def boardStreams01Enabled : Rhd2000EvalBoard :=
  enableDataStream 1 true boardStream0Enabled

/-- The constructor state over the idle device after `setDataSource(6, 2)`
and `setDataSource(4, 7)` (the register `WireInDataStreamSel5678` then holds
`0x0207`). -/
def boardSources0207 : Rhd2000EvalBoard :=
  setDataSource 4 7 (setDataSource 6 2 (ctor idleDevice []))

/-- The constructor state over the idle device after setting the cable
delays 4, 3, 2, 1 of ports A, B, C, D (the register `WireInMisoDelay` then
holds `0x1234`). -/
def boardDelays1234 : Rhd2000EvalBoard :=
  setCableDelay BoardPort.PortD 1
    (setCableDelay BoardPort.PortC 2
      (setCableDelay BoardPort.PortB 3 (setCableDelay BoardPort.PortA 4 (ctor idleDevice []))))

/-- Values for the `BoardDataSource` enumerators in their order of
declaration, for concrete instances. -/
def sourceValue : BoardDataSource → Nat
  | BoardDataSource.PortA1 => 0
  | BoardDataSource.PortA2 => 1
  | BoardDataSource.PortB1 => 2
  | BoardDataSource.PortB2 => 3
  | BoardDataSource.PortC1 => 4
  | BoardDataSource.PortC2 => 5
  | BoardDataSource.PortD1 => 6
  | BoardDataSource.PortD2 => 7

/-- The constructor state over the idle device after `setCableDelay(PortB, 3)`
(the register `WireInMisoDelay` then holds `0x0030`). -/
def boardDelayB3 : Rhd2000EvalBoard :=
  setCableDelay BoardPort.PortB 3 (ctor idleDevice [])

/-- The board that `initialize()` leaves on a device that is ready at once,
started with streams 0 and 1 enabled. -/
def initializedBoard : Rhd2000EvalBoard :=
  (initializeBoard readyHardware sourceValue 2 boardStreams01Enabled).getD (ctor idleDevice [])

end Rhd2000EvalBoard

/-! ## Properties -/

namespace Double

/-- The halving count brackets `n` between two powers of two. -/
theorem log2Fuel_spec : ∀ (fuel n : ℕ), 1 ≤ n → n ≤ fuel →
    2 ^ log2Fuel fuel n ≤ n ∧ n < 2 ^ (log2Fuel fuel n + 1)
  | 0, n, h1, h2 => by omega
  | fuel + 1, n, h1, h2 => by
    unfold log2Fuel
    by_cases hn : n < 2
    · rw [if_pos hn]
      have : n = 1 := by omega
      subst this
      simp
    · rw [if_neg hn]
      have ih := log2Fuel_spec fuel (n / 2) (by omega) (by omega)
      have e1 : 2 ^ (log2Fuel fuel (n / 2) + 1) = 2 * 2 ^ log2Fuel fuel (n / 2) := by
        rw [pow_succ]; ring
      have e2 : 2 ^ (log2Fuel fuel (n / 2) + 1 + 1) = 2 * 2 ^ (log2Fuel fuel (n / 2) + 1) := by
        rw [pow_succ]; ring
      rw [e2]
      constructor
      · rw [e1]; omega
      · omega

/-- The leading-digit position brackets `n` between two powers of two. -/
theorem log2_spec (n : ℕ) (h : 1 ≤ n) : 2 ^ log2 n ≤ n ∧ n < 2 ^ (log2 n + 1) :=
  log2Fuel_spec n n h le_rfl

/-- The binary exponent brackets a positive rational between two powers of
two. -/
theorem exponent_spec (a : ℚ) (ha : 0 < a) :
    (2 : ℚ) ^ exponent a ≤ a ∧ a < (2 : ℚ) ^ (exponent a + 1) := by
  have hnum : 0 < a.num := Rat.num_pos.mpr ha
  have hn1 : 1 ≤ a.num.natAbs := by omega
  have hd1 : 1 ≤ a.den := a.den_pos
  obtain ⟨hn_lo, hn_hi⟩ := log2_spec a.num.natAbs hn1
  obtain ⟨hd_lo, hd_hi⟩ := log2_spec a.den hd1
  have hnq : (a.num.natAbs : ℚ) = a.num := by
    rw [Nat.cast_natAbs, abs_of_pos hnum]
  have hmul : a * a.den = a.num.natAbs := by
    rw [hnq]; exact Rat.mul_den_eq_num a
  have hdpos : (0 : ℚ) < a.den := by exact_mod_cast hd1
  have hnlo : (2 : ℚ) ^ log2 a.num.natAbs ≤ a.num.natAbs := by exact_mod_cast hn_lo
  have hnhi : (a.num.natAbs : ℚ) < 2 ^ (log2 a.num.natAbs + 1) := by exact_mod_cast hn_hi
  have hdlo : (2 : ℚ) ^ log2 a.den ≤ a.den := by exact_mod_cast hd_lo
  have hdhi : (a.den : ℚ) < 2 ^ (log2 a.den + 1) := by exact_mod_cast hd_hi
  have h2 : (2 : ℚ) ≠ 0 := by norm_num
  have hpi : (0 : ℚ) < 2 ^ log2 a.num.natAbs := by positivity
  have hpj : (0 : ℚ) < 2 ^ log2 a.den := by positivity
  have hz : ∀ k : ℤ, (2 : ℚ) ^ ((log2 a.num.natAbs : ℤ) - (log2 a.den : ℤ) + k)
      = 2 ^ log2 a.num.natAbs / 2 ^ log2 a.den * 2 ^ k := by
    intro k
    rw [zpow_add₀ h2, zpow_sub₀ h2, zpow_natCast, zpow_natCast]
  unfold exponent
  by_cases hc : (2 : ℚ) ^ ((log2 a.num.natAbs : ℤ) - (log2 a.den : ℤ)) ≤ a
  · rw [if_pos hc]
    refine ⟨hc, ?_⟩
    rw [hz 1, zpow_one]
    rw [div_mul_eq_mul_div, lt_div_iff₀ hpj]
    calc a * 2 ^ log2 a.den ≤ a * a.den := by
          apply mul_le_mul_of_nonneg_left hdlo ha.le
      _ = a.num.natAbs := hmul
      _ < 2 ^ (log2 a.num.natAbs + 1) := hnhi
      _ = 2 ^ log2 a.num.natAbs * 2 := by rw [pow_succ]
  · rw [if_neg hc]
    have hlt : a < (2 : ℚ) ^ ((log2 a.num.natAbs : ℤ) - (log2 a.den : ℤ)) := lt_of_not_le hc
    constructor
    · have e : (log2 a.num.natAbs : ℤ) - (log2 a.den : ℤ) - 1
          = (log2 a.num.natAbs : ℤ) - (log2 a.den : ℤ) + (-1) := by ring
      rw [e, hz (-1)]
      have e2 : (2 : ℚ) ^ (-1 : ℤ) = 1 / 2 := by norm_num
      rw [e2, div_mul_eq_mul_div, div_le_iff₀ hpj]
      have hdhi2 : (a.den : ℚ) ≤ 2 ^ log2 a.den * 2 := by
        rw [← pow_succ]; exact hdhi.le
      calc (2 : ℚ) ^ log2 a.num.natAbs * (1 / 2) ≤ a.num.natAbs * (1 / 2) := by
            apply mul_le_mul_of_nonneg_right hnlo (by norm_num)
        _ = a * a.den * (1 / 2) := by rw [hmul]
        _ = a * (a.den * (1 / 2)) := by ring
        _ ≤ a * 2 ^ log2 a.den := by
            apply mul_le_mul_of_nonneg_left _ ha.le
            linarith
    · have e : (log2 a.num.natAbs : ℤ) - (log2 a.den : ℤ) - 1 + 1
          = (log2 a.num.natAbs : ℤ) - (log2 a.den : ℤ) := by ring
      rw [e]
      exact hlt

/-- The nearest integer is within one half. -/
theorem roundHalfEven_spec (y : ℚ) : |(roundHalfEven y : ℚ) - y| ≤ 1 / 2 := by
  have h1 : (⌊y⌋ : ℚ) ≤ y := Int.floor_le y
  have h2 : y < ⌊y⌋ + 1 := Int.lt_floor_add_one y
  unfold roundHalfEven
  rw [abs_le]
  split_ifs with ha hb hc
  · constructor <;> linarith
  · push_cast; constructor <;> linarith
  · constructor <;> linarith
  · push_cast; constructor <;> linarith

/-- Rounding error: a real number of magnitude at most `2 ^ 100` rounds to a
finite `double` that differs from it by at most the relative error `2 ^ (-53)`
plus half the smallest spacing (which is below `2 ^ (-200)`). -/
theorem round_spec (x : ℚ) (hx : |x| ≤ 2 ^ 100) :
    ∃ r : ℚ, round x = some r ∧ |r - x| ≤ |x| / 2 ^ 53 + 1 / 2 ^ 200 := by
  by_cases h0 : x = 0
  · refine ⟨0, ?_, ?_⟩
    · unfold round; rw [if_pos h0]
    · rw [h0]; norm_num
  · have ha : 0 < |x| := abs_pos.mpr h0
    obtain ⟨he_lo, he_hi⟩ := exponent_spec |x| ha
    have h2 : (2 : ℚ) ≠ 0 := by norm_num
    have hround : round x
        = if (roundHalfEven (|x| / 2 ^ (max (exponent |x| - 52) (-1074))) : ℚ)
              * 2 ^ (max (exponent |x| - 52) (-1074)) < 2 ^ (1024 : ℕ)
          then some (if x < 0 then
            -((roundHalfEven (|x| / 2 ^ (max (exponent |x| - 52) (-1074))) : ℚ)
              * 2 ^ (max (exponent |x| - 52) (-1074)))
            else (roundHalfEven (|x| / 2 ^ (max (exponent |x| - 52) (-1074))) : ℚ)
              * 2 ^ (max (exponent |x| - 52) (-1074)))
          else none := by
      unfold round
      rw [if_neg h0]
    rw [hround]
    have hhalf : (2 : ℚ) ^ (max (exponent |x| - 52) (-1074)) / 2
        ≤ |x| / 2 ^ 53 + 1 / 2 ^ 200 := by
      rcases le_total (exponent |x| - 52) (-1074) with hle | hle
      · rw [max_eq_right hle]
        have e1 : (2 : ℚ) ^ (-1074 : ℤ) ≤ 2 ^ (-200 : ℤ) :=
          zpow_le_zpow_right₀ (by norm_num) (by norm_num)
        have e2 : (2 : ℚ) ^ (-200 : ℤ) = 1 / 2 ^ 200 := by
          rw [zpow_neg, zpow_ofNat, one_div]
        have e3 : (0 : ℚ) < 2 ^ (-1074 : ℤ) := zpow_pos (by norm_num) _
        have : 0 ≤ |x| / 2 ^ 53 := div_nonneg (abs_nonneg x) (by norm_num)
        rw [e2] at e1
        linarith
      · rw [max_eq_left hle]
        have e : (2 : ℚ) ^ (exponent |x| - 52) / 2 = 2 ^ exponent |x| / 2 ^ 53 := by
          rw [zpow_sub₀ h2, zpow_ofNat]; field_simp; norm_num
        rw [e]
        have : (2 : ℚ) ^ exponent |x| / 2 ^ 53 ≤ |x| / 2 ^ 53 :=
          div_le_div_of_nonneg_right he_lo (by positivity)
        have : (0 : ℚ) ≤ 1 / 2 ^ 200 := by positivity
        linarith
    generalize max (exponent |x| - 52) (-1074) = p at hhalf ⊢
    have hp : (0 : ℚ) < 2 ^ p := zpow_pos (by norm_num) _
    have hm := roundHalfEven_spec (|x| / 2 ^ p)
    generalize roundHalfEven (|x| / 2 ^ p) = m at hm ⊢
    have herr : |((m : ℚ) * 2 ^ p - |x|)| ≤ 2 ^ p / 2 := by
      have e : (m : ℚ) * 2 ^ p - |x| = ((m : ℚ) - |x| / 2 ^ p) * 2 ^ p := by
        field_simp
      rw [e, abs_mul, abs_of_pos hp]
      calc _ ≤ 1 / 2 * 2 ^ p := mul_le_mul_of_nonneg_right hm hp.le
        _ = _ := by ring
    have hr := abs_le.mp (le_trans herr hhalf)
    have hlt : (m : ℚ) * 2 ^ p < 2 ^ (1024 : ℕ) := by
      have h1 : |x| / 2 ^ 53 ≤ 2 ^ 100 / 2 ^ 53 := div_le_div_of_nonneg_right hx (by positivity)
      have h2 : (2 : ℚ) ^ 100 + 2 ^ 100 / 2 ^ 53 + 1 / 2 ^ 200 < 2 ^ (102 : ℕ) := by norm_num
      have h3 : (2 : ℚ) ^ (102 : ℕ) ≤ 2 ^ (1024 : ℕ) :=
        pow_le_pow_right₀ (by norm_num) (by norm_num)
      linarith [hr.2]
    rw [if_pos hlt]
    refine ⟨_, rfl, ?_⟩
    by_cases hneg : x < 0
    · rw [if_pos hneg]
      have hax : |x| = -x := abs_of_neg hneg
      rw [abs_le]
      rw [hax] at hr ⊢
      constructor <;> linarith [hr.1, hr.2]
    · rw [if_neg hneg]
      have hax : |x| = x := abs_of_nonneg (not_lt.mp hneg)
      rw [abs_le]
      rw [hax] at hr ⊢
      constructor <;> linarith [hr.1, hr.2]

/-- Rounding error with an explicit bound on the magnitude. -/
theorem round_within (x B : ℚ) (hlo : -B ≤ x) (hhi : x ≤ B) (hB : B ≤ 2 ^ 100) :
    ∃ r : ℚ, round x = some r ∧ x - (B / 2 ^ 53 + 1 / 2 ^ 200) ≤ r
      ∧ r ≤ x + (B / 2 ^ 53 + 1 / 2 ^ 200) := by
  have habs : |x| ≤ B := abs_le.mpr ⟨hlo, hhi⟩
  obtain ⟨r, hr, herr⟩ := round_spec x (le_trans habs hB)
  have h1 : |x| / 2 ^ 53 ≤ B / 2 ^ 53 := div_le_div_of_nonneg_right habs (by norm_num)
  have h2 := abs_le.mp herr
  exact ⟨r, hr, by linarith [h2.1], by linarith [h2.2]⟩

/-- The product of two finite values is the rounded exact product. -/
theorem mul_some (a b : ℚ) : mul (some a) (some b) = round (a * b) := rfl

/-- The sum of two finite values is the rounded exact sum. -/
theorem add_some (a b : ℚ) : add (some a) (some b) = round (a + b) := rfl

/-- The difference of two finite values is the rounded exact difference. -/
theorem sub_some (a b : ℚ) : sub (some a) (some b) = round (a - b) := rfl

/-- The quotient of two finite values, the divisor not zero, is the rounded
exact quotient. -/
theorem div_some (a b : ℚ) (hb : b ≠ 0) : div (some a) (some b) = round (a / b) := by
  show (if b = 0 then none else round (a / b)) = _
  rw [if_neg hb]

/-- A value that the conversion `(int)` yields is in the range of the 32-bit
`int`. -/
theorem toInt_range (x : Double) (n : Int) (h : toInt x = some n) :
    -2147483648 ≤ n ∧ n ≤ 2147483647 := by
  unfold toInt at h
  cases x with
  | none => cases h
  | some a =>
    simp only [Option.some_bind] at h
    generalize (if 0 ≤ a then ⌊a⌋ else ⌈a⌉) = t at h
    by_cases hr : -2147483648 ≤ t ∧ t ≤ 2147483647
    · rw [if_pos hr, Option.some.injEq] at h
      rw [← h]
      exact hr
    · rw [if_neg hr] at h
      cases h

/-- The conversion `(int) ceil(q)` of a finite `q` whose ceiling is in the
range of `int` is that ceiling. -/
theorem toInt_ceil (q : ℚ) (h1 : (-2147483648 : Int) ≤ ⌈q⌉) (h2 : ⌈q⌉ ≤ (2147483647 : Int)) :
    toInt (ceil (some q)) = some ⌈q⌉ := by
  show (if -2147483648 ≤ (if 0 ≤ ((⌈q⌉ : Int) : ℚ) then ⌊((⌈q⌉ : Int) : ℚ)⌋
        else ⌈((⌈q⌉ : Int) : ℚ)⌉)
      ∧ (if 0 ≤ ((⌈q⌉ : Int) : ℚ) then ⌊((⌈q⌉ : Int) : ℚ)⌋ else ⌈((⌈q⌉ : Int) : ℚ)⌉) ≤ 2147483647
    then some (if 0 ≤ ((⌈q⌉ : Int) : ℚ) then ⌊((⌈q⌉ : Int) : ℚ)⌋ else ⌈((⌈q⌉ : Int) : ℚ)⌉)
    else none) = some ⌈q⌉
  simp only [Int.floor_intCast, Int.ceil_intCast, ite_self]
  rw [if_pos ⟨h1, h2⟩]

end Double

namespace Rhd2000EvalBoard

/-- Writing `1` over an entry that is not `1` adds one to the number of ones. -/
theorem count_one_set_one (l : List Int) (i : Nat) (h : i < l.length) (h0 : l.getD i 0 ≠ 1) :
    (l.set i 1).count 1 = l.count 1 + 1 := by
  rw [List.getD_eq_getElem l 0 h] at h0
  rw [List.count_set 1 1 l i h]
  simp [h0]

/-- Writing `0` over an entry that is `1` removes one from the number of ones. -/
theorem count_one_set_zero (l : List Int) (i : Nat) (h : i < l.length) (h1 : l.getD i 0 = 1) :
    (l.set i 0).count 1 + 1 = l.count 1 := by
  rw [List.getD_eq_getElem l 0 h] at h1
  rw [List.count_set 0 1 l i h]
  have hmem : (1 : Int) ∈ l := by
    rw [← h1]; exact List.getElem_mem h
  have hpos : 0 < l.count 1 := List.count_pos_iff.mpr hmem
  simp [h1]
  omega

/-- A stream index that passed the range check indexes inside the array. -/
theorem toNat_lt_length (a : StreamArray) (stream : Int)
    (h : ¬ (stream < 0 ∨ stream > (MAX_NUM_DATA_STREAMS : Int) - 1)) :
    stream.toNat < a.val.length := by
  rw [a.property]
  omega

/-- One `enableDataStream` call keeps the count/bitmap invariant. -/
theorem enableDataStream_inv (stream : Int) (enabled : Bool) (b : Rhd2000EvalBoard)
    (hb : StreamInv b) : StreamInv (enableDataStream stream enabled b) := by
  unfold enableDataStream
  by_cases hr : stream < 0 ∨ stream > (MAX_NUM_DATA_STREAMS : Int) - 1
  · rw [if_pos hr]; exact hb
  · rw [if_neg hr]
    have hlt := toNat_lt_length b.dataStreamEnabled stream hr
    cases enabled
    · by_cases h1 : b.dataStreamEnabled.get stream.toNat = 1
      · simp only [h1, if_true, Bool.false_eq_true, if_false]
        refine ⟨?_, ?_⟩
        · intro x hx
          rcases List.mem_or_eq_of_mem_set hx with hx | hx
          · exact hb.1 x hx
          · exact Or.inl hx
        · have hc := count_one_set_zero b.dataStreamEnabled.val stream.toNat hlt h1
          have hn := hb.2
          simp only [StreamArray.set]
          omega
      · simp only [h1, if_false, Bool.false_eq_true]
        exact hb
    · by_cases h0 : b.dataStreamEnabled.get stream.toNat = 0
      · simp only [h0, if_true]
        refine ⟨?_, ?_⟩
        · intro x hx
          rcases List.mem_or_eq_of_mem_set hx with hx | hx
          · exact hb.1 x hx
          · exact Or.inr hx
        · have hne : b.dataStreamEnabled.val.getD stream.toNat 0 ≠ 1 := by
            have : b.dataStreamEnabled.val.getD stream.toNat 0 = 0 := h0
            omega
          have hc := count_one_set_one b.dataStreamEnabled.val stream.toNat hlt hne
          have hn := hb.2
          simp only [StreamArray.set]
          omega
      · simp only [h0, if_false]
        exact hb

/-- A sequence of `enableDataStream` calls keeps the count/bitmap invariant. -/
theorem enableDataStreamCalls_inv (calls : List (Int × Bool)) (b : Rhd2000EvalBoard)
    (hb : StreamInv b) : StreamInv (enableDataStreamCalls calls b) := by
  induction calls generalizing b with
  | nil => exact hb
  | cons c cs ih =>
    exact ih (enableDataStream c.1 c.2 b) (enableDataStream_inv c.1 c.2 b hb)

/-- The constructor state satisfies the count/bitmap invariant. -/
theorem ctor_inv (dev : okCFrontPanel) (usbBuffer : List Nat) : StreamInv (ctor dev usbBuffer) := by
  refine ⟨?_, ?_⟩
  · intro x hx
    exact Or.inl (List.eq_of_mem_replicate hx)
  · have hz : List.count (1 : Int) (List.replicate MAX_NUM_DATA_STREAMS 0) = 0 := by
      rw [List.count_eq_zero]
      intro hmem
      have := List.eq_of_mem_replicate hmem
      omega
    show (0 : Int) = ((List.count (1 : Int) (List.replicate MAX_NUM_DATA_STREAMS 0) : Nat) : Int)
    rw [hz]; rfl

/-- C1: from the constructor state, after any finite sequence of
`enableDataStream` calls with arbitrary arguments, every entry of
`dataStreamEnabled` is 0 or 1, `getNumEnabledDataStreams()` is the number of
entries equal to 1, and it lies between 0 and `MAX_NUM_DATA_STREAMS`. -/
theorem C1_enabled_count_invariant (dev : okCFrontPanel) (usbBuffer : List Nat)
    (calls : List (Int × Bool)) :
    (∀ x ∈ (enableDataStreamCalls calls (ctor dev usbBuffer)).dataStreamEnabled.val, x = 0 ∨ x = 1) ∧
    getNumEnabledDataStreams (enableDataStreamCalls calls (ctor dev usbBuffer))
      = ((enableDataStreamCalls calls (ctor dev usbBuffer)).dataStreamEnabled.val.count 1 : Nat) ∧
    0 ≤ getNumEnabledDataStreams (enableDataStreamCalls calls (ctor dev usbBuffer)) ∧
    getNumEnabledDataStreams (enableDataStreamCalls calls (ctor dev usbBuffer))
      ≤ (MAX_NUM_DATA_STREAMS : Int) := by
  have h := enableDataStreamCalls_inv calls (ctor dev usbBuffer) (ctor_inv dev usbBuffer)
  have hle := List.count_le_length (1 : Int)
    (enableDataStreamCalls calls (ctor dev usbBuffer)).dataStreamEnabled.val
  rw [(enableDataStreamCalls calls (ctor dev usbBuffer)).dataStreamEnabled.property] at hle
  refine ⟨h.1, h.2, ?_, ?_⟩
  · unfold getNumEnabledDataStreams; rw [h.2]; omega
  · unfold getNumEnabledDataStreams; rw [h.2]; omega

/-- Reading back the entry just written. -/
theorem StreamArray_get_set (a : StreamArray) (i : Nat) (v : Int) (h : i < a.val.length) :
    (a.set i v).get i = v := by
  unfold StreamArray.get StreamArray.set
  have h2 : i < (a.val.set i v).length := by rw [List.length_set]; exact h
  rw [List.getD_eq_getElem _ 0 h2]
  simp

/-- C2: for every state, stream index and flag, a second identical
`enableDataStream` call returns the state unchanged: the count, the stored
bitmap, the wire values and the log of transport calls (so no register write
is performed) are those left by the first call. -/
theorem C2_enableDataStream_idempotent (stream : Int) (enabled : Bool) (b : Rhd2000EvalBoard) :
    enableDataStream stream enabled (enableDataStream stream enabled b)
      = enableDataStream stream enabled b := by
  by_cases hr : stream < 0 ∨ stream > (MAX_NUM_DATA_STREAMS : Int) - 1
  · simp only [enableDataStream, if_pos hr]
  · have hlt := toNat_lt_length b.dataStreamEnabled stream hr
    cases enabled
    · by_cases h1 : b.dataStreamEnabled.get stream.toNat = 1
      · have hfirst : enableDataStream stream false b =
            { b with
              dev := (b.dev.SetWireInValue OkEndPoint.WireInDataStreamEn
                        (0x0000 <<< stream.toNat) (0x0001 <<< stream.toNat)).UpdateWireIns
              dataStreamEnabled := b.dataStreamEnabled.set stream.toNat 0
              numDataStreams := b.numDataStreams - 1 } := by
          simp only [enableDataStream, if_neg hr, h1, if_true, Bool.false_eq_true, if_false]
        rw [hfirst]
        have hget := StreamArray_get_set b.dataStreamEnabled stream.toNat 0 hlt
        simp only [enableDataStream, if_neg hr, hget, Bool.false_eq_true, if_false]
        simp
      · have hfirst : enableDataStream stream false b = b := by
          simp only [enableDataStream, if_neg hr, h1, if_false, Bool.false_eq_true]
        rw [hfirst, hfirst]
    · by_cases h0 : b.dataStreamEnabled.get stream.toNat = 0
      · have hfirst : enableDataStream stream true b =
            { b with
              dev := (b.dev.SetWireInValue OkEndPoint.WireInDataStreamEn
                        (0x0001 <<< stream.toNat) (0x0001 <<< stream.toNat)).UpdateWireIns
              dataStreamEnabled := b.dataStreamEnabled.set stream.toNat 1
              numDataStreams := b.numDataStreams + 1 } := by
          simp only [enableDataStream, if_neg hr, h0, if_true]
        rw [hfirst]
        have hget := StreamArray_get_set b.dataStreamEnabled stream.toNat 1 hlt
        simp only [enableDataStream, if_neg hr, hget, if_true]
        simp
      · have hfirst : enableDataStream stream true b = b := by
          simp only [enableDataStream, if_neg hr, h0, if_false, if_true]
        rw [hfirst, hfirst]

/-- C3 as stated fails: with stream 0 already enabled (count 1), enabling and
then disabling stream 0 leaves the count at 0. -/
theorem C3_counterexample :
    getNumEnabledDataStreams boardStream0Enabled = 1 ∧
    getNumEnabledDataStreams
      (enableDataStream 0 false (enableDataStream 0 true boardStream0Enabled)) = 0 := by
  decide

/-- C3 (amended): enabling and then disabling stream `s` returns the enabled
count to its value before the two calls whenever `s` is not already enabled
(`s` out of range or `dataStreamEnabled[s]` different from 1); when `s` is in
range and already enabled, the count ends one lower. -/
theorem C3_enable_then_disable_count (stream : Int) (b : Rhd2000EvalBoard) :
    (¬ (0 ≤ stream ∧ stream ≤ (MAX_NUM_DATA_STREAMS : Int) - 1
          ∧ b.dataStreamEnabled.get stream.toNat = 1) →
      getNumEnabledDataStreams (enableDataStream stream false (enableDataStream stream true b))
        = getNumEnabledDataStreams b) ∧
    ((0 ≤ stream ∧ stream ≤ (MAX_NUM_DATA_STREAMS : Int) - 1
          ∧ b.dataStreamEnabled.get stream.toNat = 1) →
      getNumEnabledDataStreams (enableDataStream stream false (enableDataStream stream true b))
        = getNumEnabledDataStreams b - 1) := by
  by_cases hr : stream < 0 ∨ stream > (MAX_NUM_DATA_STREAMS : Int) - 1
  · refine ⟨fun _ => ?_, fun h => ?_⟩
    · simp only [enableDataStream, if_pos hr]
    · omega
  · have hlt := toNat_lt_length b.dataStreamEnabled stream hr
    by_cases h0 : b.dataStreamEnabled.get stream.toNat = 0
    · have hget := StreamArray_get_set b.dataStreamEnabled stream.toNat 1 hlt
      refine ⟨fun _ => ?_, fun h => ?_⟩
      · simp only [enableDataStream, if_neg hr, h0, if_true, hget, Bool.false_eq_true, if_false,
          getNumEnabledDataStreams]
        omega
      · omega
    · have hfirst : enableDataStream stream true b = b := by
        simp only [enableDataStream, if_neg hr, h0, if_false, if_true]
      rw [hfirst]
      by_cases h1 : b.dataStreamEnabled.get stream.toNat = 1
      · refine ⟨fun h => ?_, fun _ => ?_⟩
        · exact absurd ⟨by omega, by omega, h1⟩ h
        · simp only [enableDataStream, if_neg hr, h1, if_true, Bool.false_eq_true, if_false,
            getNumEnabledDataStreams]
      · refine ⟨fun _ => ?_, fun h => ?_⟩
        · simp only [enableDataStream, if_neg hr, h1, if_false, Bool.false_eq_true]
        · exact absurd h.2.2 h1

/-- C3 (amended), instances: from the constructor state (stream 3 disabled,
count 0) the pair of calls on stream 3 leaves the count at 0; with stream 0
enabled the pair of calls on stream 0 takes the count from 1 to 0. -/
theorem C3_enable_then_disable_count_witness :
    getNumEnabledDataStreams
        (enableDataStream 3 false (enableDataStream 3 true (ctor idleDevice [])))
      = getNumEnabledDataStreams (ctor idleDevice []) ∧
    getNumEnabledDataStreams
        (enableDataStream 0 false (enableDataStream 0 true boardStream0Enabled))
      = getNumEnabledDataStreams boardStream0Enabled - 1 :=
  ⟨(C3_enable_then_disable_count 3 (ctor idleDevice [])).1 (by decide),
   (C3_enable_then_disable_count 0 boardStream0Enabled).2 (by decide)⟩

/-- Bits below 32 after a masked write: taken from `val` where the mask is
set, kept elsewhere. -/
theorem testBit_maskedWrite_low (old val mask i : Nat) (hm : mask < 4294967296) (hi : i < 32) :
    (maskedWrite old val mask).testBit i
      = if mask.testBit i then val.testBit i else old.testBit i := by
  unfold maskedWrite
  rw [Nat.mod_eq_of_lt hm]
  have h32 : (0xffffffff : Nat) = 2 ^ 32 - 1 := by norm_num
  have h232 : (4294967296 : Nat) = 2 ^ 32 := by norm_num
  rw [h32, h232]
  simp only [Nat.testBit_or, Nat.testBit_and, Nat.testBit_xor, Nat.testBit_two_pow_sub_one,
    Nat.testBit_mod_two_pow, hi, decide_True, Bool.true_and]
  cases old.testBit i <;> cases mask.testBit i <;> cases val.testBit i <;> rfl

/-- Bits from 32 upwards are clear after a masked write. -/
theorem testBit_maskedWrite_high (old val mask i : Nat) (hi : 32 ≤ i) :
    (maskedWrite old val mask).testBit i = false := by
  unfold maskedWrite
  have h32 : (0xffffffff : Nat) = 2 ^ 32 - 1 := by norm_num
  have h232 : (4294967296 : Nat) = 2 ^ 32 := by norm_num
  rw [h32, h232]
  have hni : ¬ i < 32 := by omega
  simp only [Nat.testBit_or, Nat.testBit_and, Nat.testBit_xor, Nat.testBit_two_pow_sub_one,
    Nat.testBit_mod_two_pow, hni, decide_False, Bool.false_and, Bool.false_xor, Bool.and_false,
    Bool.or_false]

/-- A 32-bit word has no bit set from position 32 upwards. -/
theorem testBit_of_lt_two_pow_32 (x i : Nat) (hx : x < 4294967296) (hi : 32 ≤ i) :
    x.testBit i = false := by
  apply Nat.testBit_lt_two_pow
  calc x < 2 ^ 32 := by norm_num; exact hx
    _ ≤ 2 ^ i := Nat.pow_le_pow_right (by norm_num) hi

/-- The bits of the mask `0x000f << s`. -/
theorem testBit_fifteen_shift (s i : Nat) :
    ((0x000f : Nat) <<< s).testBit i = decide (s ≤ i ∧ i < s + 4) := by
  have h15 : (0x000f : Nat) = 2 ^ 4 - 1 := by norm_num
  rw [h15, Nat.testBit_shiftLeft, Nat.testBit_two_pow_sub_one]
  by_cases h1 : s ≤ i <;> by_cases h2 : i < s + 4 <;> simp [h1, h2] <;> omega

/-- A value below 16 has no bit set from position 4 upwards. -/
theorem testBit_of_lt_sixteen (x j : Nat) (hx : x < 16) (hj : 4 ≤ j) : x.testBit j = false := by
  apply Nat.testBit_lt_two_pow
  calc x < 2 ^ 4 := by norm_num; exact hx
    _ ≤ 2 ^ j := Nat.pow_le_pow_right (by norm_num) hj

/-- The mask `0x000f << s` of a shift up to 12 fits in 32 bits. -/
theorem fifteen_shift_lt (s : Nat) (hs : s ≤ 12) : (0x000f : Nat) <<< s < 4294967296 := by
  rw [Nat.shiftLeft_eq]
  calc 15 * 2 ^ s ≤ 15 * 2 ^ 12 := Nat.mul_le_mul_left 15 (Nat.pow_le_pow_right (by norm_num) hs)
    _ < 4294967296 := by norm_num

/-- Writing a 4-bit value `v` into the field at shift `s` of a 32-bit word:
the bits `s .. s+3` become those of `v`, every other bit is kept. -/
theorem testBit_maskedWrite_field (old v s i : Nat) (hold : old < 4294967296) (hs : s ≤ 12) :
    (maskedWrite old (v <<< s) (0x000f <<< s)).testBit i
      = if s ≤ i ∧ i < s + 4 then v.testBit (i - s) else old.testBit i := by
  by_cases hi : i < 32
  · rw [testBit_maskedWrite_low old _ _ i (fifteen_shift_lt s hs) hi, testBit_fifteen_shift,
      Nat.testBit_shiftLeft]
    by_cases h : s ≤ i ∧ i < s + 4
    · simp [h, h.1]
    · simp [h]
  · rw [testBit_maskedWrite_high old _ _ i (by omega),
      testBit_of_lt_two_pow_32 old i hold (by omega)]
    have h : ¬ (s ≤ i ∧ i < s + 4) := by omega
    simp [h]

/-- The 4-bit field at shift `4*q` after writing `v` into the field at shift
`4*p`: `v` for `q = p`, the old field otherwise (no assumption on `old`). -/
theorem portField_maskedWrite (old v p q : Nat) (hv : v < 16) (hp : p ≤ 3) (hq : q ≤ 3) :
    portField q (maskedWrite old (v <<< (4 * p)) (0x000f <<< (4 * p)))
      = if q = p then v else portField q old := by
  apply Nat.eq_of_testBit_eq
  intro j
  have hf : ∀ x : Nat, (x % 16).testBit j = (decide (j < 4) && x.testBit j) := by
    intro x
    have h16 : (16 : Nat) = 2 ^ 4 := by norm_num
    rw [h16]
    exact Nat.testBit_mod_two_pow x 4 j
  by_cases hqp : q = p
  · subst hqp
    rw [if_pos rfl]
    unfold portField
    rw [hf, Nat.testBit_shiftRight]
    by_cases hj : j < 4
    · rw [testBit_maskedWrite_low old _ _ (4 * q + j) (fifteen_shift_lt (4 * q) (by omega))
          (by omega), testBit_fifteen_shift, Nat.testBit_shiftLeft]
      simp [hj]
    · simp [hj, testBit_of_lt_sixteen v j hv (by omega)]
  · rw [if_neg hqp]
    unfold portField
    rw [hf, hf, Nat.testBit_shiftRight, Nat.testBit_shiftRight]
    by_cases hj : j < 4
    · rw [testBit_maskedWrite_low old _ _ (4 * q + j) (fifteen_shift_lt (4 * p) (by omega))
          (by omega), testBit_fifteen_shift]
      have hno : ¬ (4 * p ≤ 4 * q + j ∧ 4 * q + j < 4 * p + 4) := by omega
      simp [hj, hno]
    · simp [hj]

/-- The shift of a port in the source is four times its port number. -/
theorem portBitShift_eq (port : BoardPort) : portBitShift port = 4 * portIndex port := by
  cases port <;> rfl

/-- The port number is at most 3. -/
theorem portIndex_le (port : BoardPort) : portIndex port ≤ 3 := by
  cases port <;> decide

/-- The port number determines the port. -/
theorem portIndex_inj (p q : BoardPort) : portIndex q = portIndex p ↔ q = p := by
  cases p <;> cases q <;> decide

/-- The wire values after a `selectAuxCommandBank` call with a valid slot and
a bank in range: one masked write to the slot's bank-select register. -/
theorem selectAuxCommandBank_wireIn (port : BoardPort) (slot : AuxCmdSlot) (w : OkEndPoint)
    (bank : Int) (b : Rhd2000EvalBoard) (hslot : auxCmdBankWire slot = some w)
    (hbank : 0 ≤ bank ∧ bank ≤ 15) (e : OkEndPoint) :
    (selectAuxCommandBank port slot bank b).dev.wireIn e
      = if e = w then
          maskedWrite (b.dev.wireIn w) (bank.toNat <<< portBitShift port)
            (0x000f <<< portBitShift port)
        else b.dev.wireIn e := by
  have hb : ¬ (bank < 0 ∨ bank > 15) := by omega
  cases slot with
  | AuxCmd1 =>
    cases hslot
    simp [selectAuxCommandBank, hb, okCFrontPanel.SetWireInValue, okCFrontPanel.UpdateWireIns]
  | AuxCmd2 =>
    cases hslot
    simp [selectAuxCommandBank, hb, okCFrontPanel.SetWireInValue, okCFrontPanel.UpdateWireIns]
  | AuxCmd3 =>
    cases hslot
    simp [selectAuxCommandBank, hb, okCFrontPanel.SetWireInValue, okCFrontPanel.UpdateWireIns]
  | invalid raw => cases hslot

/-- C4: for a port, a slot among `AuxCmd1..3` with bank-select register `w`
and a bank in [0,15], `selectAuxCommandBank` leaves `w` (a 32-bit word) with
bits `4*p .. 4*p+3` of the port replaced by the bank and every other bit as it
was; so the field of the port is the bank and the fields of the other three
ports are kept; every other register, the bank-select registers of the other
two slots among them, is unchanged. -/
theorem C4_selectAuxCommandBank_field (port : BoardPort) (slot : AuxCmdSlot) (w : OkEndPoint)
    (bank : Int) (b : Rhd2000EvalBoard) (hslot : auxCmdBankWire slot = some w)
    (hbank : 0 ≤ bank ∧ bank ≤ 15) (hreg : b.dev.wireIn w < 4294967296) :
    (∀ i : Nat, ((selectAuxCommandBank port slot bank b).dev.wireIn w).testBit i
        = if 4 * portIndex port ≤ i ∧ i < 4 * portIndex port + 4
          then bank.toNat.testBit (i - 4 * portIndex port)
          else (b.dev.wireIn w).testBit i) ∧
    (∀ q : BoardPort, portField (portIndex q) ((selectAuxCommandBank port slot bank b).dev.wireIn w)
        = if q = port then bank.toNat else portField (portIndex q) (b.dev.wireIn w)) ∧
    (∀ e : OkEndPoint, e ≠ w →
        (selectAuxCommandBank port slot bank b).dev.wireIn e = b.dev.wireIn e) := by
  have hv : bank.toNat < 16 := by omega
  have hw := selectAuxCommandBank_wireIn port slot w bank b hslot hbank
  refine ⟨?_, ?_, ?_⟩
  · intro i
    rw [hw w, if_pos rfl, portBitShift_eq]
    exact testBit_maskedWrite_field (b.dev.wireIn w) bank.toNat (4 * portIndex port) i hreg
      (by have := portIndex_le port; omega)
  · intro q
    rw [hw w, if_pos rfl, portBitShift_eq,
      portField_maskedWrite (b.dev.wireIn w) bank.toNat (portIndex port) (portIndex q) hv
        (portIndex_le port) (portIndex_le q)]
    by_cases hq : q = port
    · rw [if_pos hq, if_pos (by rw [hq])]
    · rw [if_neg hq, if_neg (fun h => hq ((portIndex_inj port q).mp h))]
  · intro e he
    rw [hw e, if_neg he]

/-- C4, instance: with banks 4, 3, 2, 1 selected for `AuxCmd2` on ports A, B,
C, D (register `0x1234`), selecting bank 5 on port C gives `0x1534`: port C
holds 5 and ports A, B and D keep their banks. -/
theorem C4_selectAuxCommandBank_field_witness :
    boardBanks1234.dev.wireIn OkEndPoint.WireInAuxCmdBank2 = 0x1234 ∧
    (selectAuxCommandBank BoardPort.PortC AuxCmdSlot.AuxCmd2 5 boardBanks1234).dev.wireIn
        OkEndPoint.WireInAuxCmdBank2 = 0x1534 ∧
    (∀ q : BoardPort,
      portField (portIndex q)
          ((selectAuxCommandBank BoardPort.PortC AuxCmdSlot.AuxCmd2 5 boardBanks1234).dev.wireIn
            OkEndPoint.WireInAuxCmdBank2)
        = if q = BoardPort.PortC then (5 : Int).toNat
          else portField (portIndex q) (boardBanks1234.dev.wireIn OkEndPoint.WireInAuxCmdBank2)) :=
  ⟨by decide, by decide,
   (C4_selectAuxCommandBank_field BoardPort.PortC AuxCmdSlot.AuxCmd2 OkEndPoint.WireInAuxCmdBank2 5
      boardBanks1234 rfl (by decide) (by decide)).2.1⟩

/-- C5: `setCableDelay` with a delay outside [0,15], `selectAuxCommandBank`
with a bank outside [0,15] and `selectAuxCommandLength` with `loopIndex` or
`endIndex` outside [0,1023] return the board state unchanged: every data
member, every wire value and the log of transport calls (no register write
was performed). -/
theorem C5_out_of_range_no_effect (port : BoardPort) (slot : AuxCmdSlot)
    (delay bank loopIndex endIndex : Int) (b : Rhd2000EvalBoard) :
    ((delay < 0 ∨ delay > 15) → setCableDelay port delay b = b) ∧
    ((bank < 0 ∨ bank > 15) → selectAuxCommandBank port slot bank b = b) ∧
    ((loopIndex < 0 ∨ loopIndex > 1023 ∨ endIndex < 0 ∨ endIndex > 1023) →
      selectAuxCommandLength slot loopIndex endIndex b = b) := by
  refine ⟨fun h => ?_, fun h => ?_, fun h => ?_⟩
  · simp only [setCableDelay, if_pos h]
  · simp only [selectAuxCommandBank, if_pos h, ite_self]
  · by_cases hl : loopIndex < 0 ∨ loopIndex > 1023
    · simp only [selectAuxCommandLength, if_pos hl, ite_self]
    · have he : endIndex < 0 ∨ endIndex > 1023 := by omega
      simp only [selectAuxCommandLength, if_pos he, ite_self]

/-- C5, instances: delay 16 and delay -1, bank 16, loop index 1024 and end
index -1 are rejected and leave the log of transport calls as it was. -/
theorem C5_out_of_range_no_effect_witness :
    setCableDelay BoardPort.PortB 16 boardBanks1234 = boardBanks1234 ∧
    (selectAuxCommandBank BoardPort.PortC AuxCmdSlot.AuxCmd2 16 boardBanks1234).dev.log
      = boardBanks1234.dev.log ∧
    (selectAuxCommandLength AuxCmdSlot.AuxCmd3 1024 0 boardBanks1234).dev.log
      = boardBanks1234.dev.log ∧
    selectAuxCommandLength AuxCmdSlot.AuxCmd1 5 (-1) boardBanks1234 = boardBanks1234 :=
  ⟨(C5_out_of_range_no_effect BoardPort.PortB AuxCmdSlot.AuxCmd1 16 0 0 0 boardBanks1234).1
      (by decide),
   congrArg (fun s => s.dev.log)
     ((C5_out_of_range_no_effect BoardPort.PortC AuxCmdSlot.AuxCmd2 0 16 0 0 boardBanks1234).2.1
        (by decide)),
   congrArg (fun s => s.dev.log)
     ((C5_out_of_range_no_effect BoardPort.PortA AuxCmdSlot.AuxCmd3 0 0 1024 0 boardBanks1234).2.2
        (by decide)),
   (C5_out_of_range_no_effect BoardPort.PortA AuxCmdSlot.AuxCmd1 0 0 5 (-1) boardBanks1234).2.2
      (by decide)⟩

/-- A write with the full mask `0xffffffff` stores the value (as a 32-bit
word), whatever the wire held. -/
theorem maskedWrite_full (old val : Nat) : maskedWrite old val 0xffffffff = val % 4294967296 := by
  unfold maskedWrite
  have h0 : (0xffffffff : Nat) ^^^ (0xffffffff % 4294967296) = 0 := by decide
  have h1 : (0xffffffff : Nat) % 4294967296 = 2 ^ 32 - 1 := by decide
  rw [h0, h1, Nat.and_zero, Nat.zero_or, Nat.and_pow_two_sub_one_eq_mod]
  have h232 : (2 : Nat) ^ 32 = 4294967296 := by norm_num
  rw [h232, Nat.mod_mod]

/-- A wait loop keeps every property of the board that one poll keeps. -/
theorem whileNot_preserves (poll : Rhd2000EvalBoard → Bool × Rhd2000EvalBoard)
    (P : Rhd2000EvalBoard → Prop) (hP : ∀ s, P s → P (poll s).2) :
    ∀ (fuel : Nat) (b : Rhd2000EvalBoard), P b → P (whileNot poll fuel b).2 := by
  intro fuel
  induction fuel with
  | zero => intro b hb; exact hb
  | succ n ih =>
    intro b hb
    unfold whileNot
    by_cases hp : (poll b).1 = true
    · rw [if_pos hp]; exact hP b hb
    · rw [if_neg hp]; exact ih (poll b).2 (hP b hb)

/-- Waiting for `DcmProgDone` changes neither the data members other than
`dev` nor the wire-in values. -/
theorem whileNot_isDcmProgDone_frame (hw : Hardware) (fuel : Nat) (b : Rhd2000EvalBoard) :
    (whileNot (isDcmProgDone hw) fuel b).2.sampleRate = b.sampleRate ∧
    (whileNot (isDcmProgDone hw) fuel b).2.dev.wireIn = b.dev.wireIn :=
  whileNot_preserves (isDcmProgDone hw)
    (fun s => s.sampleRate = b.sampleRate ∧ s.dev.wireIn = b.dev.wireIn)
    (fun _ hs => hs) fuel b ⟨rfl, rfl⟩

/-- Waiting for `DataClkLocked` changes neither the data members other than
`dev` nor the wire-in values. -/
theorem whileNot_isDataClockLocked_frame (hw : Hardware) (fuel : Nat) (b : Rhd2000EvalBoard) :
    (whileNot (isDataClockLocked hw) fuel b).2.sampleRate = b.sampleRate ∧
    (whileNot (isDataClockLocked hw) fuel b).2.dev.wireIn = b.dev.wireIn :=
  whileNot_preserves (isDataClockLocked hw)
    (fun s => s.sampleRate = b.sampleRate ∧ s.dev.wireIn = b.dev.wireIn)
    (fun _ hs => hs) fuel b ⟨rfl, rfl⟩

/-- The bounds of the clock synthesizer hold for every pair of the table. -/
theorem setSampleRateMD_bounds (r : AmplifierSampleRate) (M D : Nat)
    (h : setSampleRateMD r = some (M, D)) :
    2 ≤ M ∧ M ≤ 256 ∧ 1 ≤ D ∧ D ≤ 256 ∧
      (5 / 100 : ℚ) ≤ (M : ℚ) / (D : ℚ) ∧ (M : ℚ) / (D : ℚ) ≤ 333 / 100 := by
  cases r <;> simp only [setSampleRateMD, Option.some.injEq, Prod.mk.injEq] at h <;>
    first
    | (obtain ⟨rfl, rfl⟩ := h; norm_num)
    | exact absurd h (by simp)

/-- When `setSampleRate` returns true, the rate has a table entry `(M, D)`,
the stored rate is the new one and `WireInDataFreqPll` holds `256*M + D`. -/
theorem setSampleRate_returned_true (hw : Hardware) (fuel : Nat) (r : AmplifierSampleRate)
    (b b1 : Rhd2000EvalBoard) (h : setSampleRate hw fuel r b = Outcome.returned true b1) :
    ∃ M D : Nat, setSampleRateMD r = some (M, D) ∧ b1.sampleRate = r ∧
      b1.dev.wireIn OkEndPoint.WireInDataFreqPll = 256 * M + D := by
  unfold setSampleRate at h
  cases hmd : setSampleRateMD r with
  | none =>
    rw [hmd] at h
    simp at h
  | some md =>
    obtain ⟨M, D⟩ := md
    rw [hmd] at h
    have hb := setSampleRateMD_bounds r M D hmd
    have hf1 := whileNot_isDcmProgDone_frame hw fuel { b with sampleRate := r }
    rcases hw1 : whileNot (isDcmProgDone hw) fuel { b with sampleRate := r } with ⟨o1, b2⟩
    dsimp only at h
    rw [hw1] at h hf1
    cases o1 with
    | none => simp at h
    | some fuel2 =>
      dsimp only at h
      have hf2 := whileNot_isDataClockLocked_frame hw fuel2
        { b2 with
          dev := ((b2.dev.SetWireInValue OkEndPoint.WireInDataFreqPll (256 * M + D)
                    0xffffffff).UpdateWireIns).ActivateTriggerIn OkEndPoint.TrigInDcmProg 0 }
      rcases hw2 : whileNot (isDataClockLocked hw) fuel2
        { b2 with
          dev := ((b2.dev.SetWireInValue OkEndPoint.WireInDataFreqPll (256 * M + D)
                    0xffffffff).UpdateWireIns).ActivateTriggerIn OkEndPoint.TrigInDcmProg 0 }
        with ⟨o2, b4⟩
      rw [hw2] at h hf2
      cases o2 with
      | none => simp at h
      | some fuel3 =>
        simp only [Outcome.returned.injEq, true_and] at h
        subst h
        refine ⟨M, D, rfl, ?_, ?_⟩
        · rw [hf2.1]; exact hf1.1
        · rw [hf2.2]
          simp only [okCFrontPanel.ActivateTriggerIn, okCFrontPanel.UpdateWireIns,
            okCFrontPanel.SetWireInValue, if_true]
          rw [maskedWrite_full]
          apply Nat.mod_eq_of_lt
          omega

/-- C6: the `(M, D)` pair that `setSampleRate` selects for each of the 17
enumerated rates is the pair of the documented table; every selected pair
satisfies 2 ≤ M ≤ 256, 1 ≤ D ≤ 256 and 0.05 ≤ M/D ≤ 3.33; and a call that
returns true has written `256*M + D` of the selected pair to
`WireInDataFreqPll`. -/
theorem C6_clock_parameters_table :
    (setSampleRateMD AmplifierSampleRate.SampleRate1000Hz = some (7, 125) ∧
     setSampleRateMD AmplifierSampleRate.SampleRate1250Hz = some (7, 100) ∧
     setSampleRateMD AmplifierSampleRate.SampleRate1500Hz = some (21, 250) ∧
     setSampleRateMD AmplifierSampleRate.SampleRate2000Hz = some (14, 125) ∧
     setSampleRateMD AmplifierSampleRate.SampleRate2500Hz = some (35, 250) ∧
     setSampleRateMD AmplifierSampleRate.SampleRate3000Hz = some (21, 125) ∧
     setSampleRateMD AmplifierSampleRate.SampleRate3333Hz = some (14, 75) ∧
     setSampleRateMD AmplifierSampleRate.SampleRate4000Hz = some (28, 125) ∧
     setSampleRateMD AmplifierSampleRate.SampleRate5000Hz = some (7, 25) ∧
     setSampleRateMD AmplifierSampleRate.SampleRate6250Hz = some (7, 20) ∧
     setSampleRateMD AmplifierSampleRate.SampleRate8000Hz = some (112, 250) ∧
     setSampleRateMD AmplifierSampleRate.SampleRate10000Hz = some (14, 25) ∧
     setSampleRateMD AmplifierSampleRate.SampleRate12500Hz = some (7, 10) ∧
     setSampleRateMD AmplifierSampleRate.SampleRate15000Hz = some (21, 25) ∧
     setSampleRateMD AmplifierSampleRate.SampleRate20000Hz = some (28, 25) ∧
     setSampleRateMD AmplifierSampleRate.SampleRate25000Hz = some (35, 25) ∧
     setSampleRateMD AmplifierSampleRate.SampleRate30000Hz = some (42, 25)) ∧
    (∀ (r : AmplifierSampleRate) (M D : Nat), setSampleRateMD r = some (M, D) →
      2 ≤ M ∧ M ≤ 256 ∧ 1 ≤ D ∧ D ≤ 256 ∧
        (5 / 100 : ℚ) ≤ (M : ℚ) / (D : ℚ) ∧ (M : ℚ) / (D : ℚ) ≤ 333 / 100) ∧
    (∀ (hw : Hardware) (fuel : Nat) (r : AmplifierSampleRate) (b b1 : Rhd2000EvalBoard),
      setSampleRate hw fuel r b = Outcome.returned true b1 →
      ∃ M D : Nat, setSampleRateMD r = some (M, D) ∧
        b1.dev.wireIn OkEndPoint.WireInDataFreqPll = 256 * M + D) := by
  refine ⟨⟨rfl, rfl, rfl, rfl, rfl, rfl, rfl, rfl, rfl, rfl, rfl, rfl, rfl, rfl, rfl, rfl, rfl⟩,
    setSampleRateMD_bounds, ?_⟩
  intro hw fuel r b b1 h
  obtain ⟨M, D, h1, _, h3⟩ := setSampleRate_returned_true hw fuel r b b1 h
  exact ⟨M, D, h1, h3⟩

/-- C6, instances: the pair (14, 75) of 3333 Hz is within the bounds, and on
a device that is ready at once `setSampleRate(SampleRate20000Hz)` returns
true with `256*28 + 25` in `WireInDataFreqPll`. -/
theorem C6_clock_parameters_table_witness :
    (2 ≤ 14 ∧ 14 ≤ 256 ∧ 1 ≤ 75 ∧ 75 ≤ 256 ∧
      (5 / 100 : ℚ) ≤ ((14 : Nat) : ℚ) / ((75 : Nat) : ℚ) ∧
      ((14 : Nat) : ℚ) / ((75 : Nat) : ℚ) ≤ 333 / 100) ∧
    (∃ M D : Nat, setSampleRateMD AmplifierSampleRate.SampleRate20000Hz = some (M, D) ∧
      (setSampleRate readyHardware 2 AmplifierSampleRate.SampleRate20000Hz
          (ctor idleDevice [])).board.dev.wireIn OkEndPoint.WireInDataFreqPll = 256 * M + D) ∧
    (setSampleRate readyHardware 2 AmplifierSampleRate.SampleRate20000Hz
          (ctor idleDevice [])).board.dev.wireIn OkEndPoint.WireInDataFreqPll = 7193 :=
  ⟨C6_clock_parameters_table.2.1 AmplifierSampleRate.SampleRate3333Hz 14 75 rfl,
   C6_clock_parameters_table.2.2 readyHardware 2 AmplifierSampleRate.SampleRate20000Hz
     (ctor idleDevice [])
     (setSampleRate readyHardware 2 AmplifierSampleRate.SampleRate20000Hz
        (ctor idleDevice [])).board rfl,
   by decide⟩

/-- C8: for a value of the enumeration type that is none of the enumerated
rates, `setSampleRate` returns false at once (for every device and without
any poll), and the board it leaves is the board it was given: the stored
sample rate, every other data member, the wire values and the log of
transport calls (no register write, no trigger pulse) are unchanged. -/
theorem C8_setSampleRate_invalid (hw : Hardware) (fuel : Nat) (raw : Int) (b : Rhd2000EvalBoard) :
    setSampleRate hw fuel (AmplifierSampleRate.invalid raw) b = Outcome.returned false b ∧
    getSampleRateEnum (setSampleRate hw fuel (AmplifierSampleRate.invalid raw) b).board
      = getSampleRateEnum b ∧
    (setSampleRate hw fuel (AmplifierSampleRate.invalid raw) b).board.dev.log = b.dev.log :=
  ⟨rfl, rfl, rfl⟩

/-- A wait loop that was left was left on a poll that returned true, and the
state reached is the state after that poll. -/
theorem whileNot_exit (poll : Rhd2000EvalBoard → Bool × Rhd2000EvalBoard) :
    ∀ (fuel : Nat) (b : Rhd2000EvalBoard) (k : Nat), (whileNot poll fuel b).1 = some k →
      ∃ s : Rhd2000EvalBoard, (poll s).1 = true ∧ (poll s).2 = (whileNot poll fuel b).2 := by
  intro fuel
  induction fuel with
  | zero => intro b k h; simp [whileNot] at h
  | succ n ih =>
    intro b k h
    unfold whileNot at h ⊢
    by_cases hp : (poll b).1 = true
    · rw [if_pos hp]; exact ⟨b, hp, rfl⟩
    · rw [if_neg hp] at h ⊢; exact ih (poll b).2 k h

/-- An enumerated rate has an entry in the table of `setSampleRate`. -/
theorem setSampleRateMD_isSome (r : AmplifierSampleRate)
    (hr : ∀ raw : Int, r ≠ AmplifierSampleRate.invalid raw) :
    ∃ M D : Nat, setSampleRateMD r = some (M, D) := by
  cases r with
  | invalid raw => exact absurd rfl (hr raw)
  | _ => exact ⟨_, _, rfl⟩

/-- For a rate of the table, the board of every outcome of `setSampleRate`
(returned or still waiting) stores the new rate. -/
theorem setSampleRate_board_sampleRate (hw : Hardware) (fuel : Nat) (r : AmplifierSampleRate)
    (b : Rhd2000EvalBoard) (M D : Nat) (hmd : setSampleRateMD r = some (M, D)) :
    (setSampleRate hw fuel r b).board.sampleRate = r := by
  unfold setSampleRate
  rw [hmd]
  dsimp only
  have hf1 := whileNot_isDcmProgDone_frame hw fuel { b with sampleRate := r }
  rcases hw1 : whileNot (isDcmProgDone hw) fuel { b with sampleRate := r } with ⟨o1, b2⟩
  rw [hw1] at hf1
  cases o1 with
  | none => exact hf1.1
  | some fuel2 =>
    dsimp only
    have hf2 := whileNot_isDataClockLocked_frame hw fuel2
      { b2 with
        dev := ((b2.dev.SetWireInValue OkEndPoint.WireInDataFreqPll (256 * M + D)
                  0xffffffff).UpdateWireIns).ActivateTriggerIn OkEndPoint.TrigInDcmProg 0 }
    rcases hw2 : whileNot (isDataClockLocked hw) fuel2
      { b2 with
        dev := ((b2.dev.SetWireInValue OkEndPoint.WireInDataFreqPll (256 * M + D)
                  0xffffffff).UpdateWireIns).ActivateTriggerIn OkEndPoint.TrigInDcmProg 0 }
      with ⟨o2, b4⟩
    rw [hw2] at hf2
    cases o2 with
    | none => exact hf2.1.trans hf1.1
    | some fuel3 => exact hf2.1.trans hf1.1

/-- When `setSampleRate` returns true, the last snapshot it took shows
`DataClkLocked` (bit 0 of `WireOutDataClkLocked`) set. -/
theorem setSampleRate_true_locked (hw : Hardware) (fuel : Nat) (r : AmplifierSampleRate)
    (b b1 : Rhd2000EvalBoard) (h : setSampleRate hw fuel r b = Outcome.returned true b1) :
    (b1.dev.GetWireOutValue OkEndPoint.WireOutDataClkLocked &&& 0x0001) > 0 := by
  unfold setSampleRate at h
  cases hmd : setSampleRateMD r with
  | none =>
    rw [hmd] at h
    simp at h
  | some md =>
    obtain ⟨M, D⟩ := md
    rw [hmd] at h
    dsimp only at h
    rcases hw1 : whileNot (isDcmProgDone hw) fuel { b with sampleRate := r } with ⟨o1, b2⟩
    rw [hw1] at h
    cases o1 with
    | none => simp at h
    | some fuel2 =>
      dsimp only at h
      have hex := whileNot_exit (isDataClockLocked hw) fuel2
        { b2 with
          dev := ((b2.dev.SetWireInValue OkEndPoint.WireInDataFreqPll (256 * M + D)
                    0xffffffff).UpdateWireIns).ActivateTriggerIn OkEndPoint.TrigInDcmProg 0 }
      rcases hw2 : whileNot (isDataClockLocked hw) fuel2
        { b2 with
          dev := ((b2.dev.SetWireInValue OkEndPoint.WireInDataFreqPll (256 * M + D)
                    0xffffffff).UpdateWireIns).ActivateTriggerIn OkEndPoint.TrigInDcmProg 0 }
        with ⟨o2, b4⟩
      rw [hw2] at h hex
      cases o2 with
      | none => simp at h
      | some fuel3 =>
        simp only [Outcome.returned.injEq, true_and] at h
        subst h
        obtain ⟨s, hs1, hs2⟩ := hex fuel3 rfl
        have hs1b : decide (((isDataClockLocked hw s).2.dev.GetWireOutValue
            OkEndPoint.WireOutDataClkLocked &&& 0x0001) > 0) = true := hs1
        rw [hs2] at hs1b
        exact of_decide_eq_true hs1b

/-- C9 as stated fails: on a device that reports `DcmProgDone` but never
`DataClkLocked`, the call `setSampleRate(SampleRate1000Hz)` made in the
constructor state (rate 30000 Hz) is, after four polls, still waiting for
`DataClkLocked`, and the stored sample rate is already `SampleRate1000Hz`. -/
theorem C9_counterexample :
    getSampleRateEnum (ctor idleDevice []) = AmplifierSampleRate.SampleRate30000Hz ∧
    setSampleRate neverLockingHardware 4 AmplifierSampleRate.SampleRate1000Hz (ctor idleDevice [])
      = Outcome.waitingDataClockLocked
          (setSampleRate neverLockingHardware 4 AmplifierSampleRate.SampleRate1000Hz
            (ctor idleDevice [])).board ∧
    getSampleRateEnum
        (setSampleRate neverLockingHardware 4 AmplifierSampleRate.SampleRate1000Hz
          (ctor idleDevice [])).board
      = AmplifierSampleRate.SampleRate1000Hz :=
  ⟨rfl, rfl, rfl⟩

/-- C9 (amended): for every enumerated rate, `setSampleRate` stores the new
rate before its first poll, so at every point of the call from the first wait
on (whatever the device does and however many polls have been made, also when
the handshake never completes) and at its return the stored sample rate is the
new one; and the call returns true only after a snapshot has shown
`DataClkLocked` set. -/
theorem C9_setSampleRate_commit_order (hw : Hardware) (fuel : Nat) (r : AmplifierSampleRate)
    (b : Rhd2000EvalBoard) (hr : ∀ raw : Int, r ≠ AmplifierSampleRate.invalid raw) :
    getSampleRateEnum (setSampleRate hw fuel r b).board = r ∧
    (∀ b1 : Rhd2000EvalBoard, setSampleRate hw fuel r b = Outcome.returned true b1 →
      (b1.dev.GetWireOutValue OkEndPoint.WireOutDataClkLocked &&& 0x0001) > 0) := by
  obtain ⟨M, D, hmd⟩ := setSampleRateMD_isSome r hr
  exact ⟨setSampleRate_board_sampleRate hw fuel r b M D hmd,
    fun b1 h => setSampleRate_true_locked hw fuel r b b1 h⟩

/-- C9 (amended), instances: on the never-locking device the stored rate is
the new one after four polls, and on a device that is ready at once the call
returns true with `DataClkLocked` set in the last snapshot. -/
theorem C9_setSampleRate_commit_order_witness :
    getSampleRateEnum
        (setSampleRate neverLockingHardware 4 AmplifierSampleRate.SampleRate1000Hz
          (ctor idleDevice [])).board
      = AmplifierSampleRate.SampleRate1000Hz ∧
    ((setSampleRate readyHardware 2 AmplifierSampleRate.SampleRate1000Hz
          (ctor idleDevice [])).board.dev.GetWireOutValue OkEndPoint.WireOutDataClkLocked
        &&& 0x0001) > 0 :=
  ⟨(C9_setSampleRate_commit_order neverLockingHardware 4 AmplifierSampleRate.SampleRate1000Hz
      (ctor idleDevice []) (fun _ h => AmplifierSampleRate.noConfusion h)).1,
   (C9_setSampleRate_commit_order readyHardware 2 AmplifierSampleRate.SampleRate1000Hz
      (ctor idleDevice []) (fun _ h => AmplifierSampleRate.noConfusion h)).2
      (setSampleRate readyHardware 2 AmplifierSampleRate.SampleRate1000Hz
        (ctor idleDevice [])).board rfl⟩

/-- The decode loop appends one record per iteration. -/
theorem readDataBlocksLoop_length {DataBlock : Type} (codec : DataBlockCodec DataBlock)
    (usbBuffer : List Nat) (numDataStreams : Int) :
    ∀ (k : Nat) (i : Int) (dataBlock : DataBlock) (dataQueue : List DataBlock),
      (readDataBlocksLoop codec usbBuffer numDataStreams k i dataBlock dataQueue).length
        = dataQueue.length + k := by
  intro k
  induction k with
  | zero => intro i dataBlock dataQueue; rfl
  | succ n ih =>
    intro i dataBlock dataQueue
    unfold readDataBlocksLoop
    dsimp only
    rw [ih, List.length_append, List.length_singleton]
    omega

/-- The value of `numWordsInFifo()` fits in 32 bits. -/
theorem numWordsInFifo_lt (hw : Hardware) (b : Rhd2000EvalBoard) :
    (numWordsInFifo hw b).1 < 4294967296 :=
  Nat.mod_lt _ (by norm_num)

/-- The conversion of a non-negative `int` below `2^31` keeps its value. -/
theorem toUINT32_of_nonneg (v : Int) (h0 : 0 ≤ v) (h1 : v < 2147483648) :
    toUINT32 v = v.toNat := by
  unfold toUINT32
  rw [Int.emod_eq_of_lt h0 (by omega)]

/-- Without overflow the check of `readDataBlocks` is the one of the
specification: if `numBlocks * W` fits in 32 bits and the FIFO reports fewer
words than that, the call returns false, makes no bulk transfer (its only
transport call is the snapshot of `numWordsInFifo`) and returns the queue as it
was given. -/
theorem readDataBlocks_insufficient {DataBlock : Type} (USB_BUFFER_SIZE : Nat)
    (codec : DataBlockCodec DataBlock) (hw : Hardware) (numBlocks : Int)
    (dataQueue : List DataBlock) (b : Rhd2000EvalBoard)
    (hn0 : 0 ≤ numBlocks) (hn1 : numBlocks < 2147483648)
    (hfit : numBlocks.toNat * codec.calculateDataBlockSizeInWords b.numDataStreams < 4294967296)
    (hlt : (numWordsInFifo hw b).1
      < numBlocks.toNat * codec.calculateDataBlockSizeInWords b.numDataStreams) :
    readDataBlocks USB_BUFFER_SIZE codec hw numBlocks dataQueue b
      = (false, dataQueue, (numWordsInFifo hw b).2) ∧
    (numWordsInFifo hw b).2.dev.log = b.dev.log ++ [TransportOp.UpdateWireOuts] := by
  refine ⟨?_, rfl⟩
  unfold readDataBlocks
  dsimp only
  rw [toUINT32_of_nonneg numBlocks hn0 hn1]
  have hle : numBlocks.toNat * (codec.calculateDataBlockSizeInWords b.numDataStreams % 4294967296)
      ≤ numBlocks.toNat * codec.calculateDataBlockSizeInWords b.numDataStreams :=
    Nat.mul_le_mul_left _ (Nat.mod_le _ _)
  by_cases hz : numBlocks.toNat = 0
  · rw [hz] at hlt
    omega
  · have hW : codec.calculateDataBlockSizeInWords b.numDataStreams < 4294967296 := by
      have hpos : 1 ≤ numBlocks.toNat := by omega
      calc codec.calculateDataBlockSizeInWords b.numDataStreams
          = 1 * codec.calculateDataBlockSizeInWords b.numDataStreams := (Nat.one_mul _).symm
        _ ≤ numBlocks.toNat * codec.calculateDataBlockSizeInWords b.numDataStreams :=
            Nat.mul_le_mul_right _ hpos
        _ < 4294967296 := hfit
    rw [Nat.mod_eq_of_lt hW, Nat.mod_eq_of_lt hfit, if_pos hlt]

/-- When `numBlocks * W` does not fit in 32 bits, `readDataBlocks` compares
the FIFO count with the product reduced modulo `2^32`: if the FIFO reports at
least that many words (it reports fewer than `numBlocks * W` in any case) and
the reduced byte count fits the buffer, the call returns true, makes a bulk
transfer of the reduced byte count and appends `numBlocks` records. -/
theorem readDataBlocks_overflow {DataBlock : Type} (USB_BUFFER_SIZE : Nat)
    (codec : DataBlockCodec DataBlock) (hw : Hardware) (numBlocks : Int)
    (dataQueue : List DataBlock) (b : Rhd2000EvalBoard)
    (hn0 : 0 ≤ numBlocks) (hn1 : numBlocks < 2147483648)
    (hW : codec.calculateDataBlockSizeInWords b.numDataStreams < 4294967296)
    (hover : 4294967296 ≤ numBlocks.toNat * codec.calculateDataBlockSizeInWords b.numDataStreams)
    (hfifo : (numBlocks.toNat * codec.calculateDataBlockSizeInWords b.numDataStreams) % 4294967296
      ≤ (numWordsInFifo hw b).1)
    (hbuf : 2 * ((numBlocks.toNat * codec.calculateDataBlockSizeInWords b.numDataStreams)
      % 4294967296) % 4294967296 ≤ USB_BUFFER_SIZE) :
    (numWordsInFifo hw b).1
        < numBlocks.toNat * codec.calculateDataBlockSizeInWords b.numDataStreams ∧
    (readDataBlocks USB_BUFFER_SIZE codec hw numBlocks dataQueue b).1 = true ∧
    (readDataBlocks USB_BUFFER_SIZE codec hw numBlocks dataQueue b).2.1.length
        = dataQueue.length + numBlocks.toNat ∧
    (readDataBlocks USB_BUFFER_SIZE codec hw numBlocks dataQueue b).2.2.dev.log
        = b.dev.log ++ [TransportOp.UpdateWireOuts,
            TransportOp.ReadFromPipeOut OkEndPoint.PipeOutData
              (2 * ((numBlocks.toNat * codec.calculateDataBlockSizeInWords b.numDataStreams)
                % 4294967296) % 4294967296)] := by
  have hlt := numWordsInFifo_lt hw b
  have hnot : ¬ (numWordsInFifo hw b).1
      < (numBlocks.toNat * codec.calculateDataBlockSizeInWords b.numDataStreams) % 4294967296 := by
    omega
  have hnot2 : ¬ 2 * ((numBlocks.toNat * codec.calculateDataBlockSizeInWords b.numDataStreams)
      % 4294967296) % 4294967296 > USB_BUFFER_SIZE := by omega
  refine ⟨by omega, ?_, ?_, ?_⟩ <;>
    unfold readDataBlocks <;>
    dsimp only <;>
    rw [toUINT32_of_nonneg numBlocks hn0 hn1, Nat.mod_eq_of_lt hW, if_neg hnot, if_neg hnot2]
  · exact readDataBlocksLoop_length codec _ _ _ _ _ _
  · simp [ReadFromPipeOut, numWordsInFifo, okCFrontPanel.UpdateWireOuts]

/-- C10, the code at a failing input: one stream enabled (block size 3120
words with the sample codec), the FIFO reporting 3000 words, a buffer of
2400000 bytes and `numBlocks = 1376593`.  The FIFO holds fewer than
`1376593 * 3120` words, yet `readDataBlocks` returns true, makes a bulk
transfer of 5728 bytes (the product is `2^32 + 2864`) and appends 1376593
records to the empty queue. -/
theorem C10_readDataBlocks_overflow_input :
    (numWordsInFifo fifo3000Hardware boardStream0Enabled).1 = 3000 ∧
    sampleCodec.calculateDataBlockSizeInWords boardStream0Enabled.numDataStreams = 3120 ∧
    (numWordsInFifo fifo3000Hardware boardStream0Enabled).1
      < (1376593 : Int).toNat
          * sampleCodec.calculateDataBlockSizeInWords boardStream0Enabled.numDataStreams ∧
    (readDataBlocks 2400000 sampleCodec fifo3000Hardware 1376593 [] boardStream0Enabled).1
      = true ∧
    (readDataBlocks 2400000 sampleCodec fifo3000Hardware 1376593 [] boardStream0Enabled).2.1.length
      = 1376593 ∧
    (readDataBlocks 2400000 sampleCodec fifo3000Hardware 1376593 [] boardStream0Enabled).2.2.dev.log
      = boardStream0Enabled.dev.log ++ [TransportOp.UpdateWireOuts,
          TransportOp.ReadFromPipeOut OkEndPoint.PipeOutData 5728] := by
  have h := readDataBlocks_overflow 2400000 sampleCodec fifo3000Hardware 1376593 []
    boardStream0Enabled (by decide) (by decide) (by decide) (by decide) (by decide) (by decide)
  exact ⟨by decide, by decide, h.1, h.2.1, h.2.2.1, h.2.2.2⟩

/-- Decoding on from the first record of a loop is the loop one iteration
later. -/
theorem decodeFrom_shift {DataBlock : Type} (codec : DataBlockCodec DataBlock)
    (usbBuffer : List Nat) (numDataStreams : Int) (dataBlock : DataBlock) (i : Int) :
    ∀ j : Nat,
      decodeFrom codec usbBuffer numDataStreams
          (codec.fillFromUsbBuffer dataBlock usbBuffer i numDataStreams) (i + 1) j
        = decodeFrom codec usbBuffer numDataStreams dataBlock i (j + 1) := by
  intro j
  induction j with
  | zero =>
    show codec.fillFromUsbBuffer _ usbBuffer (i + 1) numDataStreams
      = codec.fillFromUsbBuffer _ usbBuffer (i + ((0 + 1 : Nat) : Int)) numDataStreams
    rfl
  | succ n ih =>
    show codec.fillFromUsbBuffer _ usbBuffer (i + 1 + ((n + 1 : Nat) : Int)) numDataStreams
      = codec.fillFromUsbBuffer _ usbBuffer (i + ((n + 1 + 1 : Nat) : Int)) numDataStreams
    rw [ih]
    have hidx : i + 1 + ((n + 1 : Nat) : Int) = i + ((n + 1 + 1 : Nat) : Int) := by
      push_cast; ring
    rw [hidx]

/-- The decode loop appends the records of its iterations in order. -/
theorem readDataBlocksLoop_eq {DataBlock : Type} (codec : DataBlockCodec DataBlock)
    (usbBuffer : List Nat) (numDataStreams : Int) :
    ∀ (k : Nat) (i : Int) (dataBlock : DataBlock) (dataQueue : List DataBlock),
      readDataBlocksLoop codec usbBuffer numDataStreams k i dataBlock dataQueue
        = dataQueue ++ (List.range k).map (decodeFrom codec usbBuffer numDataStreams dataBlock i) := by
  intro k
  induction k with
  | zero => intro i dataBlock dataQueue; simp [readDataBlocksLoop]
  | succ n ih =>
    intro i dataBlock dataQueue
    unfold readDataBlocksLoop
    dsimp only
    rw [ih, List.range_succ_eq_map, List.map_cons, List.map_map, List.append_assoc]
    congr 1
    show _ :: _ = _ :: _
    congr 1
    apply List.map_congr_left
    intro j _
    exact decodeFrom_shift codec usbBuffer numDataStreams dataBlock i j

/-- When the word count of `numBlocks` blocks fits in 32 bits, the
`unsigned int` product computed by `readDataBlocks` is that count. -/
theorem numWordsToRead_eq (numBlocks : Int) (W : Nat) (hn0 : 0 ≤ numBlocks)
    (hn1 : numBlocks < 2147483648) (hfit : numBlocks.toNat * W < 4294967296) :
    (toUINT32 numBlocks * (W % 4294967296)) % 4294967296 = numBlocks.toNat * W := by
  rw [toUINT32_of_nonneg numBlocks hn0 hn1]
  by_cases hz : numBlocks.toNat = 0
  · rw [hz]; simp
  · have hW : W < 4294967296 := by
      have hpos : 1 ≤ numBlocks.toNat := by omega
      calc W = 1 * W := (Nat.one_mul _).symm
        _ ≤ numBlocks.toNat * W := Nat.mul_le_mul_right _ hpos
        _ < 4294967296 := hfit
    rw [Nat.mod_eq_of_lt hW, Nat.mod_eq_of_lt hfit]

/-- C11: for `numBlocks >= 0`, `W` the block size in words for the current
stream count, a FIFO that reports at least `numBlocks * W` words and
`2 * numBlocks * W <= USB_BUFFER_SIZE` (a buffer size below `2^32`),
`readDataBlocks` returns true; its transport calls are the snapshot of
`numWordsInFifo` and exactly one bulk transfer, of exactly `2 * numBlocks * W`
bytes, which fills the head of `usbBuffer`; the queue afterwards is the old
queue followed by exactly `numBlocks` records, record `j` being the decode of
block index `j` of that buffer into the reused block, in that order; for a
codec whose decode does not read the block it fills, record `j` is the decode
of block index `j` into a fresh block. -/
theorem C11_readDataBlocks_success {DataBlock : Type} (USB_BUFFER_SIZE : Nat)
    (codec : DataBlockCodec DataBlock) (hw : Hardware) (numBlocks : Int)
    (dataQueue : List DataBlock) (b : Rhd2000EvalBoard)
    (hn0 : 0 ≤ numBlocks) (hn1 : numBlocks < 2147483648)
    (hUSB : USB_BUFFER_SIZE < 4294967296)
    (hfifo : numBlocks.toNat * codec.calculateDataBlockSizeInWords b.numDataStreams
      ≤ (numWordsInFifo hw b).1)
    (hbuf : 2 * (numBlocks.toNat * codec.calculateDataBlockSizeInWords b.numDataStreams)
      ≤ USB_BUFFER_SIZE) :
    (readDataBlocks USB_BUFFER_SIZE codec hw numBlocks dataQueue b).1 = true ∧
    (readDataBlocks USB_BUFFER_SIZE codec hw numBlocks dataQueue b).2.2.dev.log
      = b.dev.log ++ [TransportOp.UpdateWireOuts,
          TransportOp.ReadFromPipeOut OkEndPoint.PipeOutData
            (2 * (numBlocks.toNat * codec.calculateDataBlockSizeInWords b.numDataStreams))] ∧
    (readDataBlocks USB_BUFFER_SIZE codec hw numBlocks dataQueue b).2.2.usbBuffer
      = (List.range
            (2 * (numBlocks.toNat * codec.calculateDataBlockSizeInWords b.numDataStreams))).map
          (hw.pipeOut (readDataBlocks USB_BUFFER_SIZE codec hw numBlocks dataQueue b).2.2.dev.log)
        ++ b.usbBuffer.drop
            (2 * (numBlocks.toNat * codec.calculateDataBlockSizeInWords b.numDataStreams)) ∧
    (readDataBlocks USB_BUFFER_SIZE codec hw numBlocks dataQueue b).2.1
      = dataQueue ++ (List.range numBlocks.toNat).map
          (decodeFrom codec
            (readDataBlocks USB_BUFFER_SIZE codec hw numBlocks dataQueue b).2.2.usbBuffer
            b.numDataStreams (codec.create b.numDataStreams) 0) ∧
    (readDataBlocks USB_BUFFER_SIZE codec hw numBlocks dataQueue b).2.1.length
      = dataQueue.length + numBlocks.toNat ∧
    ((∀ (x y : DataBlock) (buf : List Nat) (i k : Int),
        codec.fillFromUsbBuffer x buf i k = codec.fillFromUsbBuffer y buf i k) →
      ∀ (buf : List Nat) (j : Nat),
        decodeFrom codec buf b.numDataStreams (codec.create b.numDataStreams) 0 j
          = codec.fillFromUsbBuffer (codec.create b.numDataStreams) buf j b.numDataStreams) := by
  have hlt := numWordsInFifo_lt hw b
  have hfit : numBlocks.toNat * codec.calculateDataBlockSizeInWords b.numDataStreams
      < 4294967296 := by omega
  have hwords := numWordsToRead_eq numBlocks
    (codec.calculateDataBlockSizeInWords b.numDataStreams) hn0 hn1 hfit
  have hbytes : 2 * (numBlocks.toNat * codec.calculateDataBlockSizeInWords b.numDataStreams)
      % 4294967296
      = 2 * (numBlocks.toNat * codec.calculateDataBlockSizeInWords b.numDataStreams) :=
    Nat.mod_eq_of_lt (by omega)
  have hnot : ¬ (numWordsInFifo hw b).1
      < numBlocks.toNat * codec.calculateDataBlockSizeInWords b.numDataStreams := by omega
  have hnot2 : ¬ 2 * (numBlocks.toNat * codec.calculateDataBlockSizeInWords b.numDataStreams)
      > USB_BUFFER_SIZE := by omega
  have hres : readDataBlocks USB_BUFFER_SIZE codec hw numBlocks dataQueue b
      = (true,
          readDataBlocksLoop codec
            (ReadFromPipeOut hw OkEndPoint.PipeOutData
              (2 * (numBlocks.toNat * codec.calculateDataBlockSizeInWords b.numDataStreams))
              (numWordsInFifo hw b).2).usbBuffer
            b.numDataStreams numBlocks.toNat 0 (codec.create b.numDataStreams) dataQueue,
          ReadFromPipeOut hw OkEndPoint.PipeOutData
            (2 * (numBlocks.toNat * codec.calculateDataBlockSizeInWords b.numDataStreams))
            (numWordsInFifo hw b).2) := by
    unfold readDataBlocks
    dsimp only
    rw [hwords, hbytes, if_neg hnot, if_neg hnot2]
    rfl
  rw [hres]
  refine ⟨rfl, ?_, rfl, ?_, ?_, ?_⟩
  · simp [ReadFromPipeOut, numWordsInFifo, okCFrontPanel.UpdateWireOuts]
  · exact readDataBlocksLoop_eq codec _ _ _ _ _ _
  · exact readDataBlocksLoop_length codec _ _ _ _ _ _
  · intro hind buf j
    cases j with
    | zero => rfl
    | succ n =>
      show codec.fillFromUsbBuffer _ buf ((0 : Int) + ((n + 1 : Nat) : Int)) b.numDataStreams = _
      rw [Int.zero_add]
      exact hind _ _ _ _ _

/-- C11, instance: two streams enabled (5280 words per block with the sample
codec), a FIFO reporting 20000 words and a buffer of 2400000 bytes: a 3-block
read returns true, requests 2*3*5280 = 31680 bytes in one bulk transfer and
appends 3 records to the empty queue. -/
theorem C11_readDataBlocks_success_witness :
    sampleCodec.calculateDataBlockSizeInWords boardStreams01Enabled.numDataStreams = 5280 ∧
    (readDataBlocks 2400000 sampleCodec fifo20000Hardware 3 [] boardStreams01Enabled).1 = true ∧
    (readDataBlocks 2400000 sampleCodec fifo20000Hardware 3 [] boardStreams01Enabled).2.2.dev.log
      = boardStreams01Enabled.dev.log ++ [TransportOp.UpdateWireOuts,
          TransportOp.ReadFromPipeOut OkEndPoint.PipeOutData 31680] ∧
    (readDataBlocks 2400000 sampleCodec fifo20000Hardware 3 [] boardStreams01Enabled).2.1.length
      = 3 :=
  ⟨by decide,
   (C11_readDataBlocks_success 2400000 sampleCodec fifo20000Hardware 3 [] boardStreams01Enabled
      (by decide) (by decide) (by decide) (by decide) (by decide)).1,
   (C11_readDataBlocks_success 2400000 sampleCodec fifo20000Hardware 3 [] boardStreams01Enabled
      (by decide) (by decide) (by decide) (by decide) (by decide)).2.1,
   (C11_readDataBlocks_success 2400000 sampleCodec fifo20000Hardware 3 [] boardStreams01Enabled
      (by decide) (by decide) (by decide) (by decide) (by decide)).2.2.2.2.1⟩

/-- The write loop of `queueToFile` from any count and stream content: it
adds the queue length to the count, empties the queue and appends the
serialized records in queue order. -/
theorem queueToFileLoop_eq {DataBlock : Type} (codec : DataBlockCodec DataBlock)
    (numDataStreams : Int) :
    ∀ (dataQueue : List DataBlock) (saveOut : List Nat) (count : Int),
      queueToFileLoop codec numDataStreams dataQueue saveOut count
        = (count + (dataQueue.length : Int), [],
            saveOut ++ (dataQueue.map (fun blk => codec.write blk numDataStreams)).flatten) := by
  intro dataQueue
  induction dataQueue with
  | nil => intro saveOut count; simp [queueToFileLoop]
  | cons front rest ih =>
    intro saveOut count
    unfold queueToFileLoop
    rw [ih]
    simp only [List.length_cons, List.map_cons, List.flatten_cons, List.append_assoc,
      Nat.cast_add, Nat.cast_one]
    congr 1
    ring

/-- C12: for a queue of `m` records, `queueToFile` returns `m`, leaves the
queue empty, and the stream afterwards is the stream before followed by the
serializations of the `m` records in head-to-tail order, each made with the
currently enabled stream count. -/
theorem C12_queueToFile_writes_all {DataBlock : Type} (codec : DataBlockCodec DataBlock)
    (dataQueue : List DataBlock) (saveOut : List Nat) (b : Rhd2000EvalBoard) :
    (queueToFile codec dataQueue saveOut b).1 = (dataQueue.length : Int) ∧
    (queueToFile codec dataQueue saveOut b).2.1 = [] ∧
    (queueToFile codec dataQueue saveOut b).2.2
      = saveOut ++ (dataQueue.map
          (fun blk => codec.write blk (getNumEnabledDataStreams b))).flatten := by
  unfold queueToFile
  rw [queueToFileLoop_eq]
  exact ⟨by simp, rfl, rfl⟩

/-- C13: with `W` the block size in words for the current enabled-stream
count and `numBytes = 2 * W` (a byte count that fits an `unsigned int`),
`readDataBlock` returns false when `numBytes > USB_BUFFER_SIZE`, leaving the
block and the board (the log of transport calls included, so no bulk
transfer) as they were; otherwise it returns true after exactly one bulk
transfer, of exactly `numBytes` bytes into the head of `usbBuffer`, and the
block is the decode of block index 0 of that buffer. -/
theorem C13_readDataBlock {DataBlock : Type} (USB_BUFFER_SIZE : Nat)
    (codec : DataBlockCodec DataBlock) (hw : Hardware) (dataBlock : DataBlock)
    (b : Rhd2000EvalBoard)
    (hW : 2 * codec.calculateDataBlockSizeInWords b.numDataStreams < 4294967296) :
    (2 * codec.calculateDataBlockSizeInWords b.numDataStreams > USB_BUFFER_SIZE →
      readDataBlock USB_BUFFER_SIZE codec hw dataBlock b = (false, dataBlock, b)) ∧
    (2 * codec.calculateDataBlockSizeInWords b.numDataStreams ≤ USB_BUFFER_SIZE →
      (readDataBlock USB_BUFFER_SIZE codec hw dataBlock b).1 = true ∧
      (readDataBlock USB_BUFFER_SIZE codec hw dataBlock b).2.2.dev.log
        = b.dev.log ++ [TransportOp.ReadFromPipeOut OkEndPoint.PipeOutData
            (2 * codec.calculateDataBlockSizeInWords b.numDataStreams)] ∧
      (readDataBlock USB_BUFFER_SIZE codec hw dataBlock b).2.2.usbBuffer
        = (List.range (2 * codec.calculateDataBlockSizeInWords b.numDataStreams)).map
            (hw.pipeOut (readDataBlock USB_BUFFER_SIZE codec hw dataBlock b).2.2.dev.log)
          ++ b.usbBuffer.drop (2 * codec.calculateDataBlockSizeInWords b.numDataStreams) ∧
      (readDataBlock USB_BUFFER_SIZE codec hw dataBlock b).2.1
        = codec.fillFromUsbBuffer dataBlock
            (readDataBlock USB_BUFFER_SIZE codec hw dataBlock b).2.2.usbBuffer 0
            b.numDataStreams) := by
  have hW1 : codec.calculateDataBlockSizeInWords b.numDataStreams % 4294967296
      = codec.calculateDataBlockSizeInWords b.numDataStreams := Nat.mod_eq_of_lt (by omega)
  have hW2 : 2 * codec.calculateDataBlockSizeInWords b.numDataStreams % 4294967296
      = 2 * codec.calculateDataBlockSizeInWords b.numDataStreams := Nat.mod_eq_of_lt hW
  refine ⟨fun h => ?_, fun h => ?_⟩
  · unfold readDataBlock
    dsimp only
    rw [hW1, hW2, if_pos h]
  · have hnot : ¬ 2 * codec.calculateDataBlockSizeInWords b.numDataStreams > USB_BUFFER_SIZE := by
      omega
    have hres : readDataBlock USB_BUFFER_SIZE codec hw dataBlock b
        = (true,
            codec.fillFromUsbBuffer dataBlock
              (ReadFromPipeOut hw OkEndPoint.PipeOutData
                (2 * codec.calculateDataBlockSizeInWords b.numDataStreams) b).usbBuffer 0
              b.numDataStreams,
            ReadFromPipeOut hw OkEndPoint.PipeOutData
              (2 * codec.calculateDataBlockSizeInWords b.numDataStreams) b) := by
      unfold readDataBlock
      dsimp only
      rw [hW1, hW2, if_neg hnot]
      rfl
    rw [hres]
    exact ⟨rfl, rfl, rfl, rfl⟩

/-- C13, instances: with one stream enabled (3120 words, 6240 bytes per block)
a buffer of 6000 bytes is too small and the call returns false without any
transport call; with a buffer of 2400000 bytes the call returns true after one
bulk transfer of 6240 bytes. -/
theorem C13_readDataBlock_witness :
    readDataBlock 6000 sampleCodec fifo20000Hardware [] boardStream0Enabled
      = (false, [], boardStream0Enabled) ∧
    (readDataBlock 2400000 sampleCodec fifo20000Hardware [] boardStream0Enabled).1 = true ∧
    (readDataBlock 2400000 sampleCodec fifo20000Hardware [] boardStream0Enabled).2.2.dev.log
      = boardStream0Enabled.dev.log
          ++ [TransportOp.ReadFromPipeOut OkEndPoint.PipeOutData 6240] :=
  ⟨(C13_readDataBlock 6000 sampleCodec fifo20000Hardware [] boardStream0Enabled
      (by decide)).1 (by decide),
   ((C13_readDataBlock 2400000 sampleCodec fifo20000Hardware [] boardStream0Enabled
      (by decide)).2 (by decide)).1,
   ((C13_readDataBlock 2400000 sampleCodec fifo20000Hardware [] boardStream0Enabled
      (by decide)).2 (by decide)).2.1⟩

/-- C14, the code at a failing input: one stream enabled (a block is 3120
words), the FIFO reporting no word at all, a buffer of 2400000 bytes.  No
data block is available, yet `readDataBlock` returns true and makes a bulk
transfer of 6240 bytes; it takes no snapshot of the FIFO count (its only
transport call is the transfer). -/
theorem C14_readDataBlock_empty_fifo_input :
    (numWordsInFifo emptyFifoHardware boardStream0Enabled).1 = 0 ∧
    sampleCodec.calculateDataBlockSizeInWords boardStream0Enabled.numDataStreams = 3120 ∧
    (readDataBlock 2400000 sampleCodec emptyFifoHardware [] boardStream0Enabled).1 = true ∧
    (readDataBlock 2400000 sampleCodec emptyFifoHardware [] boardStream0Enabled).2.2.dev.log
      = boardStream0Enabled.dev.log
          ++ [TransportOp.ReadFromPipeOut OkEndPoint.PipeOutData 6240] := by
  decide

/-- The clamp `if (delay < 1) delay = 1` is the maximum with 1. -/
theorem clamp_one_eq_max (d : Int) : (if d < 1 then 1 else d) = max 1 d := by
  by_cases h : d < 1
  · rw [if_pos h, max_eq_left (by omega)]
  · rw [if_neg h, max_eq_right (by omega)]

/-- The clamp `if (distance < 0.0) distance = 0.0` is the maximum with 0. -/
theorem clamp_zero_eq_max (x : ℚ) : (if x < (0.0 : ℚ) then (0.0 : ℚ) else x) = max 0 x := by
  have h0 : (0.0 : ℚ) = 0 := by norm_num
  rw [h0]
  by_cases h : x < 0
  · rw [if_pos h, max_eq_left (le_of_lt h)]
  · rw [if_neg h, max_eq_right (not_lt.mp h)]

/-- The length estimated by `estimateCableLengthMeters` in closed form. -/
theorem estimateCableLengthMeters_eq (b : Rhd2000EvalBoard) (delay : Int) :
    estimateCableLengthMeters b delay
      = max 0 (0.67 * 299792458 * ((delay : ℚ) / (2800 * getSampleRate b) - 12.3e-9)) / 2 := by
  unfold estimateCableLengthMeters
  dsimp only
  rw [clamp_zero_eq_max]
  have h : (0.67 : ℚ) * 299792458.0
        * ((delay : ℚ) * (1.0 / (2800.0 * getSampleRate b)) - (1.9e-9 + 9.0e-9 + 1.4e-9))
      = 0.67 * 299792458 * ((delay : ℚ) / (2800 * getSampleRate b) - 12.3e-9) := by
    have h1 : (1.0 : ℚ) = 1 := by norm_num
    have h2 : (2800.0 : ℚ) = 2800 := by norm_num
    have h3 : (299792458.0 : ℚ) = 299792458 := by norm_num
    have h4 : (1.9e-9 + 9.0e-9 + 1.4e-9 : ℚ) = 12.3e-9 := by norm_num
    rw [h1, h2, h3, h4, mul_one_div]
  rw [h]
  norm_num

/-- The sample rate of an enumerated rate is positive. -/
theorem getSampleRate_pos (b : Rhd2000EvalBoard)
    (hr : ∀ raw : Int, b.sampleRate ≠ AmplifierSampleRate.invalid raw) : 0 < getSampleRate b := by
  unfold getSampleRate
  cases h : b.sampleRate with
  | invalid raw => exact absurd h (hr raw)
  | _ => norm_num

/-- The `double` values of the constants of `setCableLengthMeters`: `2.0`,
`cableVelocity = 0.67 * speedOfLight` and the four delays. -/
theorem cableConstants_values :
    Double.round 2 = some 2 ∧
    Double.mul (Double.round (67 / 100)) (Double.round 299792458) = some (1684943745717371 / 8388608) ∧
    Double.round (19 / 10 ^ 10) = some (4593918114535591 / 2417851639229258349412352) ∧
    Double.round (9 / 10 ^ 9) = some (5440166188265831 / 604462909807314587353088) ∧
    Double.round (14 / 10 ^ 10) = some (6769984589841923 / 4835703278458516698824704) ∧
    Double.round (10 / 10 ^ 9) = some (3022314549036573 / 302231454903657293676544) := by
  decide!

/-- The `double` value of `timeDelay` for a length of magnitude at most
`10 ^ 9`: finite, and within `16 * 2 ^ (-53)` (relative to a cable of length
`|L|`) of the exact time delay. -/
theorem cableTimeDelay_spec (L : ℚ) (hL : |L| ≤ 10 ^ 9) :
    ∃ t : ℚ,
      Double.add (Double.add (Double.add (Double.add
        (Double.div (Double.mul (Double.round 2) (some L))
          (Double.mul (Double.round (67 / 100)) (Double.round 299792458)))
        (Double.round (19 / 10 ^ 10))) (Double.round (9 / 10 ^ 9)))
        (Double.round (14 / 10 ^ 10))) (Double.round (10 / 10 ^ 9)) = some t ∧
      |t - (2 * L / (67 / 100 * 299792458) + 19 / 10 ^ 10 + 9 / 10 ^ 9 + 14 / 10 ^ 10
          + 10 / 10 ^ 9)|
        ≤ 16 / 2 ^ 53 * (2 * |L| / (67 / 100 * 299792458) + 223 / 10 ^ 10) := by
  obtain ⟨h2, hcv, ho1, ho2, ho3, ho4⟩ := cableConstants_values
  rw [h2, hcv, ho1, ho2, ho3, ho4]
  have hA0 : 0 ≤ |L| := abs_nonneg L
  have hA1 : L ≤ |L| := le_abs_self L
  have hA2 : -|L| ≤ L := neg_abs_le L
  generalize |L| = A at hL hA0 hA1 hA2 ⊢
  obtain ⟨Mx, hMx⟩ : ∃ Mx : ℚ, Mx = 2 * A / (67 / 100 * 299792458) + 223 / 10 ^ 10 := ⟨_, rfl⟩
  rw [← hMx]
  replace hMx : Mx = A * (100 / 10043047343) + 223 / 10000000000 := by rw [hMx]; ring
  replace hL : A ≤ 1000000000 := by linarith
  -- distance = 2.0 * lengthInMeters
  obtain ⟨dist, hdist, hd1, hd2⟩ := Double.round_within (2 * L) (2 * A)
    (by linarith) (by linarith) (by linarith)
  rw [Double.mul_some, hdist, Double.div_some _ _ (by norm_num)]
  -- distance / cableVelocity
  obtain ⟨t1, ht1, h11, h12⟩ := Double.round_within (dist / (1684943745717371 / 8388608))
    (Mx * (1 + 1 / 2 ^ 40)) (by linarith) (by linarith) (by linarith)
  rw [ht1, Double.add_some]
  obtain ⟨t2, ht2, h21, h22⟩ := Double.round_within (t1 + 4593918114535591 / 2417851639229258349412352)
    (Mx * (1 + 1 / 2 ^ 40)) (by linarith) (by linarith) (by linarith)
  rw [ht2, Double.add_some]
  obtain ⟨t3, ht3, h31, h32⟩ := Double.round_within (t2 + 5440166188265831 / 604462909807314587353088)
    (Mx * (1 + 1 / 2 ^ 40)) (by linarith) (by linarith) (by linarith)
  rw [ht3, Double.add_some]
  obtain ⟨t4, ht4, h41, h42⟩ := Double.round_within (t3 + 6769984589841923 / 4835703278458516698824704)
    (Mx * (1 + 1 / 2 ^ 40)) (by linarith) (by linarith) (by linarith)
  rw [ht4, Double.add_some]
  obtain ⟨t5, ht5, h51, h52⟩ := Double.round_within (t4 + 3022314549036573 / 302231454903657293676544)
    (Mx * (1 + 1 / 2 ^ 40)) (by linarith) (by linarith) (by linarith)
  rw [ht5]
  refine ⟨t5, rfl, ?_⟩
  have hT : 2 * L / (67 / 100 * 299792458) + 19 / 10 ^ 10 + 9 / 10 ^ 9 + 14 / 10 ^ 10
      + 10 / 10 ^ 9 = L * (100 / 10043047343) + 223 / 10000000000 := by ring
  rw [hT, abs_le]
  constructor <;> linarith

/-- The step time `1.0 / (2800.0 * getSampleRate())` at each of the 17 sample
rates: a positive `double` whose inverse is within `2 ^ (-53)` of `2800 * r`. -/
theorem cableTStep_check :
    ∀ r ∈ ([1000, 1250, 1500, 2000, 2500, 3000, 10000 / 3, 4000, 5000, 6250, 8000, 10000,
      12500, 15000, 20000, 25000, 30000] : List ℚ),
    (match Double.div (Double.round 1) (Double.mul (Double.round 2800) (Double.round r)) with
      | some ts => decide (0 < ts ∧ |1 / ts - 2800 * r| ≤ 2800 * r / 2 ^ 53 ∧ 1000 ≤ r ∧ r ≤ 30000)
      | none => false) = true := by
  decide!

/-- The step time at a sample rate of the table, as a value. -/
theorem cableTStep_spec (r : ℚ)
    (hr : r ∈ ([1000, 1250, 1500, 2000, 2500, 3000, 10000 / 3, 4000, 5000, 6250, 8000, 10000,
      12500, 15000, 20000, 25000, 30000] : List ℚ)) :
    ∃ ts : ℚ, Double.div (Double.round 1) (Double.mul (Double.round 2800) (Double.round r))
        = some ts ∧
      0 < ts ∧ |1 / ts - 2800 * r| ≤ 2800 * r / 2 ^ 53 ∧ 1000 ≤ r ∧ r ≤ 30000 := by
  have h := cableTStep_check r hr
  cases hts : Double.div (Double.round 1) (Double.mul (Double.round 2800) (Double.round r)) with
  | none => rw [hts] at h; cases h
  | some ts =>
    rw [hts] at h
    exact ⟨ts, rfl, of_decide_eq_true h⟩

/-- The `double` value of `timeDelay / tStep` at a sample rate of the table
and a length of magnitude at most `10 ^ 9`: finite, of magnitude at most
`10 ^ 9`, and within `2 ^ (-48)` (relative to a cable of length `|L|`) of the
exact quotient. -/
theorem cableQuotient_spec (r L : ℚ)
    (hr : r ∈ ([1000, 1250, 1500, 2000, 2500, 3000, 10000 / 3, 4000, 5000, 6250, 8000, 10000,
      12500, 15000, 20000, 25000, 30000] : List ℚ))
    (hL : |L| ≤ 10 ^ 9) :
    ∃ q : ℚ,
      Double.div (Double.add (Double.add (Double.add (Double.add
        (Double.div (Double.mul (Double.round 2) (some L))
          (Double.mul (Double.round (67 / 100)) (Double.round 299792458)))
        (Double.round (19 / 10 ^ 10))) (Double.round (9 / 10 ^ 9)))
        (Double.round (14 / 10 ^ 10))) (Double.round (10 / 10 ^ 9)))
        (Double.div (Double.round 1) (Double.mul (Double.round 2800) (Double.round r)))
        = some q ∧
      |q - (2 * L / (67 / 100 * 299792458) + 19 / 10 ^ 10 + 9 / 10 ^ 9 + 14 / 10 ^ 10
          + 10 / 10 ^ 9) * 2800 * r|
        ≤ 1 / 2 ^ 48 * ((2 * |L| / (67 / 100 * 299792458) + 223 / 10 ^ 10) * 2800 * r) ∧
      |q| ≤ 10 ^ 9 := by
  obtain ⟨t, ht, hterr⟩ := cableTimeDelay_spec L hL
  obtain ⟨ts, hts, htspos, hwerr, hr1, hr2⟩ := cableTStep_spec r hr
  rw [ht, hts, Double.div_some _ _ htspos.ne']
  have hA0 : 0 ≤ |L| := abs_nonneg L
  have hA1 : L ≤ |L| := le_abs_self L
  have hA2 : -|L| ≤ L := neg_abs_le L
  generalize |L| = A at hL hA0 hA1 hA2 hterr ⊢
  obtain ⟨T, hT⟩ : ∃ T : ℚ, T = 2 * L / (67 / 100 * 299792458) + 19 / 10 ^ 10 + 9 / 10 ^ 9
      + 14 / 10 ^ 10 + 10 / 10 ^ 9 := ⟨_, rfl⟩
  obtain ⟨Mx, hMx⟩ : ∃ Mx : ℚ, Mx = 2 * A / (67 / 100 * 299792458) + 223 / 10 ^ 10 := ⟨_, rfl⟩
  obtain ⟨W, hW⟩ : ∃ W : ℚ, W = 2800 * r := ⟨_, rfl⟩
  obtain ⟨w, hw⟩ : ∃ w : ℚ, w = 1 / ts := ⟨_, rfl⟩
  have hTW : (2 * L / (67 / 100 * 299792458) + 19 / 10 ^ 10 + 9 / 10 ^ 9 + 14 / 10 ^ 10
      + 10 / 10 ^ 9) * 2800 * r = T * W := by rw [hT, hW]; ring
  have hMW : (2 * A / (67 / 100 * 299792458) + 223 / 10 ^ 10) * 2800 * r = Mx * W := by
    rw [hMx, hW]; ring
  have hxw : t / ts = t * w := by rw [hw]; ring
  rw [hTW, hMW, hxw]
  rw [← hT, ← hMx] at hterr
  rw [← hW, ← hw] at hwerr
  replace hT : T = L * (100 / 10043047343) + 223 / 10000000000 := by rw [hT]; ring
  replace hMx : Mx = A * (100 / 10043047343) + 223 / 10000000000 := by rw [hMx]; ring
  replace hL : A ≤ 1000000000 := by linarith
  have hW1 : 2800000 ≤ W := by rw [hW]; linarith
  have hW2 : W ≤ 84000000 := by rw [hW]; linarith
  have hwpos : 0 < w := by rw [hw]; positivity
  have hMx0 : 223 / 10000000000 ≤ Mx := by rw [hMx]; nlinarith
  have hMx1 : Mx ≤ 10 := by rw [hMx]; linarith
  have hTabs : |T| ≤ Mx := by
    rw [abs_le, hT, hMx]; constructor <;> linarith
  have hw' := abs_le.mp hwerr
  have hw1 : w ≤ W * (1 + 1 / 2 ^ 53) := by linarith [hw'.2]
  -- the two products
  have hZ0 : 223 / 10000000000 * 2800000 ≤ Mx * W :=
    mul_le_mul hMx0 hW1 (by norm_num) (by linarith)
  have hZ1 : Mx * W ≤ 10 * 84000000 :=
    mul_le_mul hMx1 hW2 (by linarith) (by norm_num)
  have hp1 : |(t - T) * w| ≤ 16 / 2 ^ 53 * Mx * (W * (1 + 1 / 2 ^ 53)) := by
    rw [abs_mul, abs_of_pos hwpos]
    exact mul_le_mul hterr hw1 hwpos.le (by nlinarith)
  have hp2 : |T * (w - W)| ≤ Mx * (W / 2 ^ 53) := by
    rw [abs_mul]
    exact mul_le_mul hTabs hwerr (abs_nonneg _) (by linarith)
  have hp3 : |T * W| ≤ Mx * W := by
    rw [abs_mul, abs_of_pos (by linarith : (0 : ℚ) < W)]
    exact mul_le_mul_of_nonneg_right hTabs (by linarith)
  have hq1 := abs_le.mp hp1
  have hq2 := abs_le.mp hp2
  have hq3 := abs_le.mp hp3
  have e1 : t * w - T * W = (t - T) * w + T * (w - W) := by ring
  obtain ⟨Z, hZ⟩ : ∃ Z : ℚ, Z = Mx * W := ⟨_, rfl⟩
  have e2 : 16 / 2 ^ 53 * Mx * (W * (1 + 1 / 2 ^ 53)) = 16 / 2 ^ 53 * (1 + 1 / 2 ^ 53) * Z := by
    rw [hZ]; ring
  have e3 : Mx * (W / 2 ^ 53) = Z / 2 ^ 53 := by rw [hZ]; ring
  rw [e2] at hq1
  rw [e3] at hq2
  rw [← hZ] at hq3 hZ0 hZ1 ⊢
  obtain ⟨q, hq, hqa, hqb⟩ := Double.round_within (t * w) (Z * (1 + 1 / 2 ^ 40))
    (by linarith [hq1.1, hq2.1, hq3.1]) (by linarith [hq1.2, hq2.2, hq3.2]) (by linarith)
  refine ⟨q, hq, ?_, ?_⟩
  · rw [abs_le]
    constructor
    · linarith [hq1.1, hq2.1, hq3.1]
    · linarith [hq1.2, hq2.2, hq3.2]
  · rw [abs_le]
    constructor
    · linarith [hq1.1, hq2.1, hq3.1]
    · linarith [hq1.2, hq2.2, hq3.2]

/-- The sample rate of an enumerated rate is one of the 17 of the table. -/
theorem getSampleRate_mem (b : Rhd2000EvalBoard)
    (hr : ∀ raw : Int, b.sampleRate ≠ AmplifierSampleRate.invalid raw) :
    getSampleRate b ∈ ([1000, 1250, 1500, 2000, 2500, 3000, 10000 / 3, 4000, 5000, 6250, 8000,
      10000, 12500, 15000, 20000, 25000, 30000] : List ℚ) := by
  unfold getSampleRate
  cases h : b.sampleRate with
  | invalid raw => exact absurd h (hr raw)
  | _ => simp

/-- The quotient and the delay of `setCableLengthMeters` depend on the board
through the sample rate only. -/
theorem setCableLengthMetersDelay_congr (b b1 : Rhd2000EvalBoard) (L : Double)
    (h : getSampleRate b = getSampleRate b1) :
    setCableLengthMetersQuotient b L = setCableLengthMetersQuotient b1 L ∧
    setCableLengthMetersDelay b L = setCableLengthMetersDelay b1 L := by
  have hq : setCableLengthMetersQuotient b L = setCableLengthMetersQuotient b1 L := by
    unfold setCableLengthMetersQuotient
    rw [h]
  refine ⟨hq, ?_⟩
  unfold setCableLengthMetersDelay
  rw [hq]

/-- The step count and the tolerance of the specification with their decimal
constants written as fractions. -/
theorem specCable_eq (b : Rhd2000EvalBoard) (L : ℚ) :
    specCableSteps b L
      = (2 * L / (67 / 100 * 299792458) + 19 / 10 ^ 10 + 9 / 10 ^ 9 + 14 / 10 ^ 10
          + 10 / 10 ^ 9) * 2800 * getSampleRate b ∧
    specCableTolerance b L
      = 1 / 2 ^ 48 * ((2 * |L| / (67 / 100 * 299792458) + 223 / 10 ^ 10) * 2800
          * getSampleRate b) := by
  unfold specCableSteps specCableTolerance
  constructor <;> ring

/-- The delay of `setCableLengthMeters` at an enumerated sample rate and a
length of magnitude at most `10 ^ 9`: the quotient is a finite `double` `q`
within the tolerance of the exact step count, the conversion is defined, and
the delay is `max(1, ceil(q))`. -/
theorem setCableLengthMetersDelay_spec (b : Rhd2000EvalBoard) (L : ℚ)
    (hr : ∀ raw : Int, b.sampleRate ≠ AmplifierSampleRate.invalid raw) (hL : |L| ≤ 10 ^ 9) :
    ∃ q : ℚ,
      setCableLengthMetersQuotient b (some L) = some q ∧
      |q - specCableSteps b L| ≤ specCableTolerance b L ∧
      setCableLengthMetersDelay b (some L) = some (max 1 ⌈q⌉) := by
  obtain ⟨q, hq, herr, hqabs⟩ := cableQuotient_spec (getSampleRate b) L (getSampleRate_mem b hr) hL
  have hquot : setCableLengthMetersQuotient b (some L) = some q := by
    unfold setCableLengthMetersQuotient
    exact hq
  refine ⟨q, hquot, ?_, ?_⟩
  · rw [(specCable_eq b L).1, (specCable_eq b L).2]
    exact herr
  · unfold setCableLengthMetersDelay
    have hq2 := abs_le.mp hqabs
    have h1 : (-2147483648 : Int) ≤ ⌈q⌉ := by
      have : ((-2147483648 : Int) : ℚ) ≤ q := by push_cast; linarith [hq2.1]
      exact Int.cast_le.mp (le_trans this (Int.le_ceil q))
    have h2 : ⌈q⌉ ≤ (2147483647 : Int) := by
      rw [Int.ceil_le]; push_cast; linarith [hq2.2]
    rw [hquot, Double.toInt_ceil q h1 h2]
    show some (if ⌈q⌉ < 1 then 1 else ⌈q⌉) = _
    rw [clamp_one_eq_max]

/-- A delay that `setCableLengthMeters` computes is at least 1. -/
theorem setCableLengthMetersDelay_pos (b : Rhd2000EvalBoard) (L : Double) (d : Int)
    (hd : setCableLengthMetersDelay b L = some d) : 1 ≤ d := by
  unfold setCableLengthMetersDelay at hd
  cases hx : Double.toInt (Double.ceil (setCableLengthMetersQuotient b L)) with
  | none => rw [hx] at hd; cases hd
  | some x =>
    rw [hx] at hd
    simp only [Option.map_some', Option.some.injEq] at hd
    rw [← hd, clamp_one_eq_max]
    exact le_max_left _ _

/-- The `double` nearest to `15.694413555011002`, and the exact step count
there at 30 kS/s: just above 15, so its ceiling is 16. -/
theorem specCableSteps_boundary :
    Double.round (15694413555011002 / 10 ^ 15) = some (8835169379768251 / 562949953421312) ∧
    max 1 ⌈specCableSteps (ctor idleDevice []) (8835169379768251 / 562949953421312)⌉ = 16 := by
  refine ⟨by decide!, ?_⟩
  have h : ⌈specCableSteps (ctor idleDevice []) (8835169379768251 / 562949953421312)⌉ = 16 := by
    rw [Int.ceil_eq_iff, (specCable_eq _ _).1]
    have hr : getSampleRate (ctor idleDevice []) = 30000 := rfl
    rw [hr]
    norm_num
  rw [h]
  rfl

/-- C15 as stated fails: at 30 kS/s (the constructor state) and the length
`15.694413555011002` (a `double`), the quotient computed in `double`
arithmetic is exactly 15 and the delay passed on is 15, while
`max(1, ceil(T * 2800 * r))` over exact arithmetic is 16. -/
theorem C15_counterexample :
    Double.round (15694413555011002 / 10 ^ 15) = some (8835169379768251 / 562949953421312) ∧
    setCableLengthMetersQuotient (ctor idleDevice []) (some (8835169379768251 / 562949953421312))
      = some 15 ∧
    setCableLengthMetersDelay (ctor idleDevice []) (some (8835169379768251 / 562949953421312))
      = some 15 ∧
    max 1 ⌈specCableSteps (ctor idleDevice []) (8835169379768251 / 562949953421312)⌉ = 16 :=
  ⟨specCableSteps_boundary.1, by decide!, by decide!, specCableSteps_boundary.2⟩

/-- C15 (amended): at an enumerated sample rate and for a length `L` of
magnitude at most `10 ^ 9` meters, `setCableLengthMeters(port, L)` computes the
quotient `timeDelay / tStep` in `double` arithmetic as a finite number `q`
that differs from `T * 2800 * r` (exact arithmetic,
`T = 2*L/(0.67 * 299792458) + 1.9e-9 + 9.0e-9 + 1.4e-9 + 10.0e-9`,
`r = getSampleRate()`) by at most the tolerance `2 ^ (-48)` of the step count
of a cable of length `|L|`; the delay it passes to `setCableDelay` is
`max(1, ceil(q))`.  So the delay is at least 1, lies between
`max(1, ceil(T*2800*r - tolerance))` and `max(1, ceil(T*2800*r + tolerance))`,
and is `max(1, ceil(T*2800*r))` whenever these two coincide.  At 30 kS/s the
delay is 3 for `L = 0.9144` and at least 1 for `L = 0`. -/
theorem C15_setCableLengthMeters_delay (port : BoardPort) (b : Rhd2000EvalBoard) (L : ℚ)
    (hr : ∀ raw : Int, b.sampleRate ≠ AmplifierSampleRate.invalid raw) (hL : |L| ≤ 10 ^ 9) :
    ∃ (q : ℚ) (d : Int),
      setCableLengthMetersQuotient b (some L) = some q ∧
      |q - specCableSteps b L| ≤ specCableTolerance b L ∧
      setCableLengthMetersDelay b (some L) = some d ∧
      d = max 1 ⌈q⌉ ∧
      setCableLengthMeters port (some L) b = some (setCableDelay port d b) ∧
      1 ≤ d ∧
      max 1 ⌈specCableSteps b L - specCableTolerance b L⌉ ≤ d ∧
      d ≤ max 1 ⌈specCableSteps b L + specCableTolerance b L⌉ ∧
      (⌈specCableSteps b L - specCableTolerance b L⌉
          = ⌈specCableSteps b L + specCableTolerance b L⌉ →
        d = max 1 ⌈specCableSteps b L⌉) ∧
      setCableLengthMetersDelay { b with sampleRate := AmplifierSampleRate.SampleRate30000Hz }
        (Double.round (9144 / 10000)) = some 3 ∧
      setCableLengthMetersDelay { b with sampleRate := AmplifierSampleRate.SampleRate30000Hz }
        (some 0) = some 2 := by
  obtain ⟨q, hq, herr, hd⟩ := setCableLengthMetersDelay_spec b L hr hL
  have he := abs_le.mp herr
  have htol : 0 ≤ specCableTolerance b L := le_trans (abs_nonneg _) herr
  have hlo : ⌈specCableSteps b L - specCableTolerance b L⌉ ≤ ⌈q⌉ :=
    Int.ceil_le_ceil (by linarith [he.1])
  have hhi : ⌈q⌉ ≤ ⌈specCableSteps b L + specCableTolerance b L⌉ :=
    Int.ceil_le_ceil (by linarith [he.2])
  have hmid1 : ⌈specCableSteps b L - specCableTolerance b L⌉ ≤ ⌈specCableSteps b L⌉ :=
    Int.ceil_le_ceil (by linarith)
  have hmid2 : ⌈specCableSteps b L⌉ ≤ ⌈specCableSteps b L + specCableTolerance b L⌉ :=
    Int.ceil_le_ceil (by linarith)
  refine ⟨q, max 1 ⌈q⌉, hq, herr, hd, rfl, ?_, le_max_left _ _, max_le_max le_rfl hlo,
    max_le_max le_rfl hhi, ?_, ?_, ?_⟩
  · unfold setCableLengthMeters
    rw [hd]
    rfl
  · intro heq
    have : ⌈q⌉ = ⌈specCableSteps b L⌉ := by omega
    rw [this]
  · rw [(setCableLengthMetersDelay_congr
      { b with sampleRate := AmplifierSampleRate.SampleRate30000Hz } (ctor idleDevice []) _ rfl).2]
    decide!
  · rw [(setCableLengthMetersDelay_congr
      { b with sampleRate := AmplifierSampleRate.SampleRate30000Hz } (ctor idleDevice []) _ rfl).2]
    decide!

/-- C15 (amended), instance: the constructor state (30 kS/s) and the `double`
nearest to `0.9144`. -/
theorem C15_setCableLengthMeters_delay_witness :
    |(8236182998535163 / 9007199254740992 : ℚ)| ≤ 10 ^ 9 ∧
    Double.round (9144 / 10000) = some (8236182998535163 / 9007199254740992) ∧
    setCableLengthMetersDelay (ctor idleDevice []) (some (8236182998535163 / 9007199254740992))
      = some 3 ∧
    ∃ (q : ℚ) (d : Int),
      setCableLengthMetersQuotient (ctor idleDevice [])
        (some (8236182998535163 / 9007199254740992)) = some q ∧
      |q - specCableSteps (ctor idleDevice []) (8236182998535163 / 9007199254740992)|
        ≤ specCableTolerance (ctor idleDevice []) (8236182998535163 / 9007199254740992) ∧
      setCableLengthMetersDelay (ctor idleDevice [])
        (some (8236182998535163 / 9007199254740992)) = some d ∧
      d = max 1 ⌈q⌉ ∧
      setCableLengthMeters BoardPort.PortA (some (8236182998535163 / 9007199254740992))
        (ctor idleDevice []) = some (setCableDelay BoardPort.PortA d (ctor idleDevice [])) ∧
      1 ≤ d := by
  refine ⟨by rw [abs_le]; constructor <;> norm_num, by decide!, by decide!, ?_⟩
  obtain ⟨q, d, h1, h2, h3, h4, h5, h6, _⟩ :=
    C15_setCableLengthMeters_delay BoardPort.PortA (ctor idleDevice [])
      (8236182998535163 / 9007199254740992) (fun _ h => AmplifierSampleRate.noConfusion h)
      (by rw [abs_le]; constructor <;> norm_num)
  exact ⟨q, d, h1, h2, h3, h4, h5, h6⟩

/-- The `double` values of the constants of `estimateCableLengthMeters`: `2.0`,
`cableVelocity` and the sum of the three delays. -/
theorem cableEstimate_constants :
    Double.round 2 = some 2 ∧
    Double.mul (Double.round (67 / 100)) (Double.round 299792458) = some (1684943745717371 / 8388608) ∧
    Double.add (Double.add (Double.round (19 / 10 ^ 10)) (Double.round (9 / 10 ^ 9)))
      (Double.round (14 / 10 ^ 10)) = some (7434893790629969 / 604462909807314587353088) := by
  decide!

set_option maxHeartbeats 1600000 in
/-- The `double` evaluation of the body of `estimateCableLengthMeters` at a
sample rate `r` of the table and a delay of magnitude at most `2 ^ 31`: a
finite number within `2 ^ (-49)` (relative to the length for `|delay|` with
the delays added instead of subtracted) of the exact value. -/
theorem cableEstimate_spec (r : ℚ)
    (hr : r ∈ ([1000, 1250, 1500, 2000, 2500, 3000, 10000 / 3, 4000, 5000, 6250, 8000, 10000,
      12500, 15000, 20000, 25000, 30000] : List ℚ))
    (d : ℤ) (hd : |(d : ℚ)| ≤ 2 ^ 31) :
    ∃ e : ℚ,
      Double.div ((Double.mul (Double.mul (Double.round (67 / 100)) (Double.round 299792458))
        (Double.sub (Double.mul (Double.round d)
          (Double.div (Double.round 1) (Double.mul (Double.round 2800) (Double.round r))))
          (Double.add (Double.add (Double.round (19 / 10 ^ 10)) (Double.round (9 / 10 ^ 9)))
            (Double.round (14 / 10 ^ 10))))).map (fun x => if x < 0 then 0 else x))
        (Double.round 2) = some e ∧
      |e - max 0 (67 / 100 * 299792458 * ((d : ℚ) / (2800 * r) - 123 / 10 ^ 10)) / 2|
        ≤ 67 / 100 * 299792458 * (|(d : ℚ)| / (2800 * r) + 123 / 10 ^ 10) / 2 / 2 ^ 49 := by
  obtain ⟨h2, hcv, hc3⟩ := cableEstimate_constants
  obtain ⟨ts, hts, htspos, hwerr, hr1, hr2⟩ := cableTStep_spec r hr
  rw [h2, hcv, hc3, hts]
  have hD0 : 0 ≤ |(d : ℚ)| := abs_nonneg _
  have hD1 : (d : ℚ) ≤ |(d : ℚ)| := le_abs_self _
  have hD2 : -|(d : ℚ)| ≤ (d : ℚ) := neg_abs_le _
  generalize (d : ℚ) = x at hd hD0 hD1 hD2 ⊢
  generalize |x| = D at hd hD0 hD1 hD2 ⊢
  have hW0 : (0 : ℚ) < 2800 * r := by linarith
  obtain ⟨v, hv⟩ : ∃ v : ℚ, v = 1 / (2800 * r) := ⟨_, rfl⟩
  have hvpos : 0 < v := by rw [hv]; positivity
  have hv1 : v ≤ 1 / 2800000 := by
    rw [hv]; exact one_div_le_one_div_of_le (by norm_num) (by linarith)
  have hxv : x / (2800 * r) = x * v := by rw [hv]; ring
  have hDv : D / (2800 * r) = D * v := by rw [hv]; ring
  rw [hxv, hDv]
  -- the step time against `v = 1 / (2800 * r)`
  have hw := abs_le.mp hwerr
  have hts1 : v * (1 - 1 / 2 ^ 52) ≤ ts := by
    have h1 : 1 / ts ≤ 2800 * r * (1 + 1 / 2 ^ 53) := by linarith [hw.2]
    have h2 : 1 / (2800 * r * (1 + 1 / 2 ^ 53)) ≤ ts := by
      rw [one_div_le (by positivity) htspos]; exact h1
    have h3 : 1 / (2800 * r * (1 + 1 / 2 ^ 53)) = v * (1 / (1 + 1 / 2 ^ 53)) := by
      rw [hv]; field_simp
    rw [h3] at h2
    have h4 : (1 : ℚ) - 1 / 2 ^ 52 ≤ 1 / (1 + 1 / 2 ^ 53) := by norm_num
    nlinarith
  have hts2 : ts ≤ v * (1 + 1 / 2 ^ 52) := by
    have h1 : 2800 * r * (1 - 1 / 2 ^ 53) ≤ 1 / ts := by linarith [hw.1]
    have h2 : ts ≤ 1 / (2800 * r * (1 - 1 / 2 ^ 53)) := by
      rw [le_one_div htspos (by positivity)]; exact h1
    have h3 : 1 / (2800 * r * (1 - 1 / 2 ^ 53)) = v * (1 / (1 - 1 / 2 ^ 53)) := by
      rw [hv]; field_simp
    rw [h3] at h2
    have h4 : (1 : ℚ) / (1 - 1 / 2 ^ 53) ≤ 1 + 1 / 2 ^ 52 := by norm_num
    nlinarith
  -- (double) delay
  obtain ⟨dh, hdh, hdh1, hdh2⟩ := Double.round_within x D (by linarith) (by linarith)
    (by linarith)
  rw [hdh, Double.mul_some]
  -- the atoms `A = D * v` and `v`
  obtain ⟨A, hA⟩ : ∃ A : ℚ, A = D * v := ⟨_, rfl⟩
  have hA0 : 0 ≤ A := by rw [hA]; positivity
  have hA1 : A ≤ 2 ^ 31 * (1 / 2800000) := by
    rw [hA]; exact mul_le_mul hd hv1 hvpos.le (by norm_num)
  have hxv1 : x * v ≤ A := by rw [hA]; exact mul_le_mul_of_nonneg_right hD1 hvpos.le
  have hxv2 : -A ≤ x * v := by
    rw [hA]
    have := mul_le_mul_of_nonneg_right hD2 hvpos.le
    linarith
  have hp1 : |(dh - x) * ts| ≤ (D / 2 ^ 53 + 1 / 2 ^ 200) * (v * (1 + 1 / 2 ^ 52)) := by
    rw [abs_mul, abs_of_pos htspos]
    exact mul_le_mul (abs_le.mpr ⟨by linarith, by linarith⟩) hts2 htspos.le (by positivity)
  have hp2 : |x * (ts - v)| ≤ D * (v / 2 ^ 52) := by
    rw [abs_mul]
    exact mul_le_mul (abs_le.mpr ⟨by linarith, by linarith⟩)
      (abs_le.mpr ⟨by linarith, by linarith⟩) (abs_nonneg _) hD0
  have e1 : (D / 2 ^ 53 + 1 / 2 ^ 200) * (v * (1 + 1 / 2 ^ 52))
      = A * (1 / 2 ^ 53 * (1 + 1 / 2 ^ 52)) + v * (1 / 2 ^ 200 * (1 + 1 / 2 ^ 52)) := by
    rw [hA]; ring
  have e2 : D * (v / 2 ^ 52) = A / 2 ^ 52 := by rw [hA]; ring
  rw [e1] at hp1
  rw [e2] at hp2
  have hq1 := abs_le.mp hp1
  have hq2 := abs_le.mp hp2
  have e3 : dh * ts = x * v + (dh - x) * ts + x * (ts - v) := by ring
  obtain ⟨Y, hY⟩ : ∃ Y : ℚ, Y = x * v := ⟨_, rfl⟩
  rw [← hY] at hxv1 hxv2 e3 ⊢
  generalize (dh - x) * ts = g1 at e3 hq1
  generalize x * (ts - v) = g2 at e3 hq2
  generalize dh * ts = P at e3 ⊢
  rw [← hA]
  -- summary: the product `(double) delay * tStep` before rounding
  have hP1 : Y - (A * (31 / 10 / 2 ^ 53) + 1 / 2 ^ 190) ≤ P := by linarith [hq1.1, hq2.1]
  have hP2 : P ≤ Y + (A * (31 / 10 / 2 ^ 53) + 1 / 2 ^ 190) := by linarith [hq1.2, hq2.2]
  clear hq1 hq2 hp1 hp2 e1 e2 e3 hdh hdh1 hdh2 hts1 hts2 hw hwerr hts hd hD0 hD1 hD2 hv hv1 hxv
    hDv hY hA
  -- delay * tStep
  obtain ⟨t, ht, ht1, ht2⟩ := Double.round_within P (A * (1 + 1 / 2 ^ 40) + 1 / 2 ^ 100)
    (by linarith) (by linarith) (by linarith)
  rw [ht, Double.sub_some]
  have hT1 : Y - (A * (43 / 10 / 2 ^ 53) + 1 / 2 ^ 150) ≤ t := by linarith
  have hT2 : t ≤ Y + (A * (43 / 10 / 2 ^ 53) + 1 / 2 ^ 150) := by linarith
  clear hP1 hP2 ht1 ht2 ht
  obtain ⟨s, hs, hs1, hs2⟩ := Double.round_within (t - 7434893790629969 / 604462909807314587353088)
    ((A + 123 / 10000000000) * (1 + 1 / 2 ^ 40))
    (by linarith) (by linarith) (by linarith)
  rw [hs, Double.mul_some]
  have hS1 : Y - 123 / 10000000000 - (A + 123 / 10000000000) * (55 / 10 / 2 ^ 53) ≤ s := by
    linarith
  have hS2 : s ≤ Y - 123 / 10000000000 + (A + 123 / 10000000000) * (55 / 10 / 2 ^ 53) := by
    linarith
  clear hT1 hT2 hs1 hs2 hs
  obtain ⟨z, hz, hz1, hz2⟩ := Double.round_within (1684943745717371 / 8388608 * s)
    (20086094686 / 100 * (A + 123 / 10000000000) * (1 + 1 / 2 ^ 39))
    (by linarith) (by linarith) (by linarith)
  rw [hz]
  have hZ1 : 20086094686 / 100 * (Y - 123 / 10000000000)
      - 20086094686 / 100 * (A + 123 / 10000000000) * (75 / 10 / 2 ^ 53) ≤ z := by linarith
  have hZ2 : z ≤ 20086094686 / 100 * (Y - 123 / 10000000000)
      + 20086094686 / 100 * (A + 123 / 10000000000) * (75 / 10 / 2 ^ 53) := by linarith
  clear hS1 hS2 hz1 hz2 hz
  simp only [Option.map_some']
  rw [Double.div_some _ _ (by norm_num)]
  have hK : (67 : ℚ) / 100 * 299792458 * (Y - 123 / 10 ^ 10)
      = 20086094686 / 100 * (Y - 123 / 10000000000) := by ring
  have hK2 : (67 : ℚ) / 100 * 299792458 * (A + 123 / 10 ^ 10) / 2 / 2 ^ 49
      = 20086094686 / 100 * (A + 123 / 10000000000) / 2 / 2 ^ 49 := by ring
  rw [hK, hK2]
  by_cases hneg : z < 0
  · rw [if_pos hneg]
    obtain ⟨e, he, he1, he2⟩ := Double.round_within ((0 : ℚ) / 2) 0
      (by norm_num) (by norm_num) (by norm_num)
    refine ⟨e, he, ?_⟩
    rcases le_total 0 (20086094686 / 100 * (Y - 123 / 10000000000)) with hm | hm
    · rw [max_eq_right hm, abs_le]
      constructor <;> linarith only [hZ1, hZ2, he1, he2, hm, hneg, hA0]
    · rw [max_eq_left hm, abs_le]
      constructor <;> linarith only [hZ1, hZ2, he1, he2, hm, hneg, hA0]
  · rw [if_neg hneg]
    have hz0 : 0 ≤ z := not_lt.mp hneg
    obtain ⟨e, he, he1, he2⟩ := Double.round_within (z / 2)
      (20086094686 / 100 * (A + 123 / 10000000000) * (1 + 1 / 2 ^ 39) / 2)
      (by linarith only [hZ1, hZ2, hz0, hA0, hxv1, hxv2])
      (by linarith only [hZ1, hZ2, hz0, hA0, hxv1, hxv2])
      (by linarith only [hA0, hA1])
    refine ⟨e, he, ?_⟩
    rcases le_total 0 (20086094686 / 100 * (Y - 123 / 10000000000)) with hm | hm
    · rw [max_eq_right hm, abs_le]
      constructor <;> linarith only [hZ1, hZ2, he1, he2, hm, hz0, hA0, hxv1, hxv2]
    · rw [max_eq_left hm, abs_le]
      constructor <;> linarith only [hZ1, hZ2, he1, he2, hm, hz0, hA0, hxv1, hxv2]

/-- C16 as stated fails: at 30 kS/s (the constructor state) and `L = 0.9144`
(the `double` nearest to it) the computed delay is 3, and the estimate for
delay 3, in exact arithmetic as in `double` arithmetic, differs from `L` by
more than one clock step's distance `0.67 * 299792458 * tStep / 2`. -/
theorem C16_counterexample :
    (0 : ℚ) ≤ 8236182998535163 / 9007199254740992 ∧
    Double.round (9144 / 10000) = some (8236182998535163 / 9007199254740992) ∧
    setCableLengthMetersDelay (ctor idleDevice []) (some (8236182998535163 / 9007199254740992))
      = some 3 ∧
    |estimateCableLengthMeters (ctor idleDevice []) 3 - 8236182998535163 / 9007199254740992|
      > 0.67 * 299792458 * (1 / (2800 * getSampleRate (ctor idleDevice []))) / 2 ∧
    estimateCableLengthMetersDouble (ctor idleDevice []) 3
      = some (5295124824367919 / 2251799813685248) ∧
    |(5295124824367919 / 2251799813685248 : ℚ) - 8236182998535163 / 9007199254740992|
      > 0.67 * 299792458 * (1 / (2800 * getSampleRate (ctor idleDevice []))) / 2 := by
  have hr : getSampleRate (ctor idleDevice []) = 30000 := rfl
  refine ⟨by norm_num, by decide!, by decide!, ?_, by decide!, ?_⟩
  · rw [estimateCableLengthMeters_eq, hr]
    apply lt_abs.mpr
    left
    norm_num
  · rw [hr]
    apply lt_abs.mpr
    left
    norm_num

/-- The settle-time offset alone is no lower bound in `double` arithmetic: at
30 kS/s and the length `0.15160219084433335` the quotient rounds to exactly 2,
the delay is 2, and the estimate for delay 2 exceeds `L` by slightly less than
`0.67 * 299792458 * 10.0e-9 / 2`. -/
theorem cableRoundTrip_rounding_instance :
    Double.round (15160219084433335 / 10 ^ 17) = some (1365511140390181 / 9007199254740992) ∧
    setCableLengthMetersDelay (ctor idleDevice []) (some (1365511140390181 / 9007199254740992))
      = some 2 ∧
    estimateCableLengthMeters (ctor idleDevice []) 2 - 1365511140390181 / 9007199254740992
      < 0.67 * 299792458 * 10.0e-9 / 2 := by
  refine ⟨by decide!, by decide!, ?_⟩
  rw [estimateCableLengthMeters_eq]
  have hr : getSampleRate (ctor idleDevice []) = 30000 := rfl
  rw [hr]
  norm_num

/-- A delay that `setCableLengthMeters` computes is in the range of `int`. -/
theorem setCableLengthMetersDelay_range (b : Rhd2000EvalBoard) (L : Double) (d : Int)
    (hd : setCableLengthMetersDelay b L = some d) : d ≤ 2147483647 := by
  unfold setCableLengthMetersDelay at hd
  cases hx : Double.toInt (Double.ceil (setCableLengthMetersQuotient b L)) with
  | none => rw [hx] at hd; cases hd
  | some x =>
    rw [hx] at hd
    simp only [Option.map_some', Option.some.injEq] at hd
    have hxr := (Double.toInt_range _ x hx).2
    rw [← hd]
    split_ifs <;> omega

/-- The `double` result of `estimateCableLengthMeters(delay)` at an enumerated
sample rate: a finite number within `2 ^ (-49)` (relative to the length for
`|delay|` with the delays added instead of subtracted) of the exact value of
the formula. -/
theorem estimateCableLengthMetersDouble_spec (b : Rhd2000EvalBoard)
    (hr : ∀ raw : Int, b.sampleRate ≠ AmplifierSampleRate.invalid raw) (d : Int)
    (hd : |(d : ℚ)| ≤ 2 ^ 31) :
    ∃ e : ℚ, estimateCableLengthMetersDouble b d = some e ∧
      |e - estimateCableLengthMeters b d|
        ≤ 0.67 * 299792458 * (|(d : ℚ)| / (2800 * getSampleRate b) + 12.3e-9) / 2 / 2 ^ 49 := by
  obtain ⟨e, he, herr⟩ := cableEstimate_spec (getSampleRate b) (getSampleRate_mem b hr) d hd
  refine ⟨e, ?_, ?_⟩
  · unfold estimateCableLengthMetersDouble
    exact he
  · rw [estimateCableLengthMeters_eq]
    have e1 : (0.67 : ℚ) * 299792458 * ((d : ℚ) / (2800 * getSampleRate b) - 12.3e-9)
        = 67 / 100 * 299792458 * ((d : ℚ) / (2800 * getSampleRate b) - 123 / 10 ^ 10) := by
      norm_num
    have e2 : (0.67 : ℚ) * 299792458 * (|(d : ℚ)| / (2800 * getSampleRate b) + 12.3e-9) / 2
          / 2 ^ 49
        = 67 / 100 * 299792458 * (|(d : ℚ)| / (2800 * getSampleRate b) + 123 / 10 ^ 10) / 2
          / 2 ^ 49 := by
      norm_num
    rw [e1, e2]
    exact herr

set_option maxHeartbeats 800000 in
/-- C16 (amended): at an enumerated sample rate and for `0 <= L <= 10 ^ 9`,
the delay `d` that `setCableLengthMeters(port, L)` computes is defined, and
`estimateCableLengthMeters(d) - L` is at least `0.67 * 299792458 * 10.0e-9 / 2`
(the distance of the 10 ns settle time, which only `setCableLengthMeters`
adds) and less than that plus one clock step's distance
`0.67 * 299792458 * tStep / 2`, `tStep = 1/(2800*r)`, each bound widened by a
rounding tolerance: `(L + 0.67 * 299792458 * 22.3e-9 / 2) / 2 ^ 48` for the
estimate as the exact value of its formula, and
`(L + 0.67 * 299792458 * (34.6e-9 + tStep) / 2) / 2 ^ 47` for the estimate as
computed in `double` arithmetic. -/
theorem C16_cable_round_trip_offset (b : Rhd2000EvalBoard) (L : ℚ)
    (hr : ∀ raw : Int, b.sampleRate ≠ AmplifierSampleRate.invalid raw) (hL : 0 ≤ L)
    (hL1 : L ≤ 10 ^ 9) :
    ∃ d : Int, setCableLengthMetersDelay b (some L) = some d ∧
      0.67 * 299792458 * 10.0e-9 / 2 - (L + 0.67 * 299792458 * 22.3e-9 / 2) / 2 ^ 48
          ≤ estimateCableLengthMeters b d - L ∧
      estimateCableLengthMeters b d - L
          < 0.67 * 299792458 * (10.0e-9 + 1 / (2800 * getSampleRate b)) / 2
            + (L + 0.67 * 299792458 * 22.3e-9 / 2) / 2 ^ 48 ∧
      ∃ e : ℚ, estimateCableLengthMetersDouble b d = some e ∧
        0.67 * 299792458 * 10.0e-9 / 2
            - (L + 0.67 * 299792458 * (34.6e-9 + 1 / (2800 * getSampleRate b)) / 2) / 2 ^ 47
            ≤ e - L ∧
        e - L < 0.67 * 299792458 * (10.0e-9 + 1 / (2800 * getSampleRate b)) / 2
            + (L + 0.67 * 299792458 * (34.6e-9 + 1 / (2800 * getSampleRate b)) / 2) / 2 ^ 47 := by
  have habs : |L| ≤ 10 ^ 9 := by rw [abs_of_nonneg hL]; exact hL1
  obtain ⟨q, hq, herr, hd⟩ := setCableLengthMetersDelay_spec b L hr habs
  have hd1 : (1 : Int) ≤ max 1 ⌈q⌉ := le_max_left _ _
  have hd2 : max 1 ⌈q⌉ ≤ (2147483647 : Int) := setCableLengthMetersDelay_range b _ _ hd
  have hdq0 : (0 : ℚ) ≤ ((max 1 ⌈q⌉ : Int) : ℚ) := by
    have : ((1 : Int) : ℚ) ≤ ((max 1 ⌈q⌉ : Int) : ℚ) := Int.cast_le.mpr hd1
    push_cast at this ⊢
    linarith
  have hdabs : |((max 1 ⌈q⌉ : Int) : ℚ)| ≤ 2 ^ 31 := by
    rw [abs_of_nonneg hdq0]
    have : ((max 1 ⌈q⌉ : Int) : ℚ) ≤ ((2147483647 : Int) : ℚ) := Int.cast_le.mpr hd2
    push_cast at this ⊢
    linarith
  obtain ⟨e, he, herr2⟩ := estimateCableLengthMetersDouble_spec b hr (max 1 ⌈q⌉) hdabs
  rw [abs_of_nonneg hdq0] at herr2
  suffices hmain :
      (0.67 * 299792458 * 10.0e-9 / 2 - (L + 0.67 * 299792458 * 22.3e-9 / 2) / 2 ^ 48
          ≤ estimateCableLengthMeters b (max 1 ⌈q⌉) - L ∧
        estimateCableLengthMeters b (max 1 ⌈q⌉) - L
          < 0.67 * 299792458 * (10.0e-9 + 1 / (2800 * getSampleRate b)) / 2
            + (L + 0.67 * 299792458 * 22.3e-9 / 2) / 2 ^ 48) ∧
      (0.67 * 299792458 * 10.0e-9 / 2
            - (L + 0.67 * 299792458 * (34.6e-9 + 1 / (2800 * getSampleRate b)) / 2) / 2 ^ 47
            ≤ e - L ∧
        e - L < 0.67 * 299792458 * (10.0e-9 + 1 / (2800 * getSampleRate b)) / 2
            + (L + 0.67 * 299792458 * (34.6e-9 + 1 / (2800 * getSampleRate b)) / 2) / 2 ^ 47) from
    ⟨max 1 ⌈q⌉, hd, hmain.1.1, hmain.1.2, e, he, hmain.2.1, hmain.2.2⟩
  have hrpos := getSampleRate_pos b hr
  rw [estimateCableLengthMeters_eq] at herr2 ⊢
  rw [(specCable_eq b L).1, (specCable_eq b L).2, abs_of_nonneg hL] at herr
  generalize getSampleRate b = r at hrpos herr herr2 ⊢
  have hR : (0 : ℚ) < 2800 * r := by positivity
  have he1 := abs_le.mp herr
  -- the step count and its tolerance in terms of the time delay `T`
  obtain ⟨T, hT⟩ : ∃ T : ℚ, T = L * (100 / 10043047343) + 223 / 10000000000 := ⟨_, rfl⟩
  have hT0 : 223 / 10000000000 ≤ T := by rw [hT]; nlinarith
  have e1 : (2 * L / (67 / 100 * 299792458) + 19 / 10 ^ 10 + 9 / 10 ^ 9 + 14 / 10 ^ 10
      + 10 / 10 ^ 9) * 2800 * r = T * (2800 * r) := by rw [hT]; ring
  have e2 : 1 / 2 ^ 48 * ((2 * L / (67 / 100 * 299792458) + 223 / 10 ^ 10) * 2800 * r)
      = T / 2 ^ 48 * (2800 * r) := by rw [hT]; ring
  rw [e1, e2] at he1
  have hc1 : q ≤ ((max 1 ⌈q⌉ : Int) : ℚ) :=
    le_trans (Int.le_ceil q) (Int.cast_le.mpr (le_max_right _ _))
  have hc2 : ((max 1 ⌈q⌉ : Int) : ℚ) < T * (2800 * r) + T / 2 ^ 48 * (2800 * r) + 1 := by
    rcases le_total (1 : Int) ⌈q⌉ with h | h
    · rw [max_eq_right h]
      linarith [Int.ceil_lt_add_one q, he1.2]
    · rw [max_eq_left h]
      have : 0 < T * (2800 * r) + T / 2 ^ 48 * (2800 * r) := by positivity
      push_cast
      linarith
  generalize ((max 1 ⌈q⌉ : Int) : ℚ) = c at hc1 hc2 herr2 hdq0 ⊢
  have hy1 : T - T / 2 ^ 48 ≤ c / (2800 * r) := by
    rw [le_div_iff₀ hR]
    linarith [he1.1]
  have hy2 : c / (2800 * r) < T + T / 2 ^ 48 + 1 / (2800 * r) := by
    rw [div_lt_iff₀ hR, add_mul, one_div, inv_mul_cancel₀ (ne_of_gt hR)]
    linarith
  have hs0 : (0 : ℚ) < 1 / (2800 * r) := by positivity
  generalize c / (2800 * r) = y at hy1 hy2 herr2 ⊢
  generalize 1 / (2800 * r) = s at hy2 hs0 ⊢
  have hpos : (0 : ℚ) ≤ 0.67 * 299792458 * (y - 12.3e-9) := by
    apply mul_nonneg (by norm_num)
    norm_num at hy1 ⊢
    linarith
  rw [max_eq_right hpos] at herr2 ⊢
  have he2 := abs_le.mp herr2
  clear herr herr2 he1 hc1 hc2 hpos e1 e2
  rw [hT] at hy1 hy2
  norm_num at hy1 hy2 he2 ⊢
  refine ⟨⟨?_, ?_⟩, ?_, ?_⟩
  · linarith only [hy1, hy2, hL, hs0]
  · linarith only [hy1, hy2, hL, hs0]
  · linarith only [hy1, hy2, hL, hs0, he2.1, he2.2]
  · linarith only [hy1, hy2, hL, hs0, he2.1, he2.2]

/-- C16 (amended), instance: the bounds at 30 kS/s for the `double` nearest to
`0.9144`. -/
theorem C16_cable_round_trip_offset_witness :
    (0 : ℚ) ≤ 8236182998535163 / 9007199254740992 ∧
    (8236182998535163 / 9007199254740992 : ℚ) ≤ 10 ^ 9 ∧
    ∃ d : Int, setCableLengthMetersDelay (ctor idleDevice [])
        (some (8236182998535163 / 9007199254740992)) = some d ∧
      0.67 * 299792458 * 10.0e-9 / 2
          - (8236182998535163 / 9007199254740992 + 0.67 * 299792458 * 22.3e-9 / 2) / 2 ^ 48
          ≤ estimateCableLengthMeters (ctor idleDevice []) d
            - 8236182998535163 / 9007199254740992 ∧
      estimateCableLengthMeters (ctor idleDevice []) d - 8236182998535163 / 9007199254740992
          < 0.67 * 299792458 * (10.0e-9 + 1 / (2800 * getSampleRate (ctor idleDevice []))) / 2
            + (8236182998535163 / 9007199254740992 + 0.67 * 299792458 * 22.3e-9 / 2) / 2 ^ 48 ∧
      ∃ e : ℚ, estimateCableLengthMetersDouble (ctor idleDevice []) d = some e ∧
        0.67 * 299792458 * 10.0e-9 / 2
            - (8236182998535163 / 9007199254740992
                + 0.67 * 299792458 * (34.6e-9 + 1 / (2800 * getSampleRate (ctor idleDevice [])))
                  / 2) / 2 ^ 47
            ≤ e - 8236182998535163 / 9007199254740992 ∧
        e - 8236182998535163 / 9007199254740992
          < 0.67 * 299792458 * (10.0e-9 + 1 / (2800 * getSampleRate (ctor idleDevice []))) / 2
            + (8236182998535163 / 9007199254740992
                + 0.67 * 299792458 * (34.6e-9 + 1 / (2800 * getSampleRate (ctor idleDevice [])))
                  / 2) / 2 ^ 47 :=
  ⟨by norm_num, by norm_num,
    C16_cable_round_trip_offset (ctor idleDevice []) (8236182998535163 / 9007199254740992)
      (fun _ h => AmplifierSampleRate.noConfusion h) (by norm_num) (by norm_num)⟩

/-- The conversion factor of `setCableLengthFeet` is the `double` nearest to
`0.3048`: `setCableLengthFeet(port, x)` is
`setCableLengthMeters(port, 0.3048 * x)`. -/
theorem setCableLengthFeet_eq (port : BoardPort) (x : Double) (b : Rhd2000EvalBoard) :
    setCableLengthFeet port x b
      = setCableLengthMeters port (Double.mul (Double.round (3048 / 10000)) x) b :=
  rfl

/-- The meters-to-feet direction multiplies by 3.2808, which is below
`1/0.3048`: whenever the estimate in meters is positive, the estimate in feet
is below the estimate in meters divided by 0.3048. -/
theorem estimateCableLengthFeet_lt (b : Rhd2000EvalBoard) (delay : Int)
    (hpos : 0 < estimateCableLengthMeters b delay) :
    estimateCableLengthFeet b delay < estimateCableLengthMeters b delay / 0.3048 := by
  unfold estimateCableLengthFeet
  generalize estimateCableLengthMeters b delay = m at hpos ⊢
  norm_num
  linarith

/-- C18, the code at a failing input: at 30 kS/s (the constructor state) and
delay 3 the estimate in meters is positive, `estimateCableLengthFeet(3)` is
3.2808 times it, and that is less than the estimate in meters divided by
0.3048. -/
theorem C18_estimateCableLengthFeet_input :
    0 < estimateCableLengthMeters (ctor idleDevice []) 3 ∧
    estimateCableLengthFeet (ctor idleDevice []) 3
      = 3.2808 * estimateCableLengthMeters (ctor idleDevice []) 3 ∧
    estimateCableLengthFeet (ctor idleDevice []) 3
      < estimateCableLengthMeters (ctor idleDevice []) 3 / 0.3048 := by
  have hpos : 0 < estimateCableLengthMeters (ctor idleDevice []) 3 := by
    rw [estimateCableLengthMeters_eq]
    have hr : getSampleRate (ctor idleDevice []) = 30000 := rfl
    rw [hr]
    apply div_pos _ (by norm_num)
    apply lt_max_of_lt_right
    norm_num
  exact ⟨hpos, rfl, estimateCableLengthFeet_lt (ctor idleDevice []) 3 hpos⟩

/-- The upload loop from index `i`: the log grows by one RAM write per
command, in list order, command `j` of the remaining list at address `i + j`. -/
theorem uploadCommandListLoop_log (slot : AuxCmdSlot) (bit : Nat)
    (hbit : ramWriteTriggerBit slot = some bit) (bank : Int) :
    ∀ (commandList : List Int) (i : Nat) (d : okCFrontPanel),
      (uploadCommandListLoop slot bank commandList i d).log
        = d.log ++ (List.range commandList.length).flatMap
            (fun j => ramWrite (toUINT32 (commandList.getD j 0)) (i + j) (toUINT32 bank) bit) := by
  intro commandList
  induction commandList with
  | nil => intro i d; simp [uploadCommandListLoop]
  | cons cmd rest ih =>
    intro i d
    unfold uploadCommandListLoop
    dsimp only
    rw [ih, List.length_cons, List.range_succ_eq_map, List.flatMap_cons, List.flatMap_map]
    have hstep : ∀ j : Nat,
        ramWrite (toUINT32 ((cmd :: rest).getD (Nat.succ j) 0)) (i + Nat.succ j) (toUINT32 bank) bit
          = ramWrite (toUINT32 (rest.getD j 0)) (i + 1 + j) (toUINT32 bank) bit := by
      intro j
      have hidx : i + Nat.succ j = i + 1 + j := by omega
      rw [hidx]
      rfl
    have hfun : (fun j => ramWrite (toUINT32 ((cmd :: rest).getD (Nat.succ j) 0)) (i + Nat.succ j)
          (toUINT32 bank) bit)
        = (fun j => ramWrite (toUINT32 (rest.getD j 0)) (i + 1 + j) (toUINT32 bank) bit) :=
      funext hstep
    rw [hfun, ← List.append_assoc]
    congr 1
    cases slot with
    | AuxCmd1 =>
      cases hbit
      simp [okCFrontPanel.ActivateTriggerIn, okCFrontPanel.UpdateWireIns,
        okCFrontPanel.SetWireInValue, ramWrite]
    | AuxCmd2 =>
      cases hbit
      simp [okCFrontPanel.ActivateTriggerIn, okCFrontPanel.UpdateWireIns,
        okCFrontPanel.SetWireInValue, ramWrite]
    | AuxCmd3 =>
      cases hbit
      simp [okCFrontPanel.ActivateTriggerIn, okCFrontPanel.UpdateWireIns,
        okCFrontPanel.SetWireInValue, ramWrite]
    | invalid raw => cases hbit

/-- C19: for a command list of length `n`, a slot among `AuxCmd1..3` with
RAM-write trigger bit `bit` (0, 1, 2) and a bank in [0,15], the transport
calls of `uploadCommandList` are exactly `n` RAM writes in the order
`i = 0..n-1`, write `i` with data `commandList[i]` (as a 32-bit word), in-bank
address `i`, the bank, and a pulse of trigger bit `bit`; for an invalid slot
or a bank outside [0,15] the board is returned unchanged, its log included (no
write at all). -/
theorem C19_uploadCommandList_writes (commandList : List Int) (slot : AuxCmdSlot) (bank : Int)
    (b : Rhd2000EvalBoard) :
    (∀ bit : Nat, ramWriteTriggerBit slot = some bit → 0 ≤ bank ∧ bank ≤ 15 →
      (uploadCommandList commandList slot bank b).dev.log
        = b.dev.log ++ (List.range commandList.length).flatMap
            (fun i => ramWrite (toUINT32 (commandList.getD i 0)) i bank.toNat bit)) ∧
    ((ramWriteTriggerBit slot = none ∨ bank < 0 ∨ bank > 15) →
      uploadCommandList commandList slot bank b = b) := by
  refine ⟨fun bit hbit hbank => ?_, fun h => ?_⟩
  · have hslot : ¬ (slot ≠ AuxCmdSlot.AuxCmd1 ∧ slot ≠ AuxCmdSlot.AuxCmd2
        ∧ slot ≠ AuxCmdSlot.AuxCmd3) := by
      cases slot with
      | invalid raw => cases hbit
      | _ => simp
    have hb : ¬ (bank < 0 ∨ bank > 15) := by omega
    have hconv : toUINT32 bank = bank.toNat := toUINT32_of_nonneg bank hbank.1 (by omega)
    unfold uploadCommandList
    rw [if_neg hslot, if_neg hb]
    show (uploadCommandListLoop slot bank commandList 0 b.dev).log = _
    rw [uploadCommandListLoop_log slot bit hbit bank commandList 0 b.dev, hconv]
    simp only [Nat.zero_add]
  · unfold uploadCommandList
    rcases h with h | h
    · have hslot : slot ≠ AuxCmdSlot.AuxCmd1 ∧ slot ≠ AuxCmdSlot.AuxCmd2
          ∧ slot ≠ AuxCmdSlot.AuxCmd3 := by
        cases slot with
        | invalid raw => simp
        | _ => cases h
      rw [if_pos hslot]
    · simp only [if_pos h, ite_self]

/-- C19, instances: uploading the two words `0x5500`, `0x6A00` to `AuxCmd2`,
bank 5, makes two RAM writes at addresses 0 and 1 with trigger bit 1; an
invalid slot and bank 16 make no transport call. -/
theorem C19_uploadCommandList_writes_witness :
    (uploadCommandList [0x5500, 0x6a00] AuxCmdSlot.AuxCmd2 5 (ctor idleDevice [])).dev.log
      = ramWrite 0x5500 0 5 1 ++ ramWrite 0x6a00 1 5 1 ∧
    uploadCommandList [0x5500, 0x6a00] (AuxCmdSlot.invalid 3) 5 (ctor idleDevice [])
      = ctor idleDevice [] ∧
    uploadCommandList [0x5500, 0x6a00] AuxCmdSlot.AuxCmd2 16 (ctor idleDevice [])
      = ctor idleDevice [] :=
  ⟨(C19_uploadCommandList_writes [0x5500, 0x6a00] AuxCmdSlot.AuxCmd2 5 (ctor idleDevice [])).1 1
      rfl (by decide),
   (C19_uploadCommandList_writes [0x5500, 0x6a00] (AuxCmdSlot.invalid 3) 5
      (ctor idleDevice [])).2 (Or.inl rfl),
   (C19_uploadCommandList_writes [0x5500, 0x6a00] AuxCmdSlot.AuxCmd2 16
      (ctor idleDevice [])).2 (Or.inr (by decide))⟩

/-- A write through the mask `0x000f << s` only uses the low 4 bits of the
value written. -/
theorem maskedWrite_low4 (old v s : Nat) :
    maskedWrite old (v <<< s) (0x000f <<< s) = maskedWrite old ((v % 16) <<< s) (0x000f <<< s) := by
  unfold maskedWrite
  congr 1
  apply Nat.eq_of_testBit_eq
  intro i
  have h232 : (4294967296 : Nat) = 2 ^ 32 := by norm_num
  have h16 : (16 : Nat) = 2 ^ 4 := by norm_num
  rw [h232, h16]
  simp only [Nat.testBit_and, Nat.testBit_mod_two_pow, Nat.testBit_shiftLeft]
  have h15 : Nat.testBit 15 (i - s) = decide (i - s < 4) := by
    have h : (15 : Nat) = 2 ^ 4 - 1 := by norm_num
    rw [h, Nat.testBit_two_pow_sub_one]
  rw [h15]
  by_cases h2 : i - s < 4
  · simp [h2]
  · simp [h2]

/-- The selector register and shift of a stream in [0,7]: streams 0..3 are in
`WireInDataStreamSel1234`, streams 4..7 in `WireInDataStreamSel5678`, at field
`stream mod 4`. -/
theorem setDataSourceSwitch_eq (stream : Int) (h : 0 ≤ stream ∧ stream ≤ 7) :
    setDataSourceSwitch stream
      = some (if stream ≤ 3 then OkEndPoint.WireInDataStreamSel1234
              else OkEndPoint.WireInDataStreamSel5678, 4 * (stream % 4).toNat) := by
  obtain ⟨h0, h7⟩ := h
  interval_cases stream <;> rfl

/-- The wire values after `setDataSource` for a stream in [0,7]: one masked
write of the low 4 bits of the source to the field of the stream. -/
theorem setDataSource_wireIn (stream : Int) (dataSource : Nat) (b : Rhd2000EvalBoard)
    (h : 0 ≤ stream ∧ stream ≤ 7) (e : OkEndPoint) :
    (setDataSource stream dataSource b).dev.wireIn e
      = if e = (if stream ≤ 3 then OkEndPoint.WireInDataStreamSel1234
                else OkEndPoint.WireInDataStreamSel5678) then
          maskedWrite
            (b.dev.wireIn (if stream ≤ 3 then OkEndPoint.WireInDataStreamSel1234
                           else OkEndPoint.WireInDataStreamSel5678))
            ((dataSource % 16) <<< (4 * (stream % 4).toNat))
            (0x000f <<< (4 * (stream % 4).toNat))
        else b.dev.wireIn e := by
  have hr : ¬ (stream < 0 ∨ stream > 7) := by omega
  unfold setDataSource
  rw [if_neg hr, setDataSourceSwitch_eq stream h]
  dsimp only [okCFrontPanel.SetWireInValue, okCFrontPanel.UpdateWireIns]
  rw [maskedWrite_low4]

/-- C20: for a stream in [0,7], `setDataSource(stream, source)` replaces the
4-bit field `stream mod 4` of `WireInDataStreamSel1234` (streams 0..3) or of
`WireInDataStreamSel5678` (streams 4..7) with the low 4 bits of `source`; the
other fields of that register, every bit outside the field when the register
is a 32-bit word, and every other wire (the other selector register among
them) are unchanged.  For a stream outside [0,7] the board is returned
unchanged, its log included (no register write). -/
theorem C20_setDataSource_field (stream : Int) (dataSource : Nat) (b : Rhd2000EvalBoard) :
    (0 ≤ stream ∧ stream ≤ 7 →
      (∀ q : Nat, q ≤ 3 →
        portField q ((setDataSource stream dataSource b).dev.wireIn
            (if stream ≤ 3 then OkEndPoint.WireInDataStreamSel1234
             else OkEndPoint.WireInDataStreamSel5678))
          = if q = (stream % 4).toNat then dataSource % 16
            else portField q (b.dev.wireIn
              (if stream ≤ 3 then OkEndPoint.WireInDataStreamSel1234
               else OkEndPoint.WireInDataStreamSel5678))) ∧
      (b.dev.wireIn (if stream ≤ 3 then OkEndPoint.WireInDataStreamSel1234
                     else OkEndPoint.WireInDataStreamSel5678) < 4294967296 →
        ∀ i : Nat,
          ((setDataSource stream dataSource b).dev.wireIn
              (if stream ≤ 3 then OkEndPoint.WireInDataStreamSel1234
               else OkEndPoint.WireInDataStreamSel5678)).testBit i
            = if 4 * (stream % 4).toNat ≤ i ∧ i < 4 * (stream % 4).toNat + 4
              then (dataSource % 16).testBit (i - 4 * (stream % 4).toNat)
              else (b.dev.wireIn (if stream ≤ 3 then OkEndPoint.WireInDataStreamSel1234
                                  else OkEndPoint.WireInDataStreamSel5678)).testBit i) ∧
      (∀ e : OkEndPoint,
        e ≠ (if stream ≤ 3 then OkEndPoint.WireInDataStreamSel1234
             else OkEndPoint.WireInDataStreamSel5678) →
        (setDataSource stream dataSource b).dev.wireIn e = b.dev.wireIn e)) ∧
    ((stream < 0 ∨ stream > 7) → setDataSource stream dataSource b = b) := by
  refine ⟨fun h => ⟨?_, ?_, ?_⟩, fun h => ?_⟩
  · intro q hq
    rw [setDataSource_wireIn stream dataSource b h, if_pos rfl]
    exact portField_maskedWrite _ (dataSource % 16) (stream % 4).toNat q
      (Nat.mod_lt _ (by norm_num)) (by omega) hq
  · intro hreg i
    rw [setDataSource_wireIn stream dataSource b h, if_pos rfl]
    exact testBit_maskedWrite_field _ (dataSource % 16) (4 * (stream % 4).toNat) i hreg
      (by omega)
  · intro e he
    rw [setDataSource_wireIn stream dataSource b h, if_neg he]
  · simp only [setDataSource, if_pos h]

/-- C20, instance: with sources 7 and 2 bound to streams 4 and 6 (register
`WireInDataStreamSel5678` = `0x0207`), `setDataSource(5, 0x13)` gives `0x0237`:
field 1 holds the low 4 bits of the source and the other fields are kept;
`setDataSource(8, 1)` makes no transport call. -/
theorem C20_setDataSource_field_witness :
    boardSources0207.dev.wireIn OkEndPoint.WireInDataStreamSel5678 = 0x0207 ∧
    (setDataSource 5 0x13 boardSources0207).dev.wireIn OkEndPoint.WireInDataStreamSel5678
      = 0x0237 ∧
    (∀ q : Nat, q ≤ 3 →
      portField q ((setDataSource 5 0x13 boardSources0207).dev.wireIn
          (if (5 : Int) ≤ 3 then OkEndPoint.WireInDataStreamSel1234
           else OkEndPoint.WireInDataStreamSel5678))
        = if q = ((5 : Int) % 4).toNat then 0x13 % 16
          else portField q (boardSources0207.dev.wireIn
            (if (5 : Int) ≤ 3 then OkEndPoint.WireInDataStreamSel1234
             else OkEndPoint.WireInDataStreamSel5678))) ∧
    setDataSource 8 1 boardSources0207 = boardSources0207 :=
  ⟨by decide, by decide,
   ((C20_setDataSource_field 5 0x13 boardSources0207).1 (by decide)).1,
   (C20_setDataSource_field 8 1 boardSources0207).2 (by decide)⟩

/-- Two 16-bit halves compose to `msb * 65536 + lsb` without overflow of the
32-bit sum. -/
theorem compose_halves (msb lsb : Nat) (hm : msb < 65536) (hl : lsb < 65536) :
    ((msb <<< 16) + lsb) % 4294967296 = msb * 65536 + lsb := by
  rw [Nat.shiftLeft_eq]
  have h16 : (2 : Nat) ^ 16 = 65536 := by norm_num
  rw [h16]
  apply Nat.mod_eq_of_lt
  omega

/-- C21: `numWordsInFifo()` makes exactly one transport call, one
`UpdateWireOuts`, and both halves are read from that one snapshot; when the
two wires of the snapshot hold 16-bit values `msb` and `lsb`, the result is
`msb * 65536 + lsb`; the result is below `2^32`. -/
theorem C21_numWordsInFifo_compose (hw : Hardware) (b : Rhd2000EvalBoard)
    (hm : hw.wireOuts (b.dev.log ++ [TransportOp.UpdateWireOuts]) OkEndPoint.WireOutNumWordsMsb
      < 65536)
    (hl : hw.wireOuts (b.dev.log ++ [TransportOp.UpdateWireOuts]) OkEndPoint.WireOutNumWordsLsb
      < 65536) :
    (numWordsInFifo hw b).1
      = hw.wireOuts (b.dev.log ++ [TransportOp.UpdateWireOuts]) OkEndPoint.WireOutNumWordsMsb
          * 65536
        + hw.wireOuts (b.dev.log ++ [TransportOp.UpdateWireOuts]) OkEndPoint.WireOutNumWordsLsb ∧
    (numWordsInFifo hw b).2.dev.log = b.dev.log ++ [TransportOp.UpdateWireOuts] ∧
    (numWordsInFifo hw b).2.dev.wireOut
      = hw.wireOuts (b.dev.log ++ [TransportOp.UpdateWireOuts]) ∧
    (numWordsInFifo hw b).1 < 4294967296 :=
  ⟨compose_halves _ _ hm hl, rfl, rfl, numWordsInFifo_lt hw b⟩

/-- C21, instance: a snapshot with `Msb = 2` and `Lsb = 3000` gives
`2 * 65536 + 3000 = 134072` words. -/
theorem C21_numWordsInFifo_compose_witness :
    (numWordsInFifo
        { wireOuts := fun _ ep =>
            if ep = OkEndPoint.WireOutNumWordsMsb then 2
            else if ep = OkEndPoint.WireOutNumWordsLsb then 3000 else 0
          pipeOut := fun _ _ => 0 }
        (ctor idleDevice [])).1 = 134072 :=
  (C21_numWordsInFifo_compose
    { wireOuts := fun _ ep =>
        if ep = OkEndPoint.WireOutNumWordsMsb then 2
        else if ep = OkEndPoint.WireOutNumWordsLsb then 3000 else 0
      pipeOut := fun _ _ => 0 }
    (ctor idleDevice []) (by decide) (by decide)).1

/-- The wire values after `selectAuxCommandLength` for a valid slot and
indices in range: the loop register holds `loopIndex`, the length register
holds `endIndex`, every other wire is kept. -/
theorem selectAuxCommandLength_wireIn (slot : AuxCmdSlot) (wl we : OkEndPoint)
    (loopIndex endIndex : Int) (b : Rhd2000EvalBoard)
    (hl : auxCmdLoopWire slot = some wl) (he : auxCmdLengthWire slot = some we)
    (hloop : 0 ≤ loopIndex ∧ loopIndex ≤ 1023) (hend : 0 ≤ endIndex ∧ endIndex ≤ 1023)
    (e : OkEndPoint) :
    (selectAuxCommandLength slot loopIndex endIndex b).dev.wireIn e
      = if e = we then endIndex.toNat else if e = wl then loopIndex.toNat
        else b.dev.wireIn e := by
  have h1 : ¬ (loopIndex < 0 ∨ loopIndex > 1023) := by omega
  have h2 : ¬ (endIndex < 0 ∨ endIndex > 1023) := by omega
  have c1 : toUINT32 loopIndex % 4294967296 = loopIndex.toNat := by
    rw [toUINT32_of_nonneg loopIndex hloop.1 (by omega)]
    exact Nat.mod_eq_of_lt (by omega)
  have c2 : toUINT32 endIndex % 4294967296 = endIndex.toNat := by
    rw [toUINT32_of_nonneg endIndex hend.1 (by omega)]
    exact Nat.mod_eq_of_lt (by omega)
  cases slot with
  | AuxCmd1 =>
    cases hl; cases he
    simp only [selectAuxCommandLength, h1, h2, okCFrontPanel.SetWireInValue,
      okCFrontPanel.UpdateWireIns, maskedWrite_full, c1, c2]
    by_cases hw1 : e = OkEndPoint.WireInAuxCmdLength1 <;>
      by_cases hw2 : e = OkEndPoint.WireInAuxCmdLoop1 <;> simp [hw1, hw2]
  | AuxCmd2 =>
    cases hl; cases he
    simp only [selectAuxCommandLength, h1, h2, okCFrontPanel.SetWireInValue,
      okCFrontPanel.UpdateWireIns, maskedWrite_full, c1, c2]
    by_cases hw1 : e = OkEndPoint.WireInAuxCmdLength2 <;>
      by_cases hw2 : e = OkEndPoint.WireInAuxCmdLoop2 <;> simp [hw1, hw2]
  | AuxCmd3 =>
    cases hl; cases he
    simp only [selectAuxCommandLength, h1, h2, okCFrontPanel.SetWireInValue,
      okCFrontPanel.UpdateWireIns, maskedWrite_full, c1, c2]
    by_cases hw1 : e = OkEndPoint.WireInAuxCmdLength3 <;>
      by_cases hw2 : e = OkEndPoint.WireInAuxCmdLoop3 <;> simp [hw1, hw2]
  | invalid raw => cases hl

/-- The loop and length registers of two different slots are different
wires. -/
theorem auxCmd_wires_distinct (slot other : AuxCmdSlot) (wl we w : OkEndPoint)
    (hl : auxCmdLoopWire slot = some wl) (he : auxCmdLengthWire slot = some we)
    (hother : other ≠ slot)
    (hwire : auxCmdLoopWire other = some w ∨ auxCmdLengthWire other = some w) :
    w ≠ wl ∧ w ≠ we := by
  cases slot <;> cases other <;>
    first
    | exact absurd rfl hother
    | (cases hl; done)
    | (cases hl; cases he; rcases hwire with h | h <;> cases h <;> exact ⟨by decide, by decide⟩)

/-- C24: for a slot among `AuxCmd1..3` with loop register `wl` and length
register `we`, and `loopIndex`, `endIndex` in [0,1023] (in any order),
`selectAuxCommandLength` leaves `loopIndex` in `wl` and `endIndex` in `we` and
every other wire as it was; in particular the loop and length registers of the
other two slots are unchanged. -/
theorem C24_selectAuxCommandLength_sets (slot : AuxCmdSlot) (wl we : OkEndPoint)
    (loopIndex endIndex : Int) (b : Rhd2000EvalBoard)
    (hl : auxCmdLoopWire slot = some wl) (he : auxCmdLengthWire slot = some we)
    (hloop : 0 ≤ loopIndex ∧ loopIndex ≤ 1023) (hend : 0 ≤ endIndex ∧ endIndex ≤ 1023) :
    (selectAuxCommandLength slot loopIndex endIndex b).dev.wireIn wl = loopIndex.toNat ∧
    (selectAuxCommandLength slot loopIndex endIndex b).dev.wireIn we = endIndex.toNat ∧
    (∀ e : OkEndPoint, e ≠ wl → e ≠ we →
      (selectAuxCommandLength slot loopIndex endIndex b).dev.wireIn e = b.dev.wireIn e) ∧
    (∀ (other : AuxCmdSlot) (w : OkEndPoint), other ≠ slot →
      (auxCmdLoopWire other = some w ∨ auxCmdLengthWire other = some w) →
      (selectAuxCommandLength slot loopIndex endIndex b).dev.wireIn w = b.dev.wireIn w) := by
  have hw := selectAuxCommandLength_wireIn slot wl we loopIndex endIndex b hl he hloop hend
  have hne : wl ≠ we := by
    cases slot <;> cases hl <;> cases he <;> decide
  refine ⟨?_, ?_, ?_, ?_⟩
  · rw [hw wl, if_neg hne, if_pos rfl]
  · rw [hw we, if_pos rfl]
  · intro e h1 h2
    rw [hw e, if_neg h2, if_neg h1]
  · intro other w hother hwire
    obtain ⟨h1, h2⟩ := auxCmd_wires_distinct slot other wl we w hl he hother hwire
    rw [hw w, if_neg h2, if_neg h1]

/-- C24, instance: `selectAuxCommandLength(AuxCmd2, 700, 59)` (loop index
above end index) leaves 700 in `WireInAuxCmdLoop2` and 59 in
`WireInAuxCmdLength2`. -/
theorem C24_selectAuxCommandLength_sets_witness :
    (selectAuxCommandLength AuxCmdSlot.AuxCmd2 700 59 (ctor idleDevice [])).dev.wireIn
        OkEndPoint.WireInAuxCmdLoop2 = (700 : Int).toNat ∧
    (selectAuxCommandLength AuxCmdSlot.AuxCmd2 700 59 (ctor idleDevice [])).dev.wireIn
        OkEndPoint.WireInAuxCmdLength2 = (59 : Int).toNat :=
  ⟨(C24_selectAuxCommandLength_sets AuxCmdSlot.AuxCmd2 OkEndPoint.WireInAuxCmdLoop2
      OkEndPoint.WireInAuxCmdLength2 700 59 (ctor idleDevice []) rfl rfl (by decide)
      (by decide)).1,
   (C24_selectAuxCommandLength_sets AuxCmdSlot.AuxCmd2 OkEndPoint.WireInAuxCmdLoop2
      OkEndPoint.WireInAuxCmdLength2 700 59 (ctor idleDevice []) rfl rfl (by decide)
      (by decide)).2.1⟩

/-- The wire values after `setCableDelay` with a delay in [0,15]: one masked
write to `WireInMisoDelay`. -/
theorem setCableDelay_wireIn (port : BoardPort) (delay : Int) (b : Rhd2000EvalBoard)
    (hd : 0 ≤ delay ∧ delay ≤ 15) (e : OkEndPoint) :
    (setCableDelay port delay b).dev.wireIn e
      = if e = OkEndPoint.WireInMisoDelay then
          maskedWrite (b.dev.wireIn OkEndPoint.WireInMisoDelay) (delay.toNat <<< portBitShift port)
            (0x000f <<< portBitShift port)
        else b.dev.wireIn e := by
  have h : ¬ (delay < 0 ∨ delay > 15) := by omega
  simp only [setCableDelay, if_neg h, okCFrontPanel.SetWireInValue, okCFrontPanel.UpdateWireIns]

/-- The effect of `setCableDelay` with a delay in [0,15] on the fields and
bits of `WireInMisoDelay` and on the other wires. -/
theorem setCableDelay_field (port : BoardPort) (delay : Int) (b : Rhd2000EvalBoard)
    (hd : 0 ≤ delay ∧ delay ≤ 15) :
    (b.dev.wireIn OkEndPoint.WireInMisoDelay < 4294967296 →
      ∀ i : Nat, ((setCableDelay port delay b).dev.wireIn OkEndPoint.WireInMisoDelay).testBit i
        = if 4 * portIndex port ≤ i ∧ i < 4 * portIndex port + 4
          then delay.toNat.testBit (i - 4 * portIndex port)
          else (b.dev.wireIn OkEndPoint.WireInMisoDelay).testBit i) ∧
    (∀ q : BoardPort,
      portField (portIndex q) ((setCableDelay port delay b).dev.wireIn OkEndPoint.WireInMisoDelay)
        = if q = port then delay.toNat
          else portField (portIndex q) (b.dev.wireIn OkEndPoint.WireInMisoDelay)) ∧
    (∀ e : OkEndPoint, e ≠ OkEndPoint.WireInMisoDelay →
      (setCableDelay port delay b).dev.wireIn e = b.dev.wireIn e) := by
  have hv : delay.toNat < 16 := by omega
  have hw := setCableDelay_wireIn port delay b hd
  refine ⟨?_, ?_, ?_⟩
  · intro hreg i
    rw [hw _, if_pos rfl, portBitShift_eq]
    exact testBit_maskedWrite_field _ delay.toNat (4 * portIndex port) i hreg
      (by have := portIndex_le port; omega)
  · intro q
    rw [hw _, if_pos rfl, portBitShift_eq,
      portField_maskedWrite _ delay.toNat (portIndex port) (portIndex q) hv
        (portIndex_le port) (portIndex_le q)]
    by_cases hq : q = port
    · rw [if_pos hq, if_pos (by rw [hq])]
    · rw [if_neg hq, if_neg (fun h => hq ((portIndex_inj port q).mp h))]
  · intro e he
    rw [hw e, if_neg he]

/-- C25: for a port and a delay in [0,15], `setCableDelay` leaves
`WireInMisoDelay` (a 32-bit word) with bits `4*p .. 4*p+3` of the port
replaced by the delay and every other bit as it was: the field of the port is
the delay, the delays of the other three ports are unchanged, and so is every
other wire. -/
theorem C25_setCableDelay_field (port : BoardPort) (delay : Int) (b : Rhd2000EvalBoard)
    (hd : 0 ≤ delay ∧ delay ≤ 15)
    (hreg : b.dev.wireIn OkEndPoint.WireInMisoDelay < 4294967296) :
    (∀ i : Nat, ((setCableDelay port delay b).dev.wireIn OkEndPoint.WireInMisoDelay).testBit i
        = if 4 * portIndex port ≤ i ∧ i < 4 * portIndex port + 4
          then delay.toNat.testBit (i - 4 * portIndex port)
          else (b.dev.wireIn OkEndPoint.WireInMisoDelay).testBit i) ∧
    (∀ q : BoardPort,
      portField (portIndex q) ((setCableDelay port delay b).dev.wireIn OkEndPoint.WireInMisoDelay)
        = if q = port then delay.toNat
          else portField (portIndex q) (b.dev.wireIn OkEndPoint.WireInMisoDelay)) ∧
    (∀ e : OkEndPoint, e ≠ OkEndPoint.WireInMisoDelay →
      (setCableDelay port delay b).dev.wireIn e = b.dev.wireIn e) :=
  ⟨(setCableDelay_field port delay b hd).1 hreg, (setCableDelay_field port delay b hd).2.1,
   (setCableDelay_field port delay b hd).2.2⟩

/-- C25, instance: with delays 4, 3, 2, 1 on ports A, B, C, D (register
`0x1234`), `setCableDelay(PortB, 9)` gives `0x1294`. -/
theorem C25_setCableDelay_field_witness :
    boardDelays1234.dev.wireIn OkEndPoint.WireInMisoDelay = 0x1234 ∧
    (setCableDelay BoardPort.PortB 9 boardDelays1234).dev.wireIn OkEndPoint.WireInMisoDelay
      = 0x1294 ∧
    (∀ q : BoardPort,
      portField (portIndex q)
          ((setCableDelay BoardPort.PortB 9 boardDelays1234).dev.wireIn
            OkEndPoint.WireInMisoDelay)
        = if q = BoardPort.PortB then (9 : Int).toNat
          else portField (portIndex q)
            (boardDelays1234.dev.wireIn OkEndPoint.WireInMisoDelay)) :=
  ⟨by decide, by decide,
   (C25_setCableDelay_field BoardPort.PortB 9 boardDelays1234 (by decide) (by decide)).2.1⟩

/-- Writing one entry leaves the other entries as they were. -/
theorem StreamArray_get_set_ne (a : StreamArray) (i j : Nat) (v : Int) (h : i ≠ j) :
    (a.set i v).get j = a.get j := by
  unfold StreamArray.get StreamArray.set
  simp only [List.getD_eq_getElem?_getD]
  rw [List.getElem?_set_ne h]

/-- An index past the end of the array reads as 0. -/
theorem StreamArray_get_of_le (a : StreamArray) (j : Nat) (h : MAX_NUM_DATA_STREAMS ≤ j) :
    a.get j = 0 := by
  unfold StreamArray.get
  rw [List.getD_eq_default]
  rw [a.property]; exact h

/-- The bits of the value and mask `0x0001 << s`. -/
theorem testBit_one_shift (s i : Nat) : ((0x0001 : Nat) <<< s).testBit i = decide (i = s) := by
  have h1 : (0x0001 : Nat) = 2 ^ 1 - 1 := by norm_num
  rw [h1, Nat.testBit_shiftLeft, Nat.testBit_two_pow_sub_one]
  by_cases h : i = s
  · subst h; simp
  · by_cases h2 : s ≤ i
    · have : ¬ i - s < 1 := by omega
      simp [h, h2, this]
    · simp [h, h2]

/-- The number of indices at which a list holds 1 is its number of ones. -/
theorem countP_range_getD (l : List Int) :
    (List.range l.length).countP (fun s => decide (l.getD s 0 = 1)) = l.count 1 := by
  induction l with
  | nil => rfl
  | cons a t ih =>
    rw [List.length_cons, List.range_succ_eq_map, List.countP_cons, List.countP_map,
      List.count_cons]
    have hfun : ((fun s => decide ((a :: t).getD s 0 = 1)) ∘ Nat.succ)
        = (fun s => decide (t.getD s 0 = 1)) := by
      funext s
      simp
    rw [hfun, ih]
    by_cases ha : a = 1
    · simp [ha]
    · simp [ha]

/-- Bit `i` of `WireInDataStreamEn` after a write of `v << s` under the mask
`0x0001 << s`, for a stream `s` of the array. -/
theorem testBit_enable_write (old v s i : Nat) (hs : s < MAX_NUM_DATA_STREAMS)
    (hold : ∀ j, 32 ≤ j → old.testBit j = false) :
    (maskedWrite old (v <<< s) (0x0001 <<< s)).testBit i
      = if i = s then v.testBit 0 else old.testBit i := by
  have hmask : (0x0001 : Nat) <<< s < 4294967296 := by
    rw [Nat.shiftLeft_eq, Nat.one_mul]
    have hs7 : s ≤ 7 := by unfold MAX_NUM_DATA_STREAMS at hs; omega
    calc 2 ^ s ≤ 2 ^ 7 := Nat.pow_le_pow_right (by norm_num) hs7
      _ < 4294967296 := by norm_num
  by_cases hi : i < 32
  · rw [testBit_maskedWrite_low old _ _ i hmask hi, testBit_one_shift, Nat.testBit_shiftLeft]
    by_cases h : i = s
    · subst h; simp
    · simp [h]
  · have hne : i ≠ s := by unfold MAX_NUM_DATA_STREAMS at hs; omega
    rw [testBit_maskedWrite_high old _ _ i (by omega), if_neg hne, hold i (by omega)]

/-- One `enableDataStream` call keeps the register/bitmap invariant. -/
theorem enableDataStream_regInv (stream : Int) (enabled : Bool) (b : Rhd2000EvalBoard)
    (hb : EnableRegInv b) : EnableRegInv (enableDataStream stream enabled b) := by
  have hold : ∀ j, 32 ≤ j → (b.dev.wireIn OkEndPoint.WireInDataStreamEn).testBit j = false := by
    intro j hj
    rw [hb j, StreamArray_get_of_le _ j (by unfold MAX_NUM_DATA_STREAMS; omega)]
    rfl
  unfold enableDataStream
  by_cases hr : stream < 0 ∨ stream > (MAX_NUM_DATA_STREAMS : Int) - 1
  · rw [if_pos hr]; exact hb
  · rw [if_neg hr]
    have hlt := toNat_lt_length b.dataStreamEnabled stream hr
    have hs : stream.toNat < MAX_NUM_DATA_STREAMS := by
      rw [b.dataStreamEnabled.property] at hlt; exact hlt
    cases enabled
    · by_cases h1 : b.dataStreamEnabled.get stream.toNat = 1
      · simp only [h1, if_true, Bool.false_eq_true, if_false]
        intro s
        show (maskedWrite _ _ _).testBit s
          = decide ((b.dataStreamEnabled.set stream.toNat 0).get s = 1)
        rw [testBit_enable_write _ 0 stream.toNat s hs hold]
        by_cases hsi : s = stream.toNat
        · subst hsi
          rw [if_pos rfl, StreamArray_get_set _ _ _ hlt]
          rfl
        · rw [if_neg hsi, StreamArray_get_set_ne _ _ _ _ (fun h => hsi h.symm)]
          exact hb s
      · simp only [h1, if_false, Bool.false_eq_true]
        exact hb
    · by_cases h0 : b.dataStreamEnabled.get stream.toNat = 0
      · simp only [h0, if_true]
        intro s
        show (maskedWrite _ _ _).testBit s
          = decide ((b.dataStreamEnabled.set stream.toNat 1).get s = 1)
        rw [testBit_enable_write _ 1 stream.toNat s hs hold]
        by_cases hsi : s = stream.toNat
        · subst hsi
          rw [if_pos rfl, StreamArray_get_set _ _ _ hlt]
          rfl
        · rw [if_neg hsi, StreamArray_get_set_ne _ _ _ _ (fun h => hsi h.symm)]
          exact hb s
      · simp only [h0, if_false]
        exact hb

/-- A sequence of `enableDataStream` calls keeps the register/bitmap
invariant. -/
theorem enableDataStreamCalls_regInv (calls : List (Int × Bool)) (b : Rhd2000EvalBoard)
    (hb : EnableRegInv b) : EnableRegInv (enableDataStreamCalls calls b) := by
  induction calls generalizing b with
  | nil => exact hb
  | cons c cs ih =>
    exact ih (enableDataStream c.1 c.2 b) (enableDataStream_regInv c.1 c.2 b hb)

/-- Under both invariants the number of set bits among the lowest
`MAX_NUM_DATA_STREAMS` bits of `WireInDataStreamEn` is the maintained count. -/
theorem setBits_eq_count (b : Rhd2000EvalBoard) (hreg : EnableRegInv b) (hinv : StreamInv b) :
    (setBits MAX_NUM_DATA_STREAMS (b.dev.wireIn OkEndPoint.WireInDataStreamEn) : Int)
      = getNumEnabledDataStreams b := by
  unfold setBits getNumEnabledDataStreams
  rw [hinv.2]
  have hfun : (fun s => (b.dev.wireIn OkEndPoint.WireInDataStreamEn).testBit s)
      = (fun s => decide (b.dataStreamEnabled.val.getD s 0 = 1)) := by
    funext s
    exact hreg s
  have hcount := countP_range_getD b.dataStreamEnabled.val
  rw [b.dataStreamEnabled.property] at hcount
  rw [hfun, hcount]

/-- The constructor state over a device whose `WireInDataStreamEn` is 0
satisfies the register/bitmap invariant. -/
theorem ctor_regInv (dev : okCFrontPanel) (usbBuffer : List Nat)
    (h0 : dev.wireIn OkEndPoint.WireInDataStreamEn = 0) : EnableRegInv (ctor dev usbBuffer) := by
  intro s
  show (dev.wireIn OkEndPoint.WireInDataStreamEn).testBit s
    = decide ((List.replicate MAX_NUM_DATA_STREAMS (0 : Int)).getD s 0 = 1)
  rw [h0, Nat.zero_testBit]
  have hget : (List.replicate MAX_NUM_DATA_STREAMS (0 : Int)).getD s 0 = 0 := by
    by_cases hs : s < MAX_NUM_DATA_STREAMS
    · rw [List.getD_eq_getElem _ _ (by rw [List.length_replicate]; exact hs)]
      exact List.getElem_replicate _ _
    · rw [List.getD_eq_default]
      rw [List.length_replicate]; omega
  rw [hget]
  rfl

/-- C29: when `WireInDataStreamEn` is 0 in the constructor state, then after
any finite sequence of `enableDataStream` calls bit `s` of the register is set
exactly when `dataStreamEnabled[s]` is 1, for every `s` below
`MAX_NUM_DATA_STREAMS`; no higher bit is set; and the number of set bits of
the register is `getNumEnabledDataStreams()`. -/
theorem C29_enable_register_matches_bitmap (dev : okCFrontPanel) (usbBuffer : List Nat)
    (calls : List (Int × Bool)) (h0 : dev.wireIn OkEndPoint.WireInDataStreamEn = 0) :
    (∀ s : Nat, s < MAX_NUM_DATA_STREAMS →
      ((enableDataStreamCalls calls (ctor dev usbBuffer)).dev.wireIn
          OkEndPoint.WireInDataStreamEn).testBit s
        = decide ((enableDataStreamCalls calls (ctor dev usbBuffer)).dataStreamEnabled.get s
            = 1)) ∧
    (∀ s : Nat, MAX_NUM_DATA_STREAMS ≤ s →
      ((enableDataStreamCalls calls (ctor dev usbBuffer)).dev.wireIn
          OkEndPoint.WireInDataStreamEn).testBit s = false) ∧
    (setBits MAX_NUM_DATA_STREAMS
        ((enableDataStreamCalls calls (ctor dev usbBuffer)).dev.wireIn
          OkEndPoint.WireInDataStreamEn) : Int)
      = getNumEnabledDataStreams (enableDataStreamCalls calls (ctor dev usbBuffer)) := by
  have hreg := enableDataStreamCalls_regInv calls (ctor dev usbBuffer)
    (ctor_regInv dev usbBuffer h0)
  have hinv := enableDataStreamCalls_inv calls (ctor dev usbBuffer) (ctor_inv dev usbBuffer)
  refine ⟨fun s _ => hreg s, fun s hs => ?_, setBits_eq_count _ hreg hinv⟩
  rw [hreg s, StreamArray_get_of_le _ s hs]
  rfl

/-- C29, instance: after enabling streams 0 and 3, a rejected call on stream
9 and disabling stream 0, the register holds `0x08` and one stream is
enabled. -/
theorem C29_enable_register_matches_bitmap_witness :
    (enableDataStreamCalls [(0, true), (3, true), (9, true), (0, false)]
        (ctor idleDevice [])).dev.wireIn OkEndPoint.WireInDataStreamEn = 0x08 ∧
    (setBits MAX_NUM_DATA_STREAMS
        ((enableDataStreamCalls [(0, true), (3, true), (9, true), (0, false)]
          (ctor idleDevice [])).dev.wireIn OkEndPoint.WireInDataStreamEn) : Int)
      = getNumEnabledDataStreams
          (enableDataStreamCalls [(0, true), (3, true), (9, true), (0, false)]
            (ctor idleDevice [])) :=
  ⟨by decide,
   (C29_enable_register_matches_bitmap idleDevice []
      [(0, true), (3, true), (9, true), (0, false)] rfl).2.2⟩

/-- An `enableDataStream` call on stream `s` leaves every other entry of
`dataStreamEnabled` as it was. -/
theorem enableDataStream_get_other (stream : Int) (enabled : Bool) (b : Rhd2000EvalBoard)
    (j : Nat) (hj : j ≠ stream.toNat) :
    (enableDataStream stream enabled b).dataStreamEnabled.get j = b.dataStreamEnabled.get j := by
  unfold enableDataStream
  split_ifs
  · rfl
  · exact StreamArray_get_set_ne _ _ _ _ (fun h => hj h.symm)
  · rfl
  · exact StreamArray_get_set_ne _ _ _ _ (fun h => hj h.symm)
  · rfl

/-- Under the count/bitmap invariant an entry inside the array is 0 or 1. -/
theorem StreamInv_get (b : Rhd2000EvalBoard) (hb : StreamInv b) (j : Nat)
    (hj : j < b.dataStreamEnabled.val.length) :
    b.dataStreamEnabled.get j = 0 ∨ b.dataStreamEnabled.get j = 1 := by
  unfold StreamArray.get
  rw [List.getD_eq_getElem _ _ hj]
  exact hb.1 _ (List.getElem_mem hj)

/-- Under the invariant, enabling a stream of the array leaves its entry at 1. -/
theorem enableDataStream_true_get (stream : Int) (b : Rhd2000EvalBoard) (hb : StreamInv b)
    (hr : ¬ (stream < 0 ∨ stream > (MAX_NUM_DATA_STREAMS : Int) - 1)) :
    (enableDataStream stream true b).dataStreamEnabled.get stream.toNat = 1 := by
  have hlt := toNat_lt_length b.dataStreamEnabled stream hr
  unfold enableDataStream
  rw [if_neg hr]
  by_cases h0 : b.dataStreamEnabled.get stream.toNat = 0
  · simp only [h0, if_true]
    exact StreamArray_get_set _ _ _ hlt
  · simp only [h0, if_false, if_true]
    rcases StreamInv_get b hb stream.toNat hlt with h | h
    · exact absurd h h0
    · exact h

/-- Disabling a stream leaves every entry that was 0 at 0, and, under the
invariant, the entry of a stream of the array at 0. -/
theorem enableDataStream_false_get (stream : Int) (b : Rhd2000EvalBoard) :
    (∀ j : Nat, b.dataStreamEnabled.get j = 0 →
      (enableDataStream stream false b).dataStreamEnabled.get j = 0) ∧
    (StreamInv b → ¬ (stream < 0 ∨ stream > (MAX_NUM_DATA_STREAMS : Int) - 1) →
      (enableDataStream stream false b).dataStreamEnabled.get stream.toNat = 0) := by
  refine ⟨fun j hj => ?_, fun hb hr => ?_⟩
  · by_cases hjs : j = stream.toNat
    · subst hjs
      unfold enableDataStream
      by_cases hr : stream < 0 ∨ stream > (MAX_NUM_DATA_STREAMS : Int) - 1
      · rw [if_pos hr]; exact hj
      · rw [if_neg hr]
        have h1 : ¬ b.dataStreamEnabled.get stream.toNat = 1 := by omega
        simp only [h1, if_false, Bool.false_eq_true]
        exact hj
    · rw [enableDataStream_get_other stream false b j hjs]; exact hj
  · have hlt := toNat_lt_length b.dataStreamEnabled stream hr
    unfold enableDataStream
    rw [if_neg hr]
    by_cases h1 : b.dataStreamEnabled.get stream.toNat = 1
    · simp only [h1, if_true, Bool.false_eq_true, if_false]
      exact StreamArray_get_set _ _ _ hlt
    · simp only [h1, if_false, Bool.false_eq_true]
      rcases StreamInv_get b hb stream.toNat hlt with h | h
      · exact h
      · exact absurd h h1

/-- The disable loop of `initialize()` from index `i >= 1`, with all its
indices inside the array: it keeps the invariant, keeps entry 0 and every
entry that was 0, and leaves the entries `i .. i+k-1` at 0. -/
theorem initializeStreamLoop_spec :
    ∀ (k : Nat) (i : Int) (b : Rhd2000EvalBoard), 1 ≤ i →
      i + (k : Int) ≤ (MAX_NUM_DATA_STREAMS : Int) → StreamInv b →
      StreamInv (initializeStreamLoop k i b) ∧
      (initializeStreamLoop k i b).dataStreamEnabled.get 0 = b.dataStreamEnabled.get 0 ∧
      (∀ j : Nat, b.dataStreamEnabled.get j = 0 →
        (initializeStreamLoop k i b).dataStreamEnabled.get j = 0) ∧
      (∀ j : Nat, i.toNat ≤ j → j < i.toNat + k →
        (initializeStreamLoop k i b).dataStreamEnabled.get j = 0) := by
  intro k
  induction k with
  | zero =>
    intro i b _ _ hb
    exact ⟨hb, rfl, fun _ h => h, fun j h1 h2 => by omega⟩
  | succ n ih =>
    intro i b hi hmax hb
    have hr : ¬ (i < 0 ∨ i > (MAX_NUM_DATA_STREAMS : Int) - 1) := by omega
    have hstep := enableDataStream_inv i false b hb
    obtain ⟨h1, h2, h3, h4⟩ := ih (i + 1) (enableDataStream i false b) (by omega)
      (by push_cast at hmax ⊢; omega) hstep
    have hz := enableDataStream_false_get i b
    unfold initializeStreamLoop
    refine ⟨h1, ?_, ?_, ?_⟩
    · rw [h2]
      exact enableDataStream_get_other i false b 0 (by omega)
    · intro j hj
      exact h3 j (hz.1 j hj)
    · intro j hj1 hj2
      by_cases hji : j = i.toNat
      · subst hji
        exact h3 _ (hz.2 hb hr)
      · exact h4 j (by omega) (by omega)

/-- An array whose entry 0 is 1 and whose other entries are 0 holds exactly
one 1. -/
theorem count_one_of_only_first (a : StreamArray) (h0 : a.get 0 = 1)
    (hrest : ∀ j : Nat, 1 ≤ j → j < MAX_NUM_DATA_STREAMS → a.get j = 0) :
    a.val = 1 :: List.replicate (MAX_NUM_DATA_STREAMS - 1) 0 ∧ a.val.count 1 = 1 := by
  have hlen := a.property
  have heq : a.val = 1 :: List.replicate (MAX_NUM_DATA_STREAMS - 1) 0 := by
    apply List.ext_getElem
    · rw [hlen]; rfl
    · intro n hn1 hn2
      have hget : a.val[n] = a.get n := by
        unfold StreamArray.get
        rw [List.getD_eq_getElem _ _ hn1]
      rw [hget]
      cases n with
      | zero => rw [h0]; rfl
      | succ m =>
        rw [hrest (m + 1) (by omega) (by rw [← hlen]; exact hn1)]
        simp
  refine ⟨heq, ?_⟩
  rw [heq]
  decide

/-- The two stream steps of `initialize()` from a state that satisfies the
count/bitmap invariant leave exactly stream 0 enabled. -/
theorem initializeStreams_spec (b : Rhd2000EvalBoard) (hb : StreamInv b) :
    (initializeStreams b).dataStreamEnabled.get 0 = 1 ∧
    (∀ j : Nat, 1 ≤ j → j < MAX_NUM_DATA_STREAMS →
      (initializeStreams b).dataStreamEnabled.get j = 0) ∧
    (initializeStreams b).numDataStreams = 1 := by
  have hmax : MAX_NUM_DATA_STREAMS = 8 := rfl
  have hr0 : ¬ ((0 : Int) < 0 ∨ (0 : Int) > (MAX_NUM_DATA_STREAMS : Int) - 1) := by
    rw [hmax]; omega
  have ha1 : (1 : Int) ≤ 1 := le_refl _
  have ha2 : (1 : Int) + ((MAX_NUM_DATA_STREAMS - 1 : Nat) : Int) ≤ (MAX_NUM_DATA_STREAMS : Int) := by
    rw [hmax]; decide
  have ha3 : ∀ j : Nat, j < MAX_NUM_DATA_STREAMS → j < 1 + (MAX_NUM_DATA_STREAMS - 1) := by
    intro j hj; rw [hmax] at hj ⊢; omega
  have e1 : (1 : Int).toNat = 1 := rfl
  have hb1 := enableDataStream_inv 0 true b hb
  have hget0 : (enableDataStream 0 true b).dataStreamEnabled.get 0 = 1 :=
    enableDataStream_true_get 0 b hb hr0
  have hloop := initializeStreamLoop_spec (MAX_NUM_DATA_STREAMS - 1) 1
    (enableDataStream 0 true b) ha1 ha2 hb1
  rw [e1] at hloop
  have hdef : initializeStreamLoop (MAX_NUM_DATA_STREAMS - 1) 1 (enableDataStream 0 true b)
      = initializeStreams b := by
    unfold initializeStreams
    rfl
  rw [hdef] at hloop
  have hfirst : (initializeStreams b).dataStreamEnabled.get 0 = 1 :=
    hloop.2.1.trans hget0
  have hrest : ∀ j : Nat, 1 ≤ j → j < MAX_NUM_DATA_STREAMS →
      (initializeStreams b).dataStreamEnabled.get j = 0 :=
    fun j hj1 hj2 => hloop.2.2.2 j hj1 (ha3 j hj2)
  have hcount := (count_one_of_only_first _ hfirst hrest).2
  have hnum : (initializeStreams b).numDataStreams
      = ((initializeStreams b).dataStreamEnabled.val.count 1 : Nat) := hloop.1.2
  exact ⟨hfirst, hrest, by rw [hnum, hcount]; rfl⟩

/-- `selectAuxCommandBank` keeps the stream bitmap and count. -/
theorem streams_selectAuxCommandBank (port : BoardPort) (slot : AuxCmdSlot) (bank : Int)
    (b : Rhd2000EvalBoard) :
    (selectAuxCommandBank port slot bank b).dataStreamEnabled = b.dataStreamEnabled ∧
    (selectAuxCommandBank port slot bank b).numDataStreams = b.numDataStreams := by
  unfold selectAuxCommandBank
  split_ifs <;> exact ⟨rfl, rfl⟩

/-- `selectAuxCommandLength` keeps the stream bitmap and count. -/
theorem streams_selectAuxCommandLength (slot : AuxCmdSlot) (loopIndex endIndex : Int)
    (b : Rhd2000EvalBoard) :
    (selectAuxCommandLength slot loopIndex endIndex b).dataStreamEnabled = b.dataStreamEnabled ∧
    (selectAuxCommandLength slot loopIndex endIndex b).numDataStreams = b.numDataStreams := by
  unfold selectAuxCommandLength
  split_ifs <;> exact ⟨rfl, rfl⟩

/-- `setContinuousRunMode` keeps the stream bitmap and count. -/
theorem streams_setContinuousRunMode (continuousMode : Bool) (b : Rhd2000EvalBoard) :
    (setContinuousRunMode continuousMode b).dataStreamEnabled = b.dataStreamEnabled ∧
    (setContinuousRunMode continuousMode b).numDataStreams = b.numDataStreams := by
  unfold setContinuousRunMode
  split_ifs <;> exact ⟨rfl, rfl⟩

/-- `setMaxTimeStep` keeps the stream bitmap and count. -/
theorem streams_setMaxTimeStep (maxTimeStep : Nat) (b : Rhd2000EvalBoard) :
    (setMaxTimeStep maxTimeStep b).dataStreamEnabled = b.dataStreamEnabled ∧
    (setMaxTimeStep maxTimeStep b).numDataStreams = b.numDataStreams :=
  ⟨rfl, rfl⟩

/-- `setCableDelay` keeps the stream bitmap and count. -/
theorem streams_setCableDelay (port : BoardPort) (delay : Int) (b : Rhd2000EvalBoard) :
    (setCableDelay port delay b).dataStreamEnabled = b.dataStreamEnabled ∧
    (setCableDelay port delay b).numDataStreams = b.numDataStreams := by
  unfold setCableDelay
  split_ifs <;> exact ⟨rfl, rfl⟩

/-- `setCableLengthFeet` keeps the stream bitmap and count. -/
theorem streams_setCableLengthFeet (port : BoardPort) (lengthInFeet : Double)
    (b b1 : Rhd2000EvalBoard) (h : setCableLengthFeet port lengthInFeet b = some b1) :
    b1.dataStreamEnabled = b.dataStreamEnabled ∧ b1.numDataStreams = b.numDataStreams := by
  unfold setCableLengthFeet setCableLengthMeters at h
  cases hd : setCableLengthMetersDelay b
      (Double.mul (Double.round (3048 / 10000)) lengthInFeet) with
  | none => rw [hd] at h; cases h
  | some d =>
    rw [hd] at h
    simp only [Option.map_some', Option.some.injEq] at h
    rw [← h]
    exact streams_setCableDelay _ _ _

/-- `setDspSettle` keeps the stream bitmap and count. -/
theorem streams_setDspSettle (enabled : Bool) (b : Rhd2000EvalBoard) :
    (setDspSettle enabled b).dataStreamEnabled = b.dataStreamEnabled ∧
    (setDspSettle enabled b).numDataStreams = b.numDataStreams :=
  ⟨rfl, rfl⟩

/-- `setDataSource` keeps the stream bitmap and count. -/
theorem streams_setDataSource (stream : Int) (dataSource : Nat) (b : Rhd2000EvalBoard) :
    (setDataSource stream dataSource b).dataStreamEnabled = b.dataStreamEnabled ∧
    (setDataSource stream dataSource b).numDataStreams = b.numDataStreams := by
  unfold setDataSource
  split_ifs
  · exact ⟨rfl, rfl⟩
  · cases setDataSourceSwitch stream with
    | none => exact ⟨rfl, rfl⟩
    | some p => exact ⟨rfl, rfl⟩

/-- `clearTtlOut` keeps the stream bitmap and count. -/
theorem streams_clearTtlOut (b : Rhd2000EvalBoard) :
    (clearTtlOut b).dataStreamEnabled = b.dataStreamEnabled ∧
    (clearTtlOut b).numDataStreams = b.numDataStreams :=
  ⟨rfl, rfl⟩

/-- `enableDac` keeps the stream bitmap and count. -/
theorem streams_enableDac (dacChannel : Int) (enabled : Bool) (b : Rhd2000EvalBoard) :
    (enableDac dacChannel enabled b).dataStreamEnabled = b.dataStreamEnabled ∧
    (enableDac dacChannel enabled b).numDataStreams = b.numDataStreams := by
  unfold enableDac
  split_ifs <;> exact ⟨rfl, rfl⟩

/-- `selectDacDataStream` keeps the stream bitmap and count. -/
theorem streams_selectDacDataStream (dacChannel stream : Int) (b : Rhd2000EvalBoard) :
    (selectDacDataStream dacChannel stream b).dataStreamEnabled = b.dataStreamEnabled ∧
    (selectDacDataStream dacChannel stream b).numDataStreams = b.numDataStreams := by
  unfold selectDacDataStream
  split_ifs <;> exact ⟨rfl, rfl⟩

/-- `selectDacDataChannel` keeps the stream bitmap and count. -/
theorem streams_selectDacDataChannel (dacChannel dataChannel : Int) (b : Rhd2000EvalBoard) :
    (selectDacDataChannel dacChannel dataChannel b).dataStreamEnabled = b.dataStreamEnabled ∧
    (selectDacDataChannel dacChannel dataChannel b).numDataStreams = b.numDataStreams := by
  unfold selectDacDataChannel
  split_ifs <;> exact ⟨rfl, rfl⟩

/-- `setDacManual` keeps the stream bitmap and count. -/
theorem streams_setDacManual (dac : DacManual) (value : Int) (b : Rhd2000EvalBoard) :
    (setDacManual dac value b).dataStreamEnabled = b.dataStreamEnabled ∧
    (setDacManual dac value b).numDataStreams = b.numDataStreams := by
  unfold setDacManual
  split_ifs <;> exact ⟨rfl, rfl⟩

/-- `setDacGain` keeps the stream bitmap and count. -/
theorem streams_setDacGain (gain : Int) (b : Rhd2000EvalBoard) :
    (setDacGain gain b).dataStreamEnabled = b.dataStreamEnabled ∧
    (setDacGain gain b).numDataStreams = b.numDataStreams := by
  unfold setDacGain
  split_ifs <;> exact ⟨rfl, rfl⟩

/-- `setAudioNoiseSuppress` keeps the stream bitmap and count. -/
theorem streams_setAudioNoiseSuppress (noiseSuppress : Int) (b : Rhd2000EvalBoard) :
    (setAudioNoiseSuppress noiseSuppress b).dataStreamEnabled = b.dataStreamEnabled ∧
    (setAudioNoiseSuppress noiseSuppress b).numDataStreams = b.numDataStreams := by
  unfold setAudioNoiseSuppress
  split_ifs <;> exact ⟨rfl, rfl⟩

/-- The configuration calls of `initialize()` keep the stream bitmap and
count. -/
theorem streams_initializeConfigure (value : BoardDataSource → Nat) (b b1 : Rhd2000EvalBoard)
    (h : initializeConfigure value b = some b1) :
    b1.dataStreamEnabled = b.dataStreamEnabled ∧ b1.numDataStreams = b.numDataStreams := by
  unfold initializeConfigure at h
  simp only [Option.bind_eq_bind, Option.bind_eq_some, Option.pure_def, Option.some.injEq] at h
  obtain ⟨b2, h2, b3, h3, b4, h4, b5, h5, h6⟩ := h
  have s2 := streams_setCableLengthFeet _ _ _ _ h2
  have s3 := streams_setCableLengthFeet _ _ _ _ h3
  have s4 := streams_setCableLengthFeet _ _ _ _ h4
  have s5 := streams_setCableLengthFeet _ _ _ _ h5
  rw [← h6]
  simp only [streams_setDataSource, streams_setDspSettle]
  rw [s5.1, s5.2, s4.1, s4.2, s3.1, s3.2, s2.1, s2.2]
  simp only [streams_selectAuxCommandBank, streams_selectAuxCommandLength,
    streams_setContinuousRunMode, streams_setMaxTimeStep, and_self]

/-- The DAC calls of `initialize()` keep the stream bitmap and count. -/
theorem streams_initializeDacs (b : Rhd2000EvalBoard) :
    (initializeDacs b).dataStreamEnabled = b.dataStreamEnabled ∧
    (initializeDacs b).numDataStreams = b.numDataStreams := by
  unfold initializeDacs
  simp only [streams_clearTtlOut, streams_enableDac, streams_selectDacDataStream,
    streams_selectDacDataChannel, streams_setDacManual, streams_setDacGain,
    streams_setAudioNoiseSuppress, and_self]

/-- Every outcome of `setSampleRate` keeps the stream bitmap and count. -/
theorem streams_setSampleRate (hw : Hardware) (fuel : Nat) (r : AmplifierSampleRate)
    (b : Rhd2000EvalBoard) :
    (setSampleRate hw fuel r b).board.dataStreamEnabled = b.dataStreamEnabled ∧
    (setSampleRate hw fuel r b).board.numDataStreams = b.numDataStreams := by
  unfold setSampleRate
  cases hmd : setSampleRateMD r with
  | none => exact ⟨rfl, rfl⟩
  | some md =>
    obtain ⟨M, D⟩ := md
    dsimp only
    have hf1 := whileNot_preserves (isDcmProgDone hw)
      (fun s => s.dataStreamEnabled = b.dataStreamEnabled ∧ s.numDataStreams = b.numDataStreams)
      (fun _ hs => hs) fuel { b with sampleRate := r } ⟨rfl, rfl⟩
    rcases hw1 : whileNot (isDcmProgDone hw) fuel { b with sampleRate := r } with ⟨o1, b2⟩
    rw [hw1] at hf1
    cases o1 with
    | none => exact hf1
    | some fuel2 =>
      dsimp only
      have hf2 := whileNot_preserves (isDataClockLocked hw)
        (fun s => s.dataStreamEnabled = b.dataStreamEnabled
          ∧ s.numDataStreams = b.numDataStreams)
        (fun _ hs => hs) fuel2
        { b2 with
          dev := ((b2.dev.SetWireInValue OkEndPoint.WireInDataFreqPll (256 * M + D)
                    0xffffffff).UpdateWireIns).ActivateTriggerIn OkEndPoint.TrigInDcmProg 0 }
        hf1
      rcases hw2 : whileNot (isDataClockLocked hw) fuel2
        { b2 with
          dev := ((b2.dev.SetWireInValue OkEndPoint.WireInDataFreqPll (256 * M + D)
                    0xffffffff).UpdateWireIns).ActivateTriggerIn OkEndPoint.TrigInDcmProg 0 }
        with ⟨o2, b4⟩
      rw [hw2] at hf2
      cases o2 with
      | none => exact hf2
      | some fuel3 => exact hf2

/-- The count/bitmap invariant only looks at the stream bitmap and count. -/
theorem StreamInv_of_streams (b b1 : Rhd2000EvalBoard)
    (h : b1.dataStreamEnabled = b.dataStreamEnabled ∧ b1.numDataStreams = b.numDataStreams)
    (hb : StreamInv b) : StreamInv b1 := by
  unfold StreamInv
  rw [h.1, h.2]
  exact hb

/-- C28: from every state that satisfies the count/bitmap invariant, whatever
streams were enabled before, an `initialize()` that has completed leaves
exactly one data stream enabled: `dataStreamEnabled[0]` is 1, the entries
`1 .. MAX_NUM_DATA_STREAMS-1` are 0, and `getNumEnabledDataStreams()` is 1. -/
theorem C28_initialize_one_stream (hw : Hardware) (value : BoardDataSource → Nat) (fuel : Nat)
    (b b1 : Rhd2000EvalBoard) (hinv : StreamInv b)
    (h : initializeBoard hw value fuel b = some b1) :
    b1.dataStreamEnabled.get 0 = 1 ∧
    (∀ i : Nat, 1 ≤ i → i < MAX_NUM_DATA_STREAMS → b1.dataStreamEnabled.get i = 0) ∧
    getNumEnabledDataStreams b1 = 1 := by
  unfold initializeBoard at h
  have hs := streams_setSampleRate hw fuel AmplifierSampleRate.SampleRate30000Hz (resetBoard b)
  cases ho : setSampleRate hw fuel AmplifierSampleRate.SampleRate30000Hz (resetBoard b) with
  | waitingDcmProgDone b2 => rw [ho] at h; cases h
  | waitingDataClockLocked b2 => rw [ho] at h; cases h
  | returned ret b2 =>
    rw [ho] at h hs
    dsimp only at h
    cases hc : initializeConfigure value b2 with
    | none => rw [hc] at h; cases h
    | some b3 =>
      rw [hc] at h
      simp only [Option.map_some', Option.some.injEq] at h
      subst h
      have hinv2 : StreamInv b2 := StreamInv_of_streams b b2 hs hinv
      have hinv3 : StreamInv b3 :=
        StreamInv_of_streams b2 _ (streams_initializeConfigure value b2 b3 hc) hinv2
      have hspec := initializeStreams_spec b3 hinv3
      have hd := streams_initializeDacs (initializeStreams b3)
      unfold getNumEnabledDataStreams
      rw [hd.1, hd.2]
      exact hspec

/-- The run of `initialize()` on a device that is ready at once, started with
streams 0 and 1 enabled, completes. -/
theorem initializeBoard_ready :
    initializeBoard readyHardware sourceValue 2 boardStreams01Enabled = some initializedBoard := by
  have hsome : (initializeBoard readyHardware sourceValue 2 boardStreams01Enabled).isSome
      = true := by
    decide!
  unfold initializedBoard
  cases h : initializeBoard readyHardware sourceValue 2 boardStreams01Enabled with
  | none => rw [h] at hsome; cases hsome
  | some x => rfl

/-- C28, instance: with streams 0 and 1 enabled before, `initialize()` on a
device that is ready at once completes and leaves one stream enabled. -/
theorem C28_initialize_one_stream_witness :
    getNumEnabledDataStreams boardStreams01Enabled = 2 ∧
    initializeBoard readyHardware sourceValue 2 boardStreams01Enabled = some initializedBoard ∧
    initializedBoard.dataStreamEnabled.get 0 = 1 ∧
    getNumEnabledDataStreams initializedBoard = 1 :=
  ⟨by decide, initializeBoard_ready,
   (C28_initialize_one_stream readyHardware sourceValue 2 boardStreams01Enabled initializedBoard
      (enableDataStream_inv 1 true _ (enableDataStream_inv 0 true _ (ctor_inv idleDevice [])))
      initializeBoard_ready).1,
   (C28_initialize_one_stream readyHardware sourceValue 2 boardStreams01Enabled initializedBoard
      (enableDataStream_inv 1 true _ (enableDataStream_inv 0 true _ (ctor_inv idleDevice [])))
      initializeBoard_ready).2.2⟩

/-- A bit of the 4-bit field number `p` of a register. -/
theorem testBit_portField (p reg j : Nat) :
    (portField p reg).testBit j = (decide (j < 4) && reg.testBit (4 * p + j)) := by
  unfold portField
  have h16 : (16 : Nat) = 2 ^ 4 := by norm_num
  rw [h16, Nat.testBit_mod_two_pow, Nat.testBit_shiftRight]

/-- On a 32-bit register `setCableDelay` with a delay of at least 1 changes
the value of `WireInMisoDelay` exactly when the delay is at most 15 and the
port's field held another value. -/
theorem setCableDelay_changes_iff (port : BoardPort) (d : Int) (b : Rhd2000EvalBoard)
    (hd : 1 ≤ d) (hreg : b.dev.wireIn OkEndPoint.WireInMisoDelay < 4294967296) :
    (setCableDelay port d b).dev.wireIn OkEndPoint.WireInMisoDelay
        ≠ b.dev.wireIn OkEndPoint.WireInMisoDelay
      ↔ d ≤ 15 ∧ portField (portIndex port) (b.dev.wireIn OkEndPoint.WireInMisoDelay) ≠ d.toNat := by
  by_cases hle : d ≤ 15
  · have hf := setCableDelay_field port d b ⟨by omega, hle⟩
    constructor
    · intro hne
      refine ⟨hle, ?_⟩
      intro heq
      apply hne
      apply Nat.eq_of_testBit_eq
      intro i
      rw [hf.1 hreg i]
      by_cases hi : 4 * portIndex port ≤ i ∧ i < 4 * portIndex port + 4
      · rw [if_pos hi, ← heq, testBit_portField]
        have h1 : decide (i - 4 * portIndex port < 4) = true := by
          rw [decide_eq_true_eq]; omega
        have h2 : 4 * portIndex port + (i - 4 * portIndex port) = i := by omega
        rw [h1, h2, Bool.true_and]
      · rw [if_neg hi]
    · rintro ⟨_, hne⟩ heq
      have h := hf.2.1 port
      rw [if_pos rfl, heq] at h
      exact hne h
  · constructor
    · intro hne
      exfalso
      apply hne
      unfold setCableDelay
      rw [if_pos (Or.inr (by omega))]
    · rintro ⟨h, _⟩
      exact absurd h hle

/-- C30 as stated fails in both directions.  In a state where the field of
port B already holds 3, `setCableLengthMeters(PortB, 0.9144)` at 30 kS/s
computes the delay 3 (which is also `max(1, ceil(T * 2800 * r))`), at most 15,
and leaves the value of `WireInMisoDelay` as it was.  In the constructor state
at the length `15.694413555011002`, `max(1, ceil(T * 2800 * r))` is 16, above
15, and the call changes the register from 0 to 15. -/
theorem C30_counterexample :
    setCableLengthMetersDelay boardDelayB3 (Double.round (9144 / 10000)) = some 3 ∧
    max 1 ⌈specCableSteps boardDelayB3 (8236182998535163 / 9007199254740992)⌉ = 3 ∧
    (setCableLengthMeters BoardPort.PortB (Double.round (9144 / 10000)) boardDelayB3).map
        (fun s => s.dev.wireIn OkEndPoint.WireInMisoDelay)
      = some (boardDelayB3.dev.wireIn OkEndPoint.WireInMisoDelay) ∧
    max 1 ⌈specCableSteps (ctor idleDevice []) (8835169379768251 / 562949953421312)⌉ = 16 ∧
    (ctor idleDevice []).dev.wireIn OkEndPoint.WireInMisoDelay = 0 ∧
    (setCableLengthMeters BoardPort.PortA (some (8835169379768251 / 562949953421312))
        (ctor idleDevice [])).map (fun s => s.dev.wireIn OkEndPoint.WireInMisoDelay)
      = some 15 := by
  refine ⟨by decide!, ?_, by decide!, specCableSteps_boundary.2, rfl, by decide!⟩
  have h : ⌈specCableSteps boardDelayB3 (8236182998535163 / 9007199254740992)⌉ = 3 := by
    rw [Int.ceil_eq_iff, (specCable_eq _ _).1]
    have hr : getSampleRate boardDelayB3 = 30000 := rfl
    rw [hr]
    norm_num
  rw [h]
  rfl

/-- C30 (amended): with `d` the delay that `setCableLengthMeters(port, L)`
computes in `double` arithmetic (`max(1, ceil(timeDelay / tStep))`), the call
is `setCableDelay(port, d)`.  When `d <= 15` it writes the port's field of
`WireInMisoDelay` (one masked write and one `UpdateWireIns`), the field then
holds `d` and the fields of the other ports are kept; when `d > 15` it
returns the board unchanged, its log and the previous delay of the port
included.  So the call makes a transport call exactly when `d <= 15`, and the
value of the 32-bit register changes exactly when `d <= 15` and the port's
field held another delay.  At 30 kS/s and `L = 20` the delay is 19 and the
board is unchanged. -/
theorem C30_setCableLengthMeters_write_iff (port : BoardPort) (L : Double)
    (b : Rhd2000EvalBoard) (d : Int) (hd : setCableLengthMetersDelay b L = some d) :
    1 ≤ d ∧
    setCableLengthMeters port L b = some (setCableDelay port d b) ∧
    (d ≤ 15 →
      (setCableDelay port d b).dev.log
        = b.dev.log ++ [TransportOp.SetWireInValue OkEndPoint.WireInMisoDelay
            (d.toNat <<< portBitShift port) (0x000f <<< portBitShift port),
            TransportOp.UpdateWireIns] ∧
      ∀ q : BoardPort,
        portField (portIndex q) ((setCableDelay port d b).dev.wireIn OkEndPoint.WireInMisoDelay)
          = if q = port then d.toNat
            else portField (portIndex q) (b.dev.wireIn OkEndPoint.WireInMisoDelay)) ∧
    (15 < d → setCableLengthMeters port L b = some b) ∧
    ((setCableDelay port d b).dev.log ≠ b.dev.log ↔ d ≤ 15) ∧
    (b.dev.wireIn OkEndPoint.WireInMisoDelay < 4294967296 →
      ((setCableDelay port d b).dev.wireIn OkEndPoint.WireInMisoDelay
          ≠ b.dev.wireIn OkEndPoint.WireInMisoDelay
        ↔ d ≤ 15
          ∧ portField (portIndex port) (b.dev.wireIn OkEndPoint.WireInMisoDelay) ≠ d.toNat)) ∧
    setCableLengthMetersDelay { b with sampleRate := AmplifierSampleRate.SampleRate30000Hz }
      (Double.round 20) = some 19 ∧
    setCableLengthMeters port (Double.round 20)
        { b with sampleRate := AmplifierSampleRate.SampleRate30000Hz }
      = some { b with sampleRate := AmplifierSampleRate.SampleRate30000Hz } := by
  have hpos := setCableLengthMetersDelay_pos b L d hd
  have hcall : setCableLengthMeters port L b = some (setCableDelay port d b) := by
    unfold setCableLengthMeters
    rw [hd]
    rfl
  have hlog : d ≤ 15 →
      (setCableDelay port d b).dev.log
        = b.dev.log ++ [TransportOp.SetWireInValue OkEndPoint.WireInMisoDelay
            (d.toNat <<< portBitShift port) (0x000f <<< portBitShift port),
            TransportOp.UpdateWireIns] := by
    intro hle
    have hr : ¬ (d < 0 ∨ d > 15) := by omega
    unfold setCableDelay
    rw [if_neg hr]
    simp [okCFrontPanel.SetWireInValue, okCFrontPanel.UpdateWireIns]
  have hsame : 15 < d → setCableDelay port d b = b := by
    intro hgt
    unfold setCableDelay
    rw [if_pos (Or.inr hgt)]
  have h20 : setCableLengthMetersDelay
      { b with sampleRate := AmplifierSampleRate.SampleRate30000Hz } (Double.round 20)
      = some 19 := by
    rw [(setCableLengthMetersDelay_congr
      { b with sampleRate := AmplifierSampleRate.SampleRate30000Hz } (ctor idleDevice []) _ rfl).2]
    decide!
  refine ⟨hpos, hcall, fun hle => ⟨hlog hle,
    (setCableDelay_field port d b ⟨by omega, hle⟩).2.1⟩, ?_, ?_,
    fun hreg => setCableDelay_changes_iff port d b hpos hreg, h20, ?_⟩
  · intro hgt
    rw [hcall, hsame hgt]
  · constructor
    · intro hne
      by_contra hgt
      exact hne (by rw [hsame (by omega)])
    · intro hle hEq
      have h := hlog hle
      rw [hEq] at h
      have hlen := congrArg List.length h
      simp at hlen
  · unfold setCableLengthMeters
    rw [h20]
    show some (setCableDelay port 19 _) = _
    unfold setCableDelay
    rw [if_pos (Or.inr (by decide))]

/-- C30 (amended), instance: in the constructor state (30 kS/s) the `double`
nearest to `0.9144` gives the delay 3, the call is `setCableDelay(PortB, 3)`,
and the register, which held 0, changes. -/
theorem C30_setCableLengthMeters_write_iff_witness :
    setCableLengthMetersDelay (ctor idleDevice []) (Double.round (9144 / 10000)) = some 3 ∧
    setCableLengthMeters BoardPort.PortB (Double.round (9144 / 10000)) (ctor idleDevice [])
      = some (setCableDelay BoardPort.PortB 3 (ctor idleDevice [])) ∧
    ((setCableDelay BoardPort.PortB 3 (ctor idleDevice [])).dev.log ≠ (ctor idleDevice []).dev.log
      ↔ (3 : Int) ≤ 15) ∧
    (setCableDelay BoardPort.PortB 3 (ctor idleDevice [])).dev.wireIn OkEndPoint.WireInMisoDelay
      = 0x0030 := by
  have hd : setCableLengthMetersDelay (ctor idleDevice []) (Double.round (9144 / 10000))
      = some 3 := by
    decide!
  have h := C30_setCableLengthMeters_write_iff BoardPort.PortB (Double.round (9144 / 10000))
    (ctor idleDevice []) 3 hd
  exact ⟨hd, h.2.1, h.2.2.2.2.1, by decide⟩

/-- A wait loop whose poll takes one snapshot and tests the status wire: the
log grows by one `UpdateWireOuts` per poll and by nothing else, the wire-in
values are kept, all `fuel` polls are made when the loop is not left, and when
it is left at least one poll was made and the snapshot of the last poll passes
the test. -/
theorem whileNot_polls (hw : Hardware) (poll : Rhd2000EvalBoard → Bool × Rhd2000EvalBoard)
    (test : Nat → Bool)
    (hpoll : ∀ s : Rhd2000EvalBoard, poll s
      = (test (hw.wireOuts (s.dev.log ++ [TransportOp.UpdateWireOuts])
            OkEndPoint.WireOutDataClkLocked),
          { s with dev := s.dev.UpdateWireOuts hw })) :
    ∀ (fuel : Nat) (b : Rhd2000EvalBoard), ∃ n : Nat, n ≤ fuel ∧
      (whileNot poll fuel b).2.dev.log
        = b.dev.log ++ List.replicate n TransportOp.UpdateWireOuts ∧
      ((whileNot poll fuel b).1 = none → n = fuel) ∧
      (∀ k : Nat, (whileNot poll fuel b).1 = some k →
        1 ≤ n ∧
        test (hw.wireOuts (b.dev.log ++ List.replicate n TransportOp.UpdateWireOuts)
          OkEndPoint.WireOutDataClkLocked) = true) := by
  intro fuel
  induction fuel with
  | zero =>
    intro b
    refine ⟨0, le_refl _, by simp [whileNot], fun _ => rfl, fun k hk => ?_⟩
    simp [whileNot] at hk
  | succ m ih =>
    intro b
    unfold whileNot
    by_cases hp : (poll b).1 = true
    · rw [if_pos hp]
      refine ⟨1, by omega, ?_, fun h => by simp at h, fun k _ => ⟨le_refl _, ?_⟩⟩
      · rw [hpoll b]
        rfl
      · rw [hpoll b] at hp
        exact hp
    · rw [if_neg hp]
      obtain ⟨n, hn, hlog, hnone, hsome⟩ := ih (poll b).2
      have hlog0 : (poll b).2.dev.log = b.dev.log ++ [TransportOp.UpdateWireOuts] := by
        rw [hpoll b]; rfl
      have happ : (poll b).2.dev.log ++ List.replicate n TransportOp.UpdateWireOuts
          = b.dev.log ++ List.replicate (n + 1) TransportOp.UpdateWireOuts := by
        rw [hlog0, List.append_assoc, List.replicate_succ]
        rfl
      refine ⟨n + 1, by omega, ?_, fun h => ?_, fun k hk => ?_⟩
      · rw [hlog, happ]
      · rw [hnone h]
      · obtain ⟨h1, h2⟩ := hsome k hk
        rw [happ] at h2
        exact ⟨by omega, h2⟩

/-- C26: for a rate of the table with pair `(M, D)` and every device, the
transport calls that `setSampleRate` has issued at any point are `p` polls
(`UpdateWireOuts`), and then, unless the call is still waiting for
`DcmProgDone`, the one write of `256*M + D` to `WireInDataFreqPll`, one
`UpdateWireIns`, the one pulse of `TrigInDcmProg`, and `q` further polls.  The
write is issued only when `p >= 1` and poll `p` has shown `DcmProgDone` (bit 1
of `WireOutDataClkLocked`) set; the pulse follows the write; and the call
returns true only when `q >= 1` and its last poll has shown `DataClkLocked`
(bit 0) set. -/
theorem C26_setSampleRate_sequence (hw : Hardware) (fuel : Nat) (r : AmplifierSampleRate)
    (b : Rhd2000EvalBoard) (M D : Nat) (hmd : setSampleRateMD r = some (M, D)) :
    ∃ p q : Nat,
      ((setSampleRate hw fuel r b
          = Outcome.waitingDcmProgDone (setSampleRate hw fuel r b).board ∧
        (setSampleRate hw fuel r b).board.dev.log
          = b.dev.log ++ List.replicate p TransportOp.UpdateWireOuts) ∨
       ((setSampleRate hw fuel r b).board.dev.log
          = b.dev.log ++ List.replicate p TransportOp.UpdateWireOuts
            ++ [TransportOp.SetWireInValue OkEndPoint.WireInDataFreqPll (256 * M + D) 0xffffffff,
                TransportOp.UpdateWireIns,
                TransportOp.ActivateTriggerIn OkEndPoint.TrigInDcmProg 0]
            ++ List.replicate q TransportOp.UpdateWireOuts ∧
        1 ≤ p ∧
        (hw.wireOuts (b.dev.log ++ List.replicate p TransportOp.UpdateWireOuts)
          OkEndPoint.WireOutDataClkLocked &&& 0x0002) > 1 ∧
        (∀ b1 : Rhd2000EvalBoard, setSampleRate hw fuel r b = Outcome.returned true b1 →
          1 ≤ q ∧
          (hw.wireOuts b1.dev.log OkEndPoint.WireOutDataClkLocked &&& 0x0001) > 0))) := by
  unfold setSampleRate
  rw [hmd]
  dsimp only
  obtain ⟨p, _, hlog1, hnone1, hsome1⟩ := whileNot_polls hw (isDcmProgDone hw)
    (fun v => decide ((v &&& 0x0002) > 1)) (fun _ => rfl) fuel { b with sampleRate := r }
  rcases hw1 : whileNot (isDcmProgDone hw) fuel { b with sampleRate := r } with ⟨o1, b2⟩
  rw [hw1] at hlog1 hnone1 hsome1
  cases o1 with
  | none =>
    exact ⟨p, 0, Or.inl ⟨rfl, hlog1⟩⟩
  | some fuel2 =>
    dsimp only
    obtain ⟨hp1, hbit1⟩ := hsome1 fuel2 rfl
    obtain ⟨q, _, hlog2, hnone2, hsome2⟩ := whileNot_polls hw (isDataClockLocked hw)
      (fun v => decide ((v &&& 0x0001) > 0)) (fun _ => rfl) fuel2
      { b2 with
        dev := ((b2.dev.SetWireInValue OkEndPoint.WireInDataFreqPll (256 * M + D)
                  0xffffffff).UpdateWireIns).ActivateTriggerIn OkEndPoint.TrigInDcmProg 0 }
    have hlog3 : ({ b2 with
        dev := ((b2.dev.SetWireInValue OkEndPoint.WireInDataFreqPll (256 * M + D)
                  0xffffffff).UpdateWireIns).ActivateTriggerIn OkEndPoint.TrigInDcmProg 0 }
          : Rhd2000EvalBoard).dev.log
        = b.dev.log ++ List.replicate p TransportOp.UpdateWireOuts
          ++ [TransportOp.SetWireInValue OkEndPoint.WireInDataFreqPll (256 * M + D) 0xffffffff,
              TransportOp.UpdateWireIns,
              TransportOp.ActivateTriggerIn OkEndPoint.TrigInDcmProg 0] := by
      show ((b2.dev.log ++ _) ++ _) ++ _ = _
      rw [hlog1]
      simp
    rw [hlog3] at hlog2 hsome2
    rcases hw2 : whileNot (isDataClockLocked hw) fuel2
      { b2 with
        dev := ((b2.dev.SetWireInValue OkEndPoint.WireInDataFreqPll (256 * M + D)
                  0xffffffff).UpdateWireIns).ActivateTriggerIn OkEndPoint.TrigInDcmProg 0 }
      with ⟨o2, b4⟩
    rw [hw2] at hlog2 hnone2 hsome2
    have hb1 : (hw.wireOuts (b.dev.log ++ List.replicate p TransportOp.UpdateWireOuts)
        OkEndPoint.WireOutDataClkLocked &&& 0x0002) > 1 := of_decide_eq_true hbit1
    cases o2 with
    | none =>
      refine ⟨p, q, Or.inr ⟨hlog2, hp1, hb1, fun b1 h => ?_⟩⟩
      cases h
    | some fuel3 =>
      refine ⟨p, q, Or.inr ⟨hlog2, hp1, hb1, fun b1 h => ?_⟩⟩
      obtain ⟨hq1, hbit2⟩ := hsome2 fuel3 rfl
      simp only [Outcome.returned.injEq, true_and] at h
      subst h
      refine ⟨hq1, ?_⟩
      have hb := of_decide_eq_true hbit2
      have hl : b4.dev.log = _ := hlog2
      rw [hl]
      exact hb

/-- C26, instance: on a device that is ready at once the call for 20000 Hz
issues one poll, the write of `256*28 + 25 = 7193`, the update, the pulse and
one more poll, and returns true. -/
theorem C26_setSampleRate_sequence_witness :
    (setSampleRate readyHardware 2 AmplifierSampleRate.SampleRate20000Hz
        (ctor idleDevice [])).board.dev.log
      = [TransportOp.UpdateWireOuts,
         TransportOp.SetWireInValue OkEndPoint.WireInDataFreqPll 7193 0xffffffff,
         TransportOp.UpdateWireIns,
         TransportOp.ActivateTriggerIn OkEndPoint.TrigInDcmProg 0,
         TransportOp.UpdateWireOuts] ∧
    (∃ p q : Nat,
      ((setSampleRate readyHardware 2 AmplifierSampleRate.SampleRate20000Hz (ctor idleDevice [])
          = Outcome.waitingDcmProgDone
              (setSampleRate readyHardware 2 AmplifierSampleRate.SampleRate20000Hz
                (ctor idleDevice [])).board ∧
        (setSampleRate readyHardware 2 AmplifierSampleRate.SampleRate20000Hz
            (ctor idleDevice [])).board.dev.log
          = (ctor idleDevice []).dev.log ++ List.replicate p TransportOp.UpdateWireOuts) ∨
       ((setSampleRate readyHardware 2 AmplifierSampleRate.SampleRate20000Hz
            (ctor idleDevice [])).board.dev.log
          = (ctor idleDevice []).dev.log ++ List.replicate p TransportOp.UpdateWireOuts
            ++ [TransportOp.SetWireInValue OkEndPoint.WireInDataFreqPll (256 * 28 + 25)
                  0xffffffff,
                TransportOp.UpdateWireIns,
                TransportOp.ActivateTriggerIn OkEndPoint.TrigInDcmProg 0]
            ++ List.replicate q TransportOp.UpdateWireOuts ∧
        1 ≤ p ∧
        (readyHardware.wireOuts
            ((ctor idleDevice []).dev.log ++ List.replicate p TransportOp.UpdateWireOuts)
          OkEndPoint.WireOutDataClkLocked &&& 0x0002) > 1 ∧
        (∀ b1 : Rhd2000EvalBoard,
          setSampleRate readyHardware 2 AmplifierSampleRate.SampleRate20000Hz
              (ctor idleDevice []) = Outcome.returned true b1 →
          1 ≤ q ∧
          (readyHardware.wireOuts b1.dev.log OkEndPoint.WireOutDataClkLocked &&& 0x0001)
            > 0)))) :=
  ⟨by decide,
   C26_setSampleRate_sequence readyHardware 2 AmplifierSampleRate.SampleRate20000Hz
     (ctor idleDevice []) 28 25 rfl⟩

/-- The words read by a log extended with a snapshot. -/
theorem wordsRead_append_update (log : List TransportOp) :
    wordsRead (log ++ [TransportOp.UpdateWireOuts]) = wordsRead log := by
  simp [wordsRead, transfers, List.filterMap_append]

/-- The words read by a log extended with a transfer of `n` bytes. -/
theorem wordsRead_append_read (log : List TransportOp) (ep : OkEndPoint) (n : Nat) :
    wordsRead (log ++ [TransportOp.ReadFromPipeOut ep n]) = wordsRead log + n / 2 := by
  simp [wordsRead, transfers, List.filterMap_append]

/-- The transfers of a log extended with a snapshot. -/
theorem transfers_append_update (log : List TransportOp) :
    transfers (log ++ [TransportOp.UpdateWireOuts]) = transfers log := by
  simp [transfers, List.filterMap_append]

/-- The transfers of a log extended with a transfer of `n` bytes. -/
theorem transfers_append_read (log : List TransportOp) (ep : OkEndPoint) (n : Nat) :
    transfers (log ++ [TransportOp.ReadFromPipeOut ep n]) = transfers log ++ [n] := by
  simp [transfers, List.filterMap_append]

/-- On a stopped device `numWordsInFifo()` returns the occupancy of the
FIFO, the words held at the start less the words read, and adds one snapshot
to the log. -/
theorem numWordsInFifo_stopped (total : Nat) (hw : Hardware) (hst : StoppedFifo total hw)
    (s : Rhd2000EvalBoard)
    (hocc : total - wordsRead s.dev.log < 4294967296) :
    (numWordsInFifo hw s).1 = total - wordsRead s.dev.log ∧
    (numWordsInFifo hw s).2.dev.log
      = s.dev.log ++ [TransportOp.UpdateWireOuts] := by
  refine ⟨?_, rfl⟩
  show ((hw.wireOuts (s.dev.log ++ [TransportOp.UpdateWireOuts])
      OkEndPoint.WireOutNumWordsMsb <<< 16)
    + hw.wireOuts (s.dev.log ++ [TransportOp.UpdateWireOuts])
      OkEndPoint.WireOutNumWordsLsb) % 4294967296 = _
  rw [(hst _).1, (hst _).2, wordsRead_append_update, Nat.shiftLeft_eq]
  have h16 : (2 : Nat) ^ 16 = 65536 := by norm_num
  rw [h16, Nat.div_add_mod']
  exact Nat.mod_eq_of_lt hocc

/-- The first loop of `flush()` on a stopped device: from an occupancy of
`q * h + r` words with `r < h`, where the buffer is `2 * h` bytes, it makes
`q` transfers of a whole buffer and leaves `r` words. -/
theorem flush_first_loop (total h : Nat) (hw : Hardware) (hst : StoppedFifo total hw)
    (hh : 0 < h) :
    ∀ (q : Nat) (s : Rhd2000EvalBoard) (fuel r : Nat),
      total - wordsRead s.dev.log = q * h + r → r < h → q * h + r < 4294967296 →
      q + 1 ≤ fuel →
      ∃ s1, whileDo
          (fun s => (decide ((numWordsInFifo hw s).1 ≥ (2 * h) / 2),
            (numWordsInFifo hw s).2))
          (fun s => ReadFromPipeOut hw OkEndPoint.PipeOutData (2 * h) s)
          fuel s = some s1 ∧
        total - wordsRead s1.dev.log = r ∧
        transfers s1.dev.log = transfers s.dev.log ++ List.replicate q (2 * h) := by
  have hhalf : (2 * h) / 2 = h := by omega
  intro q
  induction q with
  | zero =>
    intro s fuel r hocc hr hlt hfuel
    obtain ⟨f, rfl⟩ : ∃ f, fuel = f + 1 := ⟨fuel - 1, by omega⟩
    have hocc0 : total - wordsRead s.dev.log = r := by simpa using hocc
    obtain ⟨hn, hlog⟩ := numWordsInFifo_stopped total hw hst s (by omega)
    refine ⟨(numWordsInFifo hw s).2, ?_, ?_, ?_⟩
    · rw [whileDo]
      have : ¬ ((numWordsInFifo hw s).1 ≥ (2 * h) / 2) := by
        rw [hn, hhalf]; omega
      simp only [decide_eq_true_eq, this, if_false]
    · rw [hlog, wordsRead_append_update]; exact hocc0
    · rw [hlog, transfers_append_update]; simp
  | succ q ih =>
    intro s fuel r hocc hr hlt hfuel
    obtain ⟨f, rfl⟩ : ∃ f, fuel = f + 1 := ⟨fuel - 1, by omega⟩
    have hmul : (q + 1) * h = q * h + h := Nat.succ_mul q h
    rw [hmul] at hocc hlt
    obtain ⟨hn, hlog⟩ := numWordsInFifo_stopped total hw hst s (by omega)
    have hs1log : (ReadFromPipeOut hw OkEndPoint.PipeOutData (2 * h)
        (numWordsInFifo hw s).2).dev.log
        = s.dev.log ++ [TransportOp.UpdateWireOuts]
          ++ [TransportOp.ReadFromPipeOut OkEndPoint.PipeOutData (2 * h)] := by
      show (numWordsInFifo hw s).2.dev.log ++ _ = _
      rw [hlog]
    have hwords : wordsRead (ReadFromPipeOut hw OkEndPoint.PipeOutData
        (2 * h) (numWordsInFifo hw s).2).dev.log
        = wordsRead s.dev.log + h := by
      rw [hs1log, wordsRead_append_read, wordsRead_append_update, hhalf]
    obtain ⟨s1, hrun, hocc1, htr⟩ := ih
      (ReadFromPipeOut hw OkEndPoint.PipeOutData (2 * h)
        (numWordsInFifo hw s).2) f r
      (by rw [hwords]; omega) hr (by omega) (by omega)
    refine ⟨s1, ?_, hocc1, ?_⟩
    · rw [whileDo]
      have : (numWordsInFifo hw s).1 ≥ (2 * h) / 2 := by
        rw [hn, hhalf]; omega
      simp only [decide_eq_true_eq, this, if_true]
      exact hrun
    · rw [htr, hs1log, transfers_append_read, transfers_append_update, List.replicate_succ,
        List.append_assoc]
      rfl

/-- The second loop of `flush()` on a stopped device: from an occupancy of
`r` words with `2 * r` below `2 ^ 32` it makes no transfer when `r = 0` and one
transfer of `2 * r` bytes otherwise, and leaves the FIFO empty. -/
theorem flush_second_loop (total : Nat) (hw : Hardware) (hst : StoppedFifo total hw)
    (s : Rhd2000EvalBoard) (fuel r : Nat)
    (hocc : total - wordsRead s.dev.log = r) (hr : 2 * r < 4294967296) (hfuel : 2 ≤ fuel) :
    ∃ s2, whileDo
        (fun s => (decide ((numWordsInFifo hw s).1 > 0),
          (numWordsInFifo hw s).2))
        (fun s => ReadFromPipeOut hw OkEndPoint.PipeOutData
          ((2 * (numWordsInFifo hw s).1) % 4294967296)
          (numWordsInFifo hw s).2)
        fuel s = some s2 ∧
      total - wordsRead s2.dev.log = 0 ∧
      transfers s2.dev.log = transfers s.dev.log ++ (if r = 0 then [] else [2 * r]) := by
  obtain ⟨f, rfl⟩ : ∃ f, fuel = f + 2 := ⟨fuel - 2, by omega⟩
  obtain ⟨hn, hlog⟩ := numWordsInFifo_stopped total hw hst s (by omega)
  by_cases hr0 : r = 0
  · refine ⟨(numWordsInFifo hw s).2, ?_, ?_, ?_⟩
    · rw [whileDo]
      have : ¬ ((numWordsInFifo hw s).1 > 0) := by
        rw [hn]; omega
      simp only [decide_eq_true_eq, this, if_false]
    · rw [hlog, wordsRead_append_update]; omega
    · rw [hlog, transfers_append_update, if_pos hr0]; simp
  · have hocc0 : total - wordsRead (numWordsInFifo hw s).2.dev.log = r := by
      rw [hlog, wordsRead_append_update]; exact hocc
    obtain ⟨hn0, hlog0⟩ := numWordsInFifo_stopped total hw hst
      (numWordsInFifo hw s).2 (by omega)
    rw [hocc0] at hn0
    have hs1log : (ReadFromPipeOut hw OkEndPoint.PipeOutData
        ((2 * (numWordsInFifo hw
          (numWordsInFifo hw s).2).1) % 4294967296)
        (numWordsInFifo hw
          (numWordsInFifo hw s).2).2).dev.log
        = s.dev.log ++ [TransportOp.UpdateWireOuts] ++ [TransportOp.UpdateWireOuts]
          ++ [TransportOp.ReadFromPipeOut OkEndPoint.PipeOutData (2 * r)] := by
      show (numWordsInFifo hw
          (numWordsInFifo hw s).2).2.dev.log ++ _ = _
      rw [hlog0, hlog, hn0, Nat.mod_eq_of_lt hr]
    have hwords : wordsRead (ReadFromPipeOut hw OkEndPoint.PipeOutData
        ((2 * (numWordsInFifo hw
          (numWordsInFifo hw s).2).1) % 4294967296)
        (numWordsInFifo hw
          (numWordsInFifo hw s).2).2).dev.log
        = wordsRead s.dev.log + r := by
      rw [hs1log, wordsRead_append_read, wordsRead_append_update, wordsRead_append_update]
      omega
    have hocc1 : total - wordsRead (ReadFromPipeOut hw
        OkEndPoint.PipeOutData
        ((2 * (numWordsInFifo hw
          (numWordsInFifo hw s).2).1) % 4294967296)
        (numWordsInFifo hw
          (numWordsInFifo hw s).2).2).dev.log = 0 := by
      rw [hwords]; omega
    obtain ⟨hn1, hlog1⟩ := numWordsInFifo_stopped total hw hst _ (by rw [hocc1]; decide)
    rw [hocc1] at hn1
    refine ⟨(numWordsInFifo hw
      (ReadFromPipeOut hw OkEndPoint.PipeOutData
        ((2 * (numWordsInFifo hw
          (numWordsInFifo hw s).2).1) % 4294967296)
        (numWordsInFifo hw
          (numWordsInFifo hw s).2).2)).2, ?_, ?_, ?_⟩
    · rw [whileDo]
      have h1 : (numWordsInFifo hw s).1 > 0 := by
        rw [hn]; omega
      simp only [decide_eq_true_eq, h1, if_true]
      rw [whileDo]
      simp only [decide_eq_true_eq, hn1, gt_iff_lt, lt_self_iff_false, if_false]
    · rw [hlog1, wordsRead_append_update]; exact hocc1
    · rw [hlog1, transfers_append_update, hs1log, transfers_append_read, transfers_append_update,
        transfers_append_update, if_neg hr0]

/-- The hardware `stoppedFifoHardware total` is a stopped device. -/
theorem stoppedFifoHardware_stopped (total : Nat) : StoppedFifo total (stoppedFifoHardware total) := by
  intro log
  exact ⟨rfl, rfl⟩

/-- The arithmetic of the chunks of `flush()`: with a buffer of `2 * h` bytes
and `w` words, the quotient and remainder of the bytes by the buffer. -/
theorem flush_chunks (w h : Nat) (hh : 0 < h) :
    2 * w / (2 * h) = w / h ∧ 2 * w % (2 * h) = 2 * (w % h) ∧
    (∀ i, i < w / h → 2 * h ≤ 2 * (w - i * h)) ∧ w % h = w - (w / h) * h := by
  refine ⟨Nat.mul_div_mul_left w h (by decide), Nat.mul_mod_mul_left 2 w h, ?_, ?_⟩
  · intro i hi
    have h1 : (i + 1) * h ≤ w / h * h := Nat.mul_le_mul_right h hi
    have h2 : w / h * h ≤ w := Nat.div_mul_le_self w h
    have h3 : (i + 1) * h = i * h + h := Nat.succ_mul i h
    omega
  · have h1 : w / h * h + w % h = w := Nat.div_add_mod' w h
    omega

/-- C23: on a device whose acquisition is stopped and whose FIFO holds `w`
words, with `USB_BUFFER_SIZE` positive, even and below `2 ^ 32`, `flush()`
returns, given fuel for its `2 * w / USB_BUFFER_SIZE + 2` loop tests, with the
FIFO empty, having made `2 * w / USB_BUFFER_SIZE` transfers of
`USB_BUFFER_SIZE` bytes and then, when bytes remain, one transfer of the
`2 * w % USB_BUFFER_SIZE` remaining bytes; the FIFO holds at least
`USB_BUFFER_SIZE` bytes before each whole transfer and exactly the remaining
bytes, fewer than `USB_BUFFER_SIZE`, before the last. -/
theorem C23_flush_drains (USB_BUFFER_SIZE w fuel : Nat) (hw : Hardware) (b : Rhd2000EvalBoard)
    (hst : StoppedFifo (w + wordsRead b.dev.log) hw)
    (heven : USB_BUFFER_SIZE % 2 = 0) (hpos : 0 < USB_BUFFER_SIZE)
    (hsize : USB_BUFFER_SIZE < 4294967296) (hw32 : w < 4294967296)
    (hfuel : 2 * w / USB_BUFFER_SIZE + 2 ≤ fuel) :
    (numWordsInFifo hw b).1 = w ∧
    ∃ b2, flush USB_BUFFER_SIZE hw fuel b = some b2 ∧
      (numWordsInFifo hw b2).1 = 0 ∧
      transfers b2.dev.log = transfers b.dev.log
        ++ List.replicate (2 * w / USB_BUFFER_SIZE) USB_BUFFER_SIZE
        ++ (if 2 * w % USB_BUFFER_SIZE = 0 then [] else [2 * w % USB_BUFFER_SIZE]) ∧
      (∀ i, i < 2 * w / USB_BUFFER_SIZE →
        USB_BUFFER_SIZE ≤ 2 * (w - i * (USB_BUFFER_SIZE / 2))) ∧
      2 * w % USB_BUFFER_SIZE
        = 2 * (w - (2 * w / USB_BUFFER_SIZE) * (USB_BUFFER_SIZE / 2)) ∧
      2 * w % USB_BUFFER_SIZE < USB_BUFFER_SIZE := by
  obtain ⟨h, rfl⟩ : ∃ h, USB_BUFFER_SIZE = 2 * h := ⟨USB_BUFFER_SIZE / 2, by omega⟩
  have hh : 0 < h := by omega
  have hhalf : (2 * h) / 2 = h := by omega
  obtain ⟨hq, hrem, hfull, hlast⟩ := flush_chunks w h hh
  have hrlt : w % h < h := Nat.mod_lt w hh
  have hdm : w / h * h + w % h = w := Nat.div_add_mod' w h
  rw [hq] at hfuel
  have hocc : (w + wordsRead b.dev.log) - wordsRead b.dev.log = w / h * h + w % h := by
    rw [hdm]; omega
  refine ⟨?_, ?_⟩
  · rw [(numWordsInFifo_stopped _ hw hst b (by omega)).1]; omega
  obtain ⟨s1, hrun1, hocc1, htr1⟩ := flush_first_loop (w + wordsRead b.dev.log) h hw hst hh
    (w / h) b fuel (w % h) hocc hrlt (by omega)
    (le_trans (Nat.add_le_add_left (by decide) _) hfuel)
  obtain ⟨s2, hrun2, hocc2, htr2⟩ := flush_second_loop (w + wordsRead b.dev.log) hw hst
    s1 fuel (w % h) hocc1 (by omega) (le_trans (Nat.le_add_left 2 _) hfuel)
  refine ⟨s2, ?_, ?_, ?_, ?_, ?_, ?_⟩
  · unfold flush
    rw [hrun1]
    exact hrun2
  · rw [(numWordsInFifo_stopped _ hw hst s2 (by rw [hocc2]; decide)).1]; exact hocc2
  · rw [htr2, htr1, hq, hrem]
    by_cases hr0 : w % h = 0
    · rw [if_pos hr0, if_pos (by omega)]
    · rw [if_neg hr0, if_neg (by omega)]
  · intro i hi
    rw [hq] at hi
    rw [hhalf]
    exact hfull i hi
  · rw [hrem, hq, hhalf, hlast]
  · exact Nat.mod_lt _ hpos

/-- C23 at a FIFO of 10 words and a buffer of 8 bytes: two whole transfers and
one of 4 bytes. -/
theorem C23_flush_drains_witness :
    StoppedFifo (10 + wordsRead (ctor idleDevice []).dev.log) (stoppedFifoHardware 10) ∧
    8 % 2 = 0 ∧ 0 < 8 ∧ 8 < 4294967296 ∧ 10 < 4294967296 ∧ 2 * 10 / 8 + 2 ≤ 4 ∧
    ((numWordsInFifo (stoppedFifoHardware 10) (ctor idleDevice [])).1 = 10 ∧
    ∃ b2, flush 8 (stoppedFifoHardware 10) 4 (ctor idleDevice []) = some b2 ∧
      (numWordsInFifo (stoppedFifoHardware 10) b2).1 = 0 ∧
      transfers b2.dev.log = transfers (ctor idleDevice []).dev.log
        ++ List.replicate (2 * 10 / 8) 8
        ++ (if 2 * 10 % 8 = 0 then [] else [2 * 10 % 8]) ∧
      (∀ i, i < 2 * 10 / 8 → 8 ≤ 2 * (10 - i * (8 / 2))) ∧
      2 * 10 % 8 = 2 * (10 - (2 * 10 / 8) * (8 / 2)) ∧
      2 * 10 % 8 < 8) :=
  ⟨stoppedFifoHardware_stopped 10, by decide, by decide, by decide, by decide, by decide,
    C23_flush_drains 8 10 4 (stoppedFifoHardware 10) (ctor idleDevice []) (stoppedFifoHardware_stopped 10)
      (by decide) (by decide) (by decide) (by decide) (by decide)⟩

/-- A masked write keeps every bit below 32 that its mask does not select. -/
theorem testBit_maskedWrite_outside (old val mask i : Nat) (hm : mask < 4294967296)
    (hi : i < 32) (hbit : mask.testBit i = false) :
    (maskedWrite old val mask).testBit i = old.testBit i := by
  rw [testBit_maskedWrite_low old val mask i hm hi, hbit]
  rfl

/-- A word that agrees with `old` on the bits below 32 outside the mask `m`
has the same field as `old` under every 32-bit mask disjoint from `m`. -/
theorem field_of_bits (old new m mt : Nat) (hmt : mt < 4294967296) (hd : m &&& mt = 0)
    (h : ∀ i, i < 32 → m.testBit i = false → new.testBit i = old.testBit i) :
    new &&& mt = old &&& mt := by
  apply Nat.eq_of_testBit_eq
  intro i
  rw [Nat.testBit_and, Nat.testBit_and]
  by_cases hi : i < 32
  · have hdi : (m &&& mt).testBit i = false := by rw [hd]; exact Nat.zero_testBit i
    rw [Nat.testBit_and] at hdi
    cases hti : mt.testBit i
    · simp
    · rw [hti] at hdi
      have hmi : m.testBit i = false := by simpa using hdi
      rw [h i hi hmi]
  · rw [testBit_of_lt_two_pow_32 mt i hmt (by omega)]
    simp

/-- The masks of two different setters of `WireInResetRun` share no bit. -/
theorem specResetRunMask_disjoint (s t : ResetRunCall)
    (hst : resetRunSetter t ≠ resetRunSetter s) :
    specResetRunMask s &&& specResetRunMask t = 0 := by
  cases s <;> cases t <;> first | (exact absurd rfl hst) | (simp only [specResetRunMask]; decide)

/-- Every mask of a setter of `WireInResetRun` is a 32-bit word. -/
theorem specResetRunMask_lt (s : ResetRunCall) : specResetRunMask s < 4294967296 := by
  cases s <;> (simp only [specResetRunMask]; decide)

/-- An in-range argument of `setAudioNoiseSuppress`, shifted to bit 6, lies
inside the mask `0x1fc0`. -/
theorem noiseSuppress_inside (n : Int) (h0 : 0 ≤ n) (h1 : n ≤ 127) :
    (n.toNat <<< 6) &&& 0x1fc0 = n.toNat <<< 6 := by
  obtain ⟨k, rfl⟩ := Int.eq_ofNat_of_zero_le h0
  have hk : k ≤ 127 := by omega
  simp only [Int.toNat_ofNat]
  interval_cases k <;> decide

/-- An in-range argument of `setDacGain`, shifted to bit 13, lies inside the
mask `0xe000`. -/
theorem gain_inside (g : Int) (h0 : 0 ≤ g) (h1 : g ≤ 7) :
    (g.toNat <<< 13) &&& 0xe000 = g.toNat <<< 13 := by
  obtain ⟨k, rfl⟩ := Int.eq_ofNat_of_zero_le h0
  have hk : k ≤ 7 := by omega
  simp only [Int.toNat_ofNat]
  interval_cases k <;> decide

/-- The register `WireInResetRun` after `resetBoard()`. -/
theorem resetBoard_wireIn (b : Rhd2000EvalBoard) :
    (resetBoard b).dev.wireIn OkEndPoint.WireInResetRun
      = maskedWrite (maskedWrite (b.dev.wireIn OkEndPoint.WireInResetRun) 0x01 0x01) 0x00 0x01 := by
  simp [resetBoard, okCFrontPanel.SetWireInValue, okCFrontPanel.UpdateWireIns]

/-- The effect of a call of one of the five setters of `WireInResetRun`: the
calls it adds to the log, the wires it leaves alone, and the bits of the
register it keeps. -/
theorem resetRunCall_effect (s : ResetRunCall) (b : Rhd2000EvalBoard) :
    (∃ ops, (resetRunCall s b).dev.log = b.dev.log ++ ops ∧
      (specResetRunInRange s = true →
        ∃ val, TransportOp.SetWireInValue OkEndPoint.WireInResetRun val (specResetRunMask s)
          ∈ ops) ∧
      ∀ op ∈ ops, op = TransportOp.UpdateWireIns ∨
        ∃ val, op = TransportOp.SetWireInValue OkEndPoint.WireInResetRun val (specResetRunMask s)
          ∧ val &&& specResetRunMask s = val) ∧
    (∀ ep, ep ≠ OkEndPoint.WireInResetRun →
      (resetRunCall s b).dev.wireIn ep = b.dev.wireIn ep) ∧
    (∀ i, i < 32 → (specResetRunMask s).testBit i = false →
      ((resetRunCall s b).dev.wireIn OkEndPoint.WireInResetRun).testBit i
        = (b.dev.wireIn OkEndPoint.WireInResetRun).testBit i) ∧
    (s = ResetRunCall.resetBoard →
      ((resetRunCall s b).dev.wireIn OkEndPoint.WireInResetRun).testBit 0 = false) := by
  cases s with
  | resetBoard =>
    refine ⟨⟨[TransportOp.SetWireInValue OkEndPoint.WireInResetRun 0x01 0x01,
        TransportOp.UpdateWireIns,
        TransportOp.SetWireInValue OkEndPoint.WireInResetRun 0x00 0x01,
        TransportOp.UpdateWireIns], ?_, ?_, ?_⟩, ?_, ?_, ?_⟩
    · simp [resetRunCall, resetBoard, okCFrontPanel.SetWireInValue, okCFrontPanel.UpdateWireIns]
    · intro _
      exact ⟨0x01, by simp [specResetRunMask]⟩
    · intro op hop
      simp only [List.mem_cons, List.mem_singleton, List.mem_nil_iff, or_false] at hop
      rcases hop with rfl | rfl | rfl | rfl
      · exact Or.inr ⟨0x01, rfl, by decide⟩
      · exact Or.inl rfl
      · exact Or.inr ⟨0x00, rfl, by decide⟩
      · exact Or.inl rfl
    · intro ep hep
      simp [resetRunCall, resetBoard, okCFrontPanel.SetWireInValue, okCFrontPanel.UpdateWireIns, hep]
    · intro i hi hbit
      show ((resetBoard b).dev.wireIn OkEndPoint.WireInResetRun).testBit i = _
      rw [resetBoard_wireIn, testBit_maskedWrite_outside _ _ 0x01 i (by decide) hi hbit,
        testBit_maskedWrite_outside _ _ 0x01 i (by decide) hi hbit]
    · intro _
      show ((resetBoard b).dev.wireIn OkEndPoint.WireInResetRun).testBit 0 = _
      rw [resetBoard_wireIn, testBit_maskedWrite_low _ _ _ _ (by decide) (by decide)]
      rfl
  | setContinuousRunMode c =>
    refine ⟨⟨[TransportOp.SetWireInValue OkEndPoint.WireInResetRun (if c then 0x02 else 0x00) 0x02,
        TransportOp.UpdateWireIns], ?_, ?_, ?_⟩, ?_, ?_, ?_⟩
    · cases c <;>
        simp [resetRunCall, setContinuousRunMode, okCFrontPanel.SetWireInValue,
          okCFrontPanel.UpdateWireIns]
    · intro _
      exact ⟨(if c then 0x02 else 0x00), by simp [specResetRunMask]⟩
    · intro op hop
      simp only [List.mem_cons, List.mem_singleton, List.mem_nil_iff, or_false] at hop
      rcases hop with rfl | rfl
      · exact Or.inr ⟨_, rfl, by cases c <;> decide⟩
      · exact Or.inl rfl
    · intro ep hep
      cases c <;>
        simp [resetRunCall, setContinuousRunMode, okCFrontPanel.SetWireInValue,
          okCFrontPanel.UpdateWireIns, hep]
    · intro i hi hbit
      have hw : (resetRunCall (ResetRunCall.setContinuousRunMode c) b).dev.wireIn
          OkEndPoint.WireInResetRun
          = maskedWrite (b.dev.wireIn OkEndPoint.WireInResetRun) (if c then 0x02 else 0x00) 0x02 := by
        cases c <;>
          simp [resetRunCall, setContinuousRunMode, okCFrontPanel.SetWireInValue,
            okCFrontPanel.UpdateWireIns]
      rw [hw, testBit_maskedWrite_outside _ _ 0x02 i (by decide) hi hbit]
    · intro h
      cases h
  | setDspSettle e =>
    refine ⟨⟨[TransportOp.SetWireInValue OkEndPoint.WireInResetRun (if e then 0x04 else 0x00) 0x04,
        TransportOp.UpdateWireIns], ?_, ?_, ?_⟩, ?_, ?_, ?_⟩
    · simp [resetRunCall, setDspSettle, okCFrontPanel.SetWireInValue, okCFrontPanel.UpdateWireIns]
    · intro _
      exact ⟨(if e then 0x04 else 0x00), by simp [specResetRunMask]⟩
    · intro op hop
      simp only [List.mem_cons, List.mem_singleton, List.mem_nil_iff, or_false] at hop
      rcases hop with rfl | rfl
      · exact Or.inr ⟨_, rfl, by cases e <;> decide⟩
      · exact Or.inl rfl
    · intro ep hep
      simp [resetRunCall, setDspSettle, okCFrontPanel.SetWireInValue, okCFrontPanel.UpdateWireIns,
        hep]
    · intro i hi hbit
      have hw : (resetRunCall (ResetRunCall.setDspSettle e) b).dev.wireIn
          OkEndPoint.WireInResetRun
          = maskedWrite (b.dev.wireIn OkEndPoint.WireInResetRun) (if e then 0x04 else 0x00) 0x04 := by
        simp [resetRunCall, setDspSettle, okCFrontPanel.SetWireInValue,
          okCFrontPanel.UpdateWireIns]
      rw [hw, testBit_maskedWrite_outside _ _ 0x04 i (by decide) hi hbit]
    · intro h
      cases h
  | setAudioNoiseSuppress n =>
    by_cases hr : n < 0 ∨ n > 127
    · have hcall : resetRunCall (ResetRunCall.setAudioNoiseSuppress n) b = b := by
        simp [resetRunCall, setAudioNoiseSuppress, hr]
      rw [hcall]
      refine ⟨⟨[], by simp, ?_, ?_⟩, fun _ _ => rfl, fun _ _ _ => rfl, ?_⟩
      · intro h
        simp only [specResetRunInRange, decide_eq_true_eq] at h
        omega
      · intro op hop
        cases hop
      · intro h
        cases h
    · have h0 : 0 ≤ n := by omega
      have h1 : n ≤ 127 := by omega
      refine ⟨⟨[TransportOp.SetWireInValue OkEndPoint.WireInResetRun (n.toNat <<< 6) 0x1fc0,
          TransportOp.UpdateWireIns], ?_, ?_, ?_⟩, ?_, ?_, ?_⟩
      · simp [resetRunCall, setAudioNoiseSuppress, hr, okCFrontPanel.SetWireInValue,
          okCFrontPanel.UpdateWireIns]
      · intro _
        exact ⟨(n.toNat <<< 6), by simp [specResetRunMask]⟩
      · intro op hop
        simp only [List.mem_cons, List.mem_singleton, List.mem_nil_iff, or_false] at hop
        rcases hop with rfl | rfl
        · exact Or.inr ⟨_, rfl, noiseSuppress_inside n h0 h1⟩
        · exact Or.inl rfl
      · intro ep hep
        simp [resetRunCall, setAudioNoiseSuppress, hr, okCFrontPanel.SetWireInValue,
          okCFrontPanel.UpdateWireIns, hep]
      · intro i hi hbit
        have hw : (resetRunCall (ResetRunCall.setAudioNoiseSuppress n) b).dev.wireIn
            OkEndPoint.WireInResetRun
            = maskedWrite (b.dev.wireIn OkEndPoint.WireInResetRun) (n.toNat <<< 6) 0x1fc0 := by
          simp [resetRunCall, setAudioNoiseSuppress, hr, okCFrontPanel.SetWireInValue,
            okCFrontPanel.UpdateWireIns]
        rw [hw, testBit_maskedWrite_outside _ _ 0x1fc0 i (by decide) hi hbit]
      · intro h
        cases h
  | setDacGain g =>
    by_cases hr : g < 0 ∨ g > 7
    · have hcall : resetRunCall (ResetRunCall.setDacGain g) b = b := by
        simp [resetRunCall, setDacGain, hr]
      rw [hcall]
      refine ⟨⟨[], by simp, ?_, ?_⟩, fun _ _ => rfl, fun _ _ _ => rfl, ?_⟩
      · intro h
        simp only [specResetRunInRange, decide_eq_true_eq] at h
        omega
      · intro op hop
        cases hop
      · intro h
        cases h
    · have h0 : 0 ≤ g := by omega
      have h1 : g ≤ 7 := by omega
      refine ⟨⟨[TransportOp.SetWireInValue OkEndPoint.WireInResetRun (g.toNat <<< 13) 0xe000,
          TransportOp.UpdateWireIns], ?_, ?_, ?_⟩, ?_, ?_, ?_⟩
      · simp [resetRunCall, setDacGain, hr, okCFrontPanel.SetWireInValue,
          okCFrontPanel.UpdateWireIns]
      · intro _
        exact ⟨(g.toNat <<< 13), by simp [specResetRunMask]⟩
      · intro op hop
        simp only [List.mem_cons, List.mem_singleton, List.mem_nil_iff, or_false] at hop
        rcases hop with rfl | rfl
        · exact Or.inr ⟨_, rfl, gain_inside g h0 h1⟩
        · exact Or.inl rfl
      · intro ep hep
        simp [resetRunCall, setDacGain, hr, okCFrontPanel.SetWireInValue,
          okCFrontPanel.UpdateWireIns, hep]
      · intro i hi hbit
        have hw : (resetRunCall (ResetRunCall.setDacGain g) b).dev.wireIn
            OkEndPoint.WireInResetRun
            = maskedWrite (b.dev.wireIn OkEndPoint.WireInResetRun) (g.toNat <<< 13) 0xe000 := by
          simp [resetRunCall, setDacGain, hr, okCFrontPanel.SetWireInValue,
            okCFrontPanel.UpdateWireIns]
        rw [hw, testBit_maskedWrite_outside _ _ 0xe000 i (by decide) hi hbit]
      · intro h
        cases h

/-- C31: for every call of one of the five setters of `WireInResetRun`
(`resetBoard`, `setContinuousRunMode`, `setDspSettle`, `setAudioNoiseSuppress`,
`setDacGain`) the mask of the setter shares no bit with the mask of any other
of the five; every write the call logs is on `WireInResetRun` under the
setter's mask with a value inside that mask, and an in-range argument does
write; no other wire changes; every bit of the 32-bit register outside the
setter's mask keeps its value, so the fields of the other four setters are
unchanged; and `resetBoard` ends with bit 0 clear and every other bit of the
register as it was. -/
theorem C31_reset_run_fields (s : ResetRunCall) (b : Rhd2000EvalBoard) :
    (∀ t, resetRunSetter t ≠ resetRunSetter s →
      specResetRunMask s &&& specResetRunMask t = 0) ∧
    (∃ ops, (resetRunCall s b).dev.log = b.dev.log ++ ops ∧
      (specResetRunInRange s = true →
        ∃ val, TransportOp.SetWireInValue OkEndPoint.WireInResetRun val (specResetRunMask s)
          ∈ ops) ∧
      ∀ op ∈ ops, op = TransportOp.UpdateWireIns ∨
        ∃ val, op = TransportOp.SetWireInValue OkEndPoint.WireInResetRun val (specResetRunMask s)
          ∧ val &&& specResetRunMask s = val) ∧
    (∀ ep, ep ≠ OkEndPoint.WireInResetRun →
      (resetRunCall s b).dev.wireIn ep = b.dev.wireIn ep) ∧
    (∀ i, i < 32 → (specResetRunMask s).testBit i = false →
      ((resetRunCall s b).dev.wireIn OkEndPoint.WireInResetRun).testBit i
        = (b.dev.wireIn OkEndPoint.WireInResetRun).testBit i) ∧
    (∀ t, resetRunSetter t ≠ resetRunSetter s →
      (resetRunCall s b).dev.wireIn OkEndPoint.WireInResetRun &&& specResetRunMask t
        = b.dev.wireIn OkEndPoint.WireInResetRun &&& specResetRunMask t) ∧
    (s = ResetRunCall.resetBoard →
      ((resetRunCall s b).dev.wireIn OkEndPoint.WireInResetRun).testBit 0 = false ∧
      ∀ i, 0 < i → i < 32 →
        ((resetRunCall s b).dev.wireIn OkEndPoint.WireInResetRun).testBit i
          = (b.dev.wireIn OkEndPoint.WireInResetRun).testBit i) := by
  obtain ⟨hlog, hother, hbits, hzero⟩ := resetRunCall_effect s b
  refine ⟨fun t ht => specResetRunMask_disjoint s t ht, hlog, hother, hbits, ?_, ?_⟩
  · intro t ht
    exact field_of_bits _ _ (specResetRunMask s) (specResetRunMask t) (specResetRunMask_lt t)
      (specResetRunMask_disjoint s t ht) hbits
  · intro hs
    refine ⟨hzero hs, ?_⟩
    intro i h0 hi
    apply hbits i hi
    rw [hs]
    show Nat.testBit 1 i = false
    obtain ⟨k, rfl⟩ : ∃ k, i = k + 1 := ⟨i - 1, by omega⟩
    rw [Nat.testBit_succ]
    exact Nat.zero_testBit k

/-- C31 at `setDacGain(5)` on a board whose register holds `0x1fc6`: the
register becomes `0xbfc6` and the noise-suppression field keeps `0x1fc0`. -/
theorem C31_reset_run_fields_witness :
    resetRunSetter (ResetRunCall.setAudioNoiseSuppress 0)
      ≠ resetRunSetter (ResetRunCall.setDacGain 5) ∧
    (resetRunCall (ResetRunCall.setDacGain 5) boardResetRun1fc6).dev.wireIn
        OkEndPoint.WireInResetRun &&& specResetRunMask (ResetRunCall.setAudioNoiseSuppress 0)
      = boardResetRun1fc6.dev.wireIn OkEndPoint.WireInResetRun
        &&& specResetRunMask (ResetRunCall.setAudioNoiseSuppress 0) ∧
    (resetRunCall (ResetRunCall.setDacGain 5) boardResetRun1fc6).dev.wireIn
        OkEndPoint.WireInResetRun = 0xbfc6 ∧
    boardResetRun1fc6.dev.wireIn OkEndPoint.WireInResetRun = 0x1fc6 :=
  ⟨by decide,
   (C31_reset_run_fields (ResetRunCall.setDacGain 5) boardResetRun1fc6).2.2.2.2.1
     (ResetRunCall.setAudioNoiseSuppress 0) (by decide),
   by decide, by decide⟩

/-- The low half of a word: `m & 0x0000ffff`. -/
theorem and_ffff (m : Nat) : m &&& 0x0000ffff = m % 65536 := by
  have h : (0x0000ffff : Nat) = 2 ^ 16 - 1 := by norm_num
  rw [h, Nat.and_pow_two_sub_one_eq_mod]

/-- The high half of a 32-bit word: `(m & 0xffff0000) >> 16`. -/
theorem and_ffff0000_shift (m : Nat) (hm : m < 4294967296) :
    (m &&& 0xffff0000) >>> 16 = m / 65536 := by
  have h16 : (65536 : Nat) = 2 ^ 16 := by norm_num
  have hmask : (0xffff0000 : Nat) = (2 ^ 16 - 1) <<< 16 := by decide
  rw [h16, hmask]
  apply Nat.eq_of_testBit_eq
  intro i
  rw [← Nat.shiftRight_eq_div_pow, Nat.testBit_shiftRight, Nat.testBit_and,
    Nat.testBit_shiftLeft, Nat.testBit_shiftRight, Nat.testBit_two_pow_sub_one]
  have hle : 16 + i ≥ 16 := by omega
  have hsub : 16 + i - 16 = i := by omega
  by_cases hi : i < 16
  · simp [hi]
  · rw [testBit_of_lt_two_pow_32 m (16 + i) hm (by omega)]
    simp

/-- C32: for every 32-bit unsigned `maxTimeStep`, `setMaxTimeStep` writes
`maxTimeStep mod 65536` to `WireInMaxTimeStepLsb` and `maxTimeStep div 65536`
to `WireInMaxTimeStepMsb` (these two writes and one `UpdateWireIns` are the
calls it makes), both halves are at most 65535, and
`Msb * 65536 + Lsb = maxTimeStep`. -/
theorem C32_setMaxTimeStep_halves (maxTimeStep : Nat) (b : Rhd2000EvalBoard)
    (h : maxTimeStep < 4294967296) :
    (setMaxTimeStep maxTimeStep b).dev.wireIn OkEndPoint.WireInMaxTimeStepLsb
      = maxTimeStep % 65536 ∧
    (setMaxTimeStep maxTimeStep b).dev.wireIn OkEndPoint.WireInMaxTimeStepMsb
      = maxTimeStep / 65536 ∧
    (setMaxTimeStep maxTimeStep b).dev.log = b.dev.log ++
      [TransportOp.SetWireInValue OkEndPoint.WireInMaxTimeStepLsb (maxTimeStep % 65536) 0xffffffff,
       TransportOp.SetWireInValue OkEndPoint.WireInMaxTimeStepMsb (maxTimeStep / 65536) 0xffffffff,
       TransportOp.UpdateWireIns] ∧
    maxTimeStep % 65536 ≤ 65535 ∧ maxTimeStep / 65536 ≤ 65535 ∧
    (setMaxTimeStep maxTimeStep b).dev.wireIn OkEndPoint.WireInMaxTimeStepMsb * 65536
      + (setMaxTimeStep maxTimeStep b).dev.wireIn OkEndPoint.WireInMaxTimeStepLsb
      = maxTimeStep := by
  have hlsb : (maxTimeStep % 4294967296) &&& 0x0000ffff = maxTimeStep % 65536 := by
    rw [Nat.mod_eq_of_lt h, and_ffff]
  have hmsb : ((maxTimeStep % 4294967296) &&& 0xffff0000) >>> 16 = maxTimeStep / 65536 := by
    rw [Nat.mod_eq_of_lt h, and_ffff0000_shift maxTimeStep h]
  have hl : maxTimeStep % 65536 ≤ 65535 := by omega
  have hm : maxTimeStep / 65536 ≤ 65535 := by omega
  have hwl : (setMaxTimeStep maxTimeStep b).dev.wireIn OkEndPoint.WireInMaxTimeStepLsb
      = maxTimeStep % 65536 := by
    unfold setMaxTimeStep
    simp only [okCFrontPanel.SetWireInValue, okCFrontPanel.UpdateWireIns, reduceCtorEq,
      if_true, if_false, maskedWrite_full, hlsb]
    omega
  have hwm : (setMaxTimeStep maxTimeStep b).dev.wireIn OkEndPoint.WireInMaxTimeStepMsb
      = maxTimeStep / 65536 := by
    unfold setMaxTimeStep
    simp only [okCFrontPanel.SetWireInValue, okCFrontPanel.UpdateWireIns, reduceCtorEq,
      if_true, if_false, maskedWrite_full, hmsb]
    omega
  refine ⟨hwl, hwm, ?_, hl, hm, ?_⟩
  · show (b.dev.log ++ [TransportOp.SetWireInValue OkEndPoint.WireInMaxTimeStepLsb
        ((maxTimeStep % 4294967296) &&& 0x0000ffff) 0xffffffff]
      ++ [TransportOp.SetWireInValue OkEndPoint.WireInMaxTimeStepMsb
        (((maxTimeStep % 4294967296) &&& 0xffff0000) >>> 16) 0xffffffff])
      ++ [TransportOp.UpdateWireIns] = _
    rw [hlsb, hmsb]
    simp
  · rw [hwl, hwm]
    omega

/-- C32 at `maxTimeStep = 4294967295`, the value that `initialize()` passes:
both halves are `0xFFFF`. -/
theorem C32_setMaxTimeStep_halves_witness :
    (4294967295 : Nat) < 4294967296 ∧
    (setMaxTimeStep 4294967295 (ctor idleDevice [])).dev.wireIn OkEndPoint.WireInMaxTimeStepLsb
      = 0xFFFF ∧
    (setMaxTimeStep 4294967295 (ctor idleDevice [])).dev.wireIn OkEndPoint.WireInMaxTimeStepMsb
      = 0xFFFF :=
  ⟨by decide,
   (C32_setMaxTimeStep_halves 4294967295 (ctor idleDevice []) (by decide)).1,
   (C32_setMaxTimeStep_halves 4294967295 (ctor idleDevice []) (by decide)).2.1⟩

end Rhd2000EvalBoard
